import Mathlib

/-!
# Scopes of the watagashi parser (`src/parser/scope.cpp`)

A shallow embedding of the value model (`src/parser/value.h`), of the environment
(`src/parser/enviroment.h`) and of the scope classes of `src/parser/scope.cpp` (the boolean and
branch evaluators, the `close` protocol, the function assembler and the call binder), followed
by theorems about them.

Conventions of the embedding:

* a C++ member function that mutates `*this` is a function from the object state to the new
  object state; when it may throw, it returns a `Thrown`-or-not marker together with the state
  the object is left in (`Outcome`);
* a `const` member function that may throw returns `Except Exception _`;
* the tally counters (`mTrueCount`, `mFalseCount`, `mRunningCountOfTrueStatement`) start at `0`
  and are only ever incremented; their declared integer type lives in `scope.h`, they are
  embedded as natural numbers;
* `std::unordered_map<std::string, T>` is embedded as an association list `List (String × T)`
  whose keys are pairwise distinct (`UnorderedMap.WF`); iteration order is not observable;
* a reference to a scope (`mParentScope`) is the position of that scope in the scope stack; a
  pointer or reference to a `Value` is the owner of the storage and a path into it (`ValuePtr`);
* a scope is closed after it has been popped: `close` takes the closing scope and the
  environment whose `currentScope()` is the scope it attaches to;
* a step that C++ leaves undefined (`back()` of an empty list, popping an empty stack, a null or
  dangling pointer) stops the embedded function with `Exception.undefined`;
* functions of the repository that are defined outside the files at hand are embedded from the
  specification and say so in their comment; the collaborators the specification leaves external
  (`expandVariable`, `searchValue`) are parameters (`External`).
-/

namespace parser

/-! ## Exceptions and logical operators -/

/-- Exception classes thrown by the code of `scope.cpp` and by the `boost::get` of
`Value::get` (`bad_get`). `InvalidOperation` is what `Value::pushValue` signals. The last
constructor, `undefined`, is not a C++ exception: it marks a step whose behaviour C++ leaves
undefined (`back()` or `pop_back()` of an empty container, a null or dangling pointer), where
the embedding stops. -/
inductive Exception where
  | invalid_argument
  | runtime_error
  | SyntaxException
  | BooleanException
  | FatalException
  | bad_get
  | InvalidOperation
  | undefined
  deriving DecidableEq, Repr

/-- Enumeration `LogicOperator`: the operator joining the operands of one boolean expression. -/
inductive LogicOperator where
  | Unknown
  | Continue
  | And
  | Or
  deriving DecidableEq, Repr

/-- State of an object after a call of a member function that may throw: `thrown` is the
exception that left the call (`none` for a normal return), `state` is the object afterwards. -/
structure Outcome (σ : Type) where
  thrown : Option Exception
  state : σ
  deriving DecidableEq, Repr

/-! ## Values (`value.h`) -/

/-- Enumeration `Value::Type`. The enumerators `Function` and `Argument` are not in the
`value.h` at hand; `scope.cpp` uses `Value::Type::Function`, `get<Function>()` and
`get<Argument>()`, so the variants exist in the `Value` it is compiled against. -/
inductive ValueType where
  | None
  | Bool
  | String
  | Number
  | Array
  | Object
  | ObjectDefined
  | MemberDefined
  | Reference
  | Function
  | Argument
  deriving DecidableEq, Repr

/-- Struct `Reference`: a nested name resolved against the environment when dereferenced. -/
structure Reference where
  nestName : List String
  deriving DecidableEq, Repr

mutual
/-- Struct `Value`: the tagged union held in `Value::InnerData`. A `Value::number` (a `double`)
is only stored and copied by the code embedded here; it is represented by the rational it
denotes. -/
inductive Value where
  | none
  | bool (b : Bool)
  | string (s : String)
  | number (n : Rat)
  | array (a : List Value)
  | object (o : Object)
  | objectDefined (d : ObjectDefined)
  | memberDefined (m : MemberDefined)
  | reference (r : Reference)
  | function (f : Function)
  | argument (a : Argument)
/-- Struct `Object`: the member map and the schema `pDefined` points to (`none` for null). -/
inductive Object where
  | mk (members : List (String × Value)) (pDefined : Option ObjectDefined)
/-- Struct `ObjectDefined`: a named schema. -/
inductive ObjectDefined where
  | mk (name : String) (members : List (String × MemberDefined))
/-- Struct `MemberDefined`: declared type and default value of one schema member. -/
inductive MemberDefined where
  | mk (type : ValueType) (defaultValue : Value)
/-- Modelled from the spec: struct `Function` is declared outside the sources; `scope.cpp`
uses its argument list `arguments`, its capture list `captures` and its body text `contents`
(spec 4.4). -/
inductive Function where
  | mk (arguments : List Argument) (captures : List Value) (contents : String)
/-- Modelled from the spec: struct `Argument` (`Value::argument`) is declared outside the
sources; it is a parameter descriptor with a default value (spec 4.4). `scope.cpp` writes
`defaultValue` only; what else the descriptor holds is kept in `name`. -/
inductive Argument where
  | mk (name : String) (defaultValue : Value)
end

/-- Field `Object::members`. -/
def Object.members : Object → List (String × Value)
  | .mk members _ => members

/-- Field `Object::pDefined`. -/
def Object.pDefined : Object → Option ObjectDefined
  | .mk _ pDefined => pDefined

/-- Field `ObjectDefined::name`. -/
def ObjectDefined.name : ObjectDefined → String
  | .mk name _ => name

/-- Field `ObjectDefined::members`. -/
def ObjectDefined.members : ObjectDefined → List (String × MemberDefined)
  | .mk _ members => members

/-- Field `MemberDefined::type`. -/
def MemberDefined.type : MemberDefined → ValueType
  | .mk type _ => type

/-- Field `MemberDefined::defaultValue`. -/
def MemberDefined.defaultValue : MemberDefined → Value
  | .mk _ defaultValue => defaultValue

/-- Field `Function::arguments`. -/
def Function.arguments : Function → List Argument
  | .mk arguments _ _ => arguments

/-- Field `Function::captures`. -/
def Function.captures : Function → List Value
  | .mk _ captures _ => captures

/-- Field `Function::contents`. -/
def Function.contents : Function → String
  | .mk _ _ contents => contents

/-- Field `Argument::defaultValue`. -/
def Argument.defaultValue : Argument → Value
  | .mk _ defaultValue => defaultValue

/-- Members of an `Argument` other than its default value. -/
def Argument.name : Argument → String
  | .mk name _ => name

/-- Field `Value::type`, the tag of the live variant. -/
def Value.type : Value → ValueType
  | .none => .None
  | .bool _ => .Bool
  | .string _ => .String
  | .number _ => .Number
  | .array _ => .Array
  | .object _ => .Object
  | .objectDefined _ => .ObjectDefined
  | .memberDefined _ => .MemberDefined
  | .reference _ => .Reference
  | .function _ => .Function
  | .argument _ => .Argument

/-- Default-constructed `ObjectDefined` (empty name, no members), the value of the static dummy
schemas such as `Value::emptyObjectDefined`. -/
def ObjectDefined.empty : ObjectDefined := .mk "" []

/-! ## `std::unordered_map<std::string, T>` -/

/-- Well-formedness of the association-list representation: keys are pairwise distinct. -/
def UnorderedMap.WF {α : Type} (m : List (String × α)) : Prop :=
  (m.map Prod.fst).Nodup

instance UnorderedMap.decidableWF {α : Type} (m : List (String × α)) :
    Decidable (UnorderedMap.WF m) :=
  inferInstanceAs (Decidable (m.map Prod.fst).Nodup)

/-- Number of entries stored under `key` (`std::unordered_map::count`). -/
def UnorderedMap.count {α : Type} (m : List (String × α)) (key : String) : Nat :=
  (m.filter (fun e => e.1 == key)).length

/-- Lookup of the value stored under `key` (`std::unordered_map::find`). -/
def UnorderedMap.find {α : Type} (m : List (String × α)) (key : String) : Option α :=
  m.lookup key

/-- Member `std::unordered_map::insert(value_type)`: the pair is inserted only when no entry
with an equal key exists; an existing entry is left as it is. -/
def UnorderedMap.insert {α : Type} (m : List (String × α)) (key : String) (value : α) :
    List (String × α) :=
  match m.lookup key with
  | some _ => m
  | none => m ++ [(key, value)]

/-! ## `BooleanScope` -/

/-- Data members of class `BooleanScope`. -/
structure BooleanScope where
  mNestName : List String
  mValue : Value
  mLogicOp : LogicOperator
  mDoSkip : Bool
  mTrueCount : Nat
  mFalseCount : Nat
  mIsDenial : Bool

/-- Constructor `BooleanScope::BooleanScope(nestName, isDenial)`. -/
def BooleanScope.new (nestName : List String) (isDenial : Bool) : BooleanScope :=
  { mNestName := nestName
    mValue := Value.bool false
    mLogicOp := LogicOperator.Continue
    mDoSkip := false
    mTrueCount := 0
    mFalseCount := 0
    mIsDenial := isDenial }

/-- Member `BooleanScope::setLogicOperator`. The second `switch` has no `break` after
`case LogicOperator::And`, so control falls through into `case LogicOperator::Or`. -/
def BooleanScope.setLogicOperator (self : BooleanScope) (op : LogicOperator) :
    Outcome BooleanScope :=
  if op = LogicOperator.Unknown then
    ⟨some Exception.invalid_argument, self⟩
  else if op = LogicOperator.Continue then
    ⟨none, self⟩
  else if (self.mLogicOp = LogicOperator.And ∨ self.mLogicOp = LogicOperator.Or)
      ∧ self.mLogicOp ≠ op then
    ⟨some Exception.SyntaxException, self⟩
  else
    let s1 : BooleanScope := { self with mLogicOp := op }
    match op with
    | LogicOperator.And =>
      let s2 : BooleanScope := if 1 ≤ s1.mFalseCount then { s1 with mDoSkip := true } else s1
      let s3 : BooleanScope := if 1 ≤ s2.mTrueCount then { s2 with mDoSkip := true } else s2
      ⟨none, s3⟩
    | LogicOperator.Or =>
      let s2 : BooleanScope := if 1 ≤ s1.mTrueCount then { s1 with mDoSkip := true } else s1
      ⟨none, s2⟩
    | _ => ⟨none, s1⟩

/-- Member `BooleanScope::doEvalValue`. -/
def BooleanScope.doEvalValue (self : BooleanScope) : Bool :=
  !self.mDoSkip

/-- Member `BooleanScope::tally`. -/
def BooleanScope.tally (self : BooleanScope) (b : Bool) : BooleanScope :=
  if b then
    let s1 : BooleanScope := { self with mTrueCount := self.mTrueCount + 1 }
    if LogicOperator.Or = s1.mLogicOp then { s1 with mDoSkip := true } else s1
  else
    let s1 : BooleanScope := { self with mFalseCount := self.mFalseCount + 1 }
    if LogicOperator.And = s1.mLogicOp then { s1 with mDoSkip := true } else s1

/-- Member `BooleanScope::result`. -/
def BooleanScope.result (self : BooleanScope) : Except Exception Bool :=
  match self.mLogicOp with
  | LogicOperator.Or =>
    let result := decide (1 ≤ self.mTrueCount)
    Except.ok (if self.mIsDenial then !result else result)
  | LogicOperator.Continue | LogicOperator.And =>
    let result := decide (self.mFalseCount ≤ 0)
    Except.ok (if self.mIsDenial then !result else result)
  | _ => Except.error Exception.BooleanException

/-- Driver of one boolean expression `b1 op b2 op ... op bn`: for each operand in order, the
operand is tallied only when `doEvalValue()` is true; then `setLogicOperator(op)` is called when
another operand follows and `setLogicOperator(Continue)` after the last operand. -/
def BooleanScope.evalOperands (op : LogicOperator) : BooleanScope → List Bool → BooleanScope
  | self, [] => self
  | self, b :: rest =>
    let s1 := if self.doEvalValue then self.tally b else self
    let next := if rest.isEmpty then LogicOperator.Continue else op
    BooleanScope.evalOperands op (s1.setLogicOperator next).state rest

/-- A run of `tally` calls, in list order. -/
def BooleanScope.tallyAll (self : BooleanScope) (bs : List Bool) : BooleanScope :=
  bs.foldl BooleanScope.tally self

/-- A call of one of the two mutating members of `BooleanScope`. -/
inductive BooleanCall where
  | tally (b : Bool)
  | setLogicOperator (op : LogicOperator)
  deriving DecidableEq, Repr

/-- State after one call; a call that throws leaves the object as the throw found it. -/
def BooleanScope.call (self : BooleanScope) : BooleanCall → BooleanScope
  | BooleanCall.tally b => self.tally b
  | BooleanCall.setLogicOperator op => (self.setLogicOperator op).state

/-- State after a sequence of calls, in list order. -/
def BooleanScope.calls (self : BooleanScope) (cs : List BooleanCall) : BooleanScope :=
  cs.foldl BooleanScope.call self

/-! ### State predicates used by the theorems -/

/-- The state in which an `And` expression is decided (negated or not as `d` says): operator
`And`, skip flag set, at least one false operand tallied. -/
def BooleanScope.DecidedAnd (d : Bool) (s : BooleanScope) : Prop :=
  s.mLogicOp = LogicOperator.And ∧ s.mDoSkip = true ∧ 1 ≤ s.mFalseCount ∧ s.mIsDenial = d

/-- The state in which an `Or` expression is decided: operator `Or`, skip flag set, at least one
true operand tallied. -/
def BooleanScope.DecidedOr (d : Bool) (s : BooleanScope) : Prop :=
  s.mLogicOp = LogicOperator.Or ∧ s.mDoSkip = true ∧ 1 ≤ s.mTrueCount ∧ s.mIsDenial = d

/-- Invariant of the driver while it evaluates an `Or` expression that is not negated: the
operator is `Or` and the skip flag is set exactly when a true operand has been tallied. -/
def BooleanScope.RunningOr (s : BooleanScope) : Prop :=
  s.mLogicOp = LogicOperator.Or ∧ s.mIsDenial = false ∧ (s.mDoSkip = true ↔ 1 ≤ s.mTrueCount)

/-- Invariant of the driver once it skips operands of an `And` expression that is not negated:
the operator is `And` and the skip flag is set. -/
def BooleanScope.SkippingAnd (s : BooleanScope) : Prop :=
  s.mLogicOp = LogicOperator.And ∧ s.mIsDenial = false ∧ s.mDoSkip = true

/-- Invariant of every state reached from construction: under operator `Or`, a tallied true
operand has set the skip flag. -/
def BooleanScope.OrSkipSet (s : BooleanScope) : Prop :=
  s.mLogicOp = LogicOperator.Or → 1 ≤ s.mTrueCount → s.mDoSkip = true

/-! ## `BranchScope` -/

/-- Modelled from the spec: `Object::isExistMember` is defined outside `scope.cpp` and
`value.h`; it is the membership test on `members` (spec 4.1, membership test and lookup). -/
def Object.isExistMember (self : Object) (name : String) : Bool :=
  (UnorderedMap.find self.members name).isSome

/-- Modelled from the spec: `Object::getMember` is defined outside `scope.cpp` and `value.h`;
it is the lookup of `name` in `members` (spec 4.1, membership test and lookup). -/
def Object.getMember (self : Object) (name : String) : Option Value :=
  UnorderedMap.find self.members name

/-- Data members of class `BranchScope`. The reference `mParentScope` is embedded as the
position of the referred scope in the scope stack of the environment, the pointer
`mpSwitchTargetVariable` as the value pointed to (`none` for `nullptr`). -/
structure BranchScope where
  mParentScope : Nat
  mpSwitchTargetVariable : Option Value
  mIsDenial : Bool
  mDoRunAllTrueStatement : Bool
  mRunningCountOfTrueStatement : Nat
  mTrueCount : Nat
  mFalseCount : Nat
  mLogicOp : LogicOperator
  mDoSkip : Bool
  mLocalVariables : Object

/-- Constructor `BranchScope::BranchScope(parentScope, pSwitchTargetVariable, isDenial)`. -/
def BranchScope.new (parentScope : Nat) (pSwitchTargetVariable : Option Value)
    (isDenial : Bool) : BranchScope :=
  { mParentScope := parentScope
    mpSwitchTargetVariable := pSwitchTargetVariable
    mIsDenial := isDenial
    mDoRunAllTrueStatement := false
    mRunningCountOfTrueStatement := 0
    mTrueCount := 0
    mFalseCount := 0
    mLogicOp := LogicOperator.Continue
    mDoSkip := false
    mLocalVariables := Object.mk [] (some ObjectDefined.empty) }

/-- Member `BranchScope::searchVariable`. -/
def BranchScope.searchVariable (self : BranchScope) (name : String) : Option Value :=
  if !self.mLocalVariables.isExistMember name then none
  else self.mLocalVariables.getMember name

/-- Member `BranchScope::isSwitch`. -/
def BranchScope.isSwitch (self : BranchScope) : Bool :=
  self.mpSwitchTargetVariable.isSome

/-- Member `BranchScope::tally`. -/
def BranchScope.tally (self : BranchScope) (result : Bool) : BranchScope :=
  if result then
    let s1 : BranchScope := { self with mTrueCount := self.mTrueCount + 1 }
    if LogicOperator.Or = s1.mLogicOp then { s1 with mDoSkip := true } else s1
  else
    let s1 : BranchScope := { self with mFalseCount := self.mFalseCount + 1 }
    if LogicOperator.And = s1.mLogicOp then { s1 with mDoSkip := true } else s1

/-- Member `BranchScope::doCurrentStatements`. -/
def BranchScope.doCurrentStatements (self : BranchScope) : Except Exception Bool :=
  if !self.mDoRunAllTrueStatement && decide (1 ≤ self.mRunningCountOfTrueStatement) then
    Except.ok false
  else
    match self.mLogicOp with
    | LogicOperator.Or =>
      let result := decide (1 ≤ self.mTrueCount)
      Except.ok (if self.mIsDenial then !result else result)
    | LogicOperator.Continue | LogicOperator.And =>
      let result := decide (self.mFalseCount ≤ 0)
      Except.ok (if self.mIsDenial then !result else result)
    | _ => Except.error Exception.BooleanException

/-- Member `BranchScope::resetBranchState`. -/
def BranchScope.resetBranchState (self : BranchScope) : BranchScope :=
  { self with
    mTrueCount := 0
    mFalseCount := 0
    mLogicOp := LogicOperator.Continue
    mDoSkip := false }

/-- Member `BranchScope::setLogicOperator`. As in `BooleanScope::setLogicOperator`, the second
`switch` has no `break` after `case LogicOperator::And`. -/
def BranchScope.setLogicOperator (self : BranchScope) (op : LogicOperator) :
    Outcome BranchScope :=
  if op = LogicOperator.Unknown then
    ⟨some Exception.invalid_argument, self⟩
  else if op = LogicOperator.Continue then
    ⟨none, self⟩
  else if (self.mLogicOp = LogicOperator.And ∨ self.mLogicOp = LogicOperator.Or)
      ∧ self.mLogicOp ≠ op then
    ⟨some Exception.SyntaxException, self⟩
  else
    let s1 : BranchScope := { self with mLogicOp := op }
    match op with
    | LogicOperator.And =>
      let s2 : BranchScope := if 1 ≤ s1.mFalseCount then { s1 with mDoSkip := true } else s1
      let s3 : BranchScope := if 1 ≤ s2.mTrueCount then { s2 with mDoSkip := true } else s2
      ⟨none, s3⟩
    | LogicOperator.Or =>
      let s2 : BranchScope := if 1 ≤ s1.mTrueCount then { s1 with mDoSkip := true } else s1
      ⟨none, s2⟩
    | _ => ⟨none, s1⟩

/-- Member `BranchScope::doEvalValue`. -/
def BranchScope.doEvalValue (self : BranchScope) : Bool :=
  !self.mDoSkip

/-- Member `BranchScope::incrementRunningCount`. -/
def BranchScope.incrementRunningCount (self : BranchScope) : BranchScope :=
  { self with mRunningCountOfTrueStatement := self.mRunningCountOfTrueStatement + 1 }

/-- Member `BranchScope::doElseStatement`. -/
def BranchScope.doElseStatement (self : BranchScope) : Bool :=
  decide (self.mRunningCountOfTrueStatement ≤ 0)

/-- Member `BranchScope::addLocalVariable`: `mLocalVariables.members.insert({name, value})`. -/
def BranchScope.addLocalVariable (self : BranchScope) (name : String) (value : Value) :
    BranchScope :=
  { self with
    mLocalVariables :=
      Object.mk (UnorderedMap.insert self.mLocalVariables.members name value)
        self.mLocalVariables.pDefined }

/-- A call of one of the mutating members of `BranchScope`. -/
inductive BranchCall where
  | tally (b : Bool)
  | setLogicOperator (op : LogicOperator)
  | resetBranchState
  | incrementRunningCount
  | addLocalVariable (name : String) (value : Value)

/-- State after one call; a call that throws leaves the object as the throw found it. -/
def BranchScope.call (self : BranchScope) : BranchCall → BranchScope
  | BranchCall.tally b => self.tally b
  | BranchCall.setLogicOperator op => (self.setLogicOperator op).state
  | BranchCall.resetBranchState => self.resetBranchState
  | BranchCall.incrementRunningCount => self.incrementRunningCount
  | BranchCall.addLocalVariable name value => self.addLocalVariable name value

/-- State after a sequence of calls, in list order. -/
def BranchScope.calls (self : BranchScope) (cs : List BranchCall) : BranchScope :=
  cs.foldl BranchScope.call self

/-- Whether a call is `incrementRunningCount()`. -/
def BranchCall.isIncrement : BranchCall → Bool
  | BranchCall.incrementRunningCount => true
  | _ => false

/-! ## Member functions of `Value` -/

/-- Member `Value::get<Function>()`: `boost::get` on the variant, which throws `bad_get` when
another variant is live. -/
def Value.getFunction : Value → Except Exception Function
  | .function f => Except.ok f
  | _ => Except.error Exception.bad_get

/-- Member `Value::get<Argument>()` (also written `get<Value::argument>()`). -/
def Value.getArgument : Value → Except Exception Argument
  | .argument a => Except.ok a
  | _ => Except.error Exception.bad_get

/-- Member `Value::get<Value::string>()`. -/
def Value.getString : Value → Except Exception String
  | .string s => Except.ok s
  | _ => Except.error Exception.bad_get

/-- Assignment under a key: the value of an existing entry is replaced, a missing entry is
added. -/
def UnorderedMap.assign {α : Type} (m : List (String × α)) (key : String) (value : α) :
    List (String × α) :=
  match m.lookup key with
  | some _ => m.map (fun e => if e.1 == key then (e.1, value) else e)
  | none => m ++ [(key, value)]

/-- Decimal digits read from the left, `acc` being the number read so far. -/
def parseIndexAux : List Char → Nat → Option Nat
  | [], acc => some acc
  | c :: cs, acc =>
    if c.isDigit then parseIndexAux cs (acc * 10 + (c.toNat - 48)) else none

/-- The index a name denotes: a non-empty string of decimal digits parses as that number,
any other name does not parse. -/
def parseIndex (name : String) : Option Nat :=
  match name.data with
  | [] => none
  | cs => parseIndexAux cs 0

/-- Modelled from the spec: `Value::pushValue` is defined outside the sources. Spec 4.1: valid
only when the value is `Array`; appends `v` to the end, preserving order; signals
`InvalidOperation` otherwise. -/
def Value.pushValue (self : Value) (pushValue : Value) : Except Exception Value :=
  match self with
  | .array a => Except.ok (Value.array (a ++ [pushValue]))
  | _ => Except.error Exception.InvalidOperation

/-- Modelled from the spec: `Value::addMember(name, value)` is defined outside the sources.
Spec 4.1: valid when the value is `Object`, `ObjectDefined`, `Array` (an indexed assignment
when `name` parses as an in-range index) or `MemberDefined` (its default is attached); it
returns failure, leaving the value as it is, when the target is an `Array` and the name is not
a valid index within current bounds, or when the target type does not support members at all.
A member of an `Object` is assigned under its name (spec 8: last-assigned values); a schema
stores a `MemberDefined` as it is and any other value as a member of that type and default. -/
def Value.addMember (self : Value) (name : String) (value : Value) : Bool × Value :=
  match self with
  | .object o =>
    (true, Value.object (Object.mk (UnorderedMap.assign o.members name value) o.pDefined))
  | .objectDefined d =>
    let member : MemberDefined :=
      match value with
      | .memberDefined m => m
      | v => MemberDefined.mk v.type v
    (true, Value.objectDefined
      (ObjectDefined.mk d.name (UnorderedMap.assign d.members name member)))
  | .array a =>
    match parseIndex name with
    | some i => if i < a.length then (true, Value.array (a.set i value)) else (false, self)
    | Option.none => (false, self)
  | .memberDefined m => (true, Value.memberDefined (MemberDefined.mk m.type value))
  | _ => (false, self)

/-- Modelled from the spec: `Object::applyObjectDefined` is declared in `value.h` and defined
outside the sources. Spec 4.1: for each `(name, memberDefined)` in the linked schema, if `name`
is absent from `members`, insert `memberDefined.defaultValue`; an existing member is never
overwritten; no-op returning false if no schema is linked. -/
def Object.applyObjectDefined (self : Object) : Bool × Object :=
  match self.pDefined with
  | none => (false, self)
  | some d =>
    (true, Object.mk
      (d.members.foldl (fun m e => UnorderedMap.insert m e.1 e.2.defaultValue) self.members)
      self.pDefined)

/-! ## Pointers and references to values

A `Value*` or `Value&` is embedded as the place the value is stored in: the owner (the value
member of the scope at a position of the scope stack, the `externObj` of the environment, or
the static `Value::none`) and the path of member names and array indices that leads from the
value of the owner to the value pointed to. -/

/-- Owner of the storage a pointer leads into. -/
inductive ValueRoot where
  | scope (index : Nat)
  | externObj
  | staticNone
  deriving DecidableEq, Repr

/-- A pointer or reference to a `Value`. -/
structure ValuePtr where
  root : ValueRoot
  path : List String
  deriving DecidableEq, Repr

/-- The sub-value stored directly under `seg`: a member of an object, an element of an array. -/
def Value.child (self : Value) (seg : String) : Option Value :=
  match self with
  | .object o => UnorderedMap.find o.members seg
  | .array a =>
    match parseIndex seg with
    | some i => a[i]?
    | Option.none => Option.none
  | _ => Option.none

/-- The value with the sub-value stored directly under `seg` replaced by `new`. -/
def Value.setChild (self : Value) (seg : String) (new : Value) : Value :=
  match self with
  | .object o => Value.object (Object.mk (UnorderedMap.assign o.members seg new) o.pDefined)
  | .array a =>
    match parseIndex seg with
    | some i => Value.array (a.set i new)
    | Option.none => self
  | _ => self

/-- The sub-value a path leads to, if the path exists. -/
def Value.atPath : List String → Value → Option Value
  | [], v => some v
  | seg :: rest, v =>
    match v.child seg with
    | some c => Value.atPath rest c
    | Option.none => Option.none

/-- The value with the sub-value a path leads to replaced by `new`; unchanged when the path
does not exist. -/
def Value.setAtPath : List String → Value → Value → Value
  | [], _, new => new
  | seg :: rest, v, new =>
    match v.child seg with
    | some c => v.setChild seg (Value.setAtPath rest c new)
    | Option.none => v

/-! ## Scopes -/

/-- Enumeration `IScope::Type`. -/
inductive ScopeType where
  | Normal
  | Reference
  | Boolean
  | Branch
  | Dummy
  | DefineFunction
  | CallFunction
  | CallFunctionArguments
  | CallFunctionReturnValues
  deriving DecidableEq, Repr

/-- Data members of class `NormalScope`. -/
structure NormalScope where
  mNestName : List String
  mValue : Value

/-- Data members of class `ReferenceScope`; `mRefValue` is a `Value&`. -/
structure ReferenceScope where
  mNestName : List String
  mRefValue : ValuePtr
  mDoPopModeAtCloging : Bool

/-- Enumeration `DefineFunctionOperator`. `Unknown` stands for any enumerator value other than
the three modes, which the `default` labels of `scope.cpp` handle. -/
inductive DefineFunctionOperator where
  | Unknown
  | ToPass
  | ToCapture
  | WithContents
  deriving DecidableEq, Repr

/-- Data members of class `DefineFunctionScope`; `mParentScope` is the position of the
referred scope in the scope stack. -/
structure DefineFunctionScope where
  mParentScope : Nat
  mOp : DefineFunctionOperator
  mElements : List Value

/-- Data members of class `CallFunctionScope`. -/
structure CallFunctionScope where
  mParentScope : Nat
  mFunction : Function
  mArguments : List Value
  mReturnValues : List (List String)

/-- Data members of class `CallFunctionArgumentsScope`. -/
structure CallFunctionArgumentsScope where
  mParentScope : Nat
  mArguments : List Value

/-- Data members of class `CallFunctionReturnValueScope`. -/
structure CallFunctionReturnValueScope where
  mParentScope : Nat
  mReturnValues : List (List String)

/-- An object of one of the nine classes derived from `IScope`. -/
inductive Scope where
  | normal (s : NormalScope)
  | reference (s : ReferenceScope)
  | boolean (s : BooleanScope)
  | branch (s : BranchScope)
  | dummy
  | defineFunction (s : DefineFunctionScope)
  | callFunction (s : CallFunctionScope)
  | callFunctionArguments (s : CallFunctionArgumentsScope)
  | callFunctionReturnValues (s : CallFunctionReturnValueScope)

/-- Virtual member `IScope::type`. -/
def Scope.type : Scope → ScopeType
  | .normal _ => ScopeType.Normal
  | .reference _ => ScopeType.Reference
  | .boolean _ => ScopeType.Boolean
  | .branch _ => ScopeType.Branch
  | .dummy => ScopeType.Dummy
  | .defineFunction _ => ScopeType.DefineFunction
  | .callFunction _ => ScopeType.CallFunction
  | .callFunctionArguments _ => ScopeType.CallFunctionArguments
  | .callFunctionReturnValues _ => ScopeType.CallFunctionReturnValues

/-- The value member a scope owns (`NormalScope::mValue`, `BooleanScope::mValue`). -/
def Scope.ownValue : Scope → Option Value
  | .normal s => some s.mValue
  | .boolean s => some s.mValue
  | _ => none

/-- The scope with the value member it owns replaced. -/
def Scope.setOwnValue (self : Scope) (v : Value) : Scope :=
  match self with
  | .normal s => Scope.normal { s with mValue := v }
  | .boolean s => Scope.boolean { s with mValue := v }
  | _ => self

/-- Constructor `DefineFunctionScope::DefineFunctionScope(parentScope, op)`. -/
def DefineFunctionScope.new (parentScope : Nat) (op : DefineFunctionOperator) :
    DefineFunctionScope :=
  { mParentScope := parentScope, mOp := op, mElements := [] }

/-- Member `DefineFunctionScope::addElememnt`. -/
def DefineFunctionScope.addElememnt (self : DefineFunctionScope) (element : Value) :
    DefineFunctionScope :=
  { self with mElements := self.mElements ++ [element] }

/-- Member `DefineFunctionScope::setValueToCurrentElement`. The reference `element` to
`mElements.back()` is bound first but read only under `case ToPass`; every other mode reaches
the `default` label and throws without reading it, whatever the buffer holds. -/
def DefineFunctionScope.setValueToCurrentElement (self : DefineFunctionScope) (value : Value) :
    Outcome DefineFunctionScope :=
  match self.mOp with
  | DefineFunctionOperator.ToPass =>
    match self.mElements.getLast? with
    | none => ⟨some Exception.undefined, self⟩
    | some element =>
      match element.getArgument with
      | Except.error e => ⟨some e, self⟩
      | Except.ok arg =>
        ⟨none, { self with
          mElements := self.mElements.dropLast ++ [Value.argument (Argument.mk arg.name value)] }⟩
  | _ => ⟨some Exception.FatalException, self⟩

/-- Constructor `CallFunctionScope::CallFunctionScope(parentScope, function)`. -/
def CallFunctionScope.new (parentScope : Nat) (function : Function) : CallFunctionScope :=
  { mParentScope := parentScope, mFunction := function, mArguments := [], mReturnValues := [] }

/-- Member `CallFunctionScope::setArguments`. -/
def CallFunctionScope.setArguments (self : CallFunctionScope) (args : List Value) :
    CallFunctionScope :=
  { self with mArguments := args }

/-- Member `CallFunctionScope::setReturnValueNames`. -/
def CallFunctionScope.setReturnValueNames (self : CallFunctionScope)
    (names : List (List String)) : CallFunctionScope :=
  { self with mReturnValues := names }

/-- Constructor `CallFunctionArgumentsScope::CallFunctionArgumentsScope`; the expected count
only reserves capacity. -/
def CallFunctionArgumentsScope.new (parentScope : Nat) (_expectedArgumentsCount : Nat) :
    CallFunctionArgumentsScope :=
  { mParentScope := parentScope, mArguments := [] }

/-- Member `CallFunctionArgumentsScope::pushArgument`. -/
def CallFunctionArgumentsScope.pushArgument (self : CallFunctionArgumentsScope)
    (value : Value) : CallFunctionArgumentsScope :=
  { self with mArguments := self.mArguments ++ [value] }

/-- Member `CallFunctionArgumentsScope::moveArguments`: the buffered arguments. -/
def CallFunctionArgumentsScope.moveArguments (self : CallFunctionArgumentsScope) :
    List Value :=
  self.mArguments

/-- Constructor `CallFunctionReturnValueScope::CallFunctionReturnValueScope`. -/
def CallFunctionReturnValueScope.new (parentScope : Nat) : CallFunctionReturnValueScope :=
  { mParentScope := parentScope, mReturnValues := [] }

/-- Member `CallFunctionReturnValueScope::pushReturnValueName`. -/
def CallFunctionReturnValueScope.pushReturnValueName (self : CallFunctionReturnValueScope)
    (nestName : List String) : CallFunctionReturnValueScope :=
  { self with mReturnValues := self.mReturnValues ++ [nestName] }

/-- Member `CallFunctionReturnValueScope::moveReturnValueNames`: the buffered paths. -/
def CallFunctionReturnValueScope.moveReturnValueNames (self : CallFunctionReturnValueScope) :
    List (List String) :=
  self.mReturnValues

/-! ## `Enviroment` -/

/-- Modelled from the spec: the parse-mode classes (`IParseMode`, `DefineFunctionParseMode`)
are declared outside the sources. Spec 6: an opaque object with at least `resetMode()`, of
which the core checks whether it is a function-definition mode object. -/
inductive ParseMode where
  | defineFunction (subState : Nat)
  | other (tag : Nat)
  deriving DecidableEq, Repr

/-- Modelled from the spec: `DefineFunctionParseMode::resetMode` is defined outside the
sources; it clears the internal sub-state of the mode object (spec 4.4). -/
def ParseMode.resetMode : ParseMode → ParseMode
  | .defineFunction _ => ParseMode.defineFunction 0
  | m => m

/-- Struct `Enviroment` (`enviroment.h`): the two stacks, the last element of a list being
the top, and `externObj`. The members `source` and `indent` are not used by `scope.cpp`. -/
structure Enviroment where
  modeStack : List ParseMode
  scopeStack : List Scope
  externObj : Value

/-- Modelled from the spec: `Enviroment::popMode` is defined outside the sources; it removes
the top entry of the mode stack. Popping an empty stack is undefined. -/
def Enviroment.popMode (env : Enviroment) : Outcome Enviroment :=
  match env.modeStack with
  | [] => ⟨some Exception.undefined, env⟩
  | _ :: _ => ⟨none, { env with modeStack := env.modeStack.dropLast }⟩

/-- Modelled from the spec: `Enviroment::currentMode` is defined outside the sources; it is
the top entry of the mode stack, if there is one. -/
def Enviroment.currentMode (env : Enviroment) : Option ParseMode :=
  env.modeStack.getLast?

/-- Modelled from the spec: `Enviroment::currentScope` is defined outside the sources; it is
the top entry of the scope stack (`none` when the stack is empty, where the call is
undefined). -/
def Enviroment.currentScope (env : Enviroment) : Option Scope :=
  env.scopeStack.getLast?

/-- The environment after the object `currentScope()` refers to was changed to `s`. -/
def Enviroment.setCurrentScope (env : Enviroment) (s : Scope) : Enviroment :=
  { env with scopeStack := env.scopeStack.dropLast ++ [s] }

/-- The effect of `if (auto p = dynamic_cast<DefineFunctionParseMode*>(currentMode().get()))
p->resetMode();`: a function-definition mode on top of the mode stack is reset in place. -/
def Enviroment.resetDefineFunctionMode (env : Enviroment) : Enviroment :=
  match env.currentMode with
  | some (ParseMode.defineFunction k) =>
    { env with
      modeStack := env.modeStack.dropLast ++ [ParseMode.resetMode (ParseMode.defineFunction k)] }
  | _ => env

/-- Virtual member `IScope::value` of the scope at position `i` of `stack`, as the place the
returned reference leads to. Scopes that delegate to `mParentScope` follow the reference;
`fuel` bounds the number of scopes visited. -/
def Enviroment.scopeValuePtrAux (stack : List Scope) : Nat → Nat → Option ValuePtr
  | 0, _ => none
  | fuel + 1, i =>
    match stack[i]? with
    | none => none
    | some (Scope.normal _) => some ⟨ValueRoot.scope i, []⟩
    | some (Scope.boolean _) => some ⟨ValueRoot.scope i, []⟩
    | some (Scope.reference r) => some r.mRefValue
    | some Scope.dummy => some ⟨ValueRoot.staticNone, []⟩
    | some (Scope.branch s) => Enviroment.scopeValuePtrAux stack fuel s.mParentScope
    | some (Scope.defineFunction s) => Enviroment.scopeValuePtrAux stack fuel s.mParentScope
    | some (Scope.callFunction s) => Enviroment.scopeValuePtrAux stack fuel s.mParentScope
    | some (Scope.callFunctionArguments s) =>
      Enviroment.scopeValuePtrAux stack fuel s.mParentScope
    | some (Scope.callFunctionReturnValues s) =>
      Enviroment.scopeValuePtrAux stack fuel s.mParentScope

/-- Virtual member `IScope::value` of the scope at position `i` of the scope stack. -/
def Enviroment.scopeValuePtr (env : Enviroment) (i : Nat) : Option ValuePtr :=
  Enviroment.scopeValuePtrAux env.scopeStack env.scopeStack.length i

/-- Virtual member `IScope::nestName` of the scope at position `i` of `stack`. -/
def Enviroment.scopeNestNameAux (stack : List Scope) : Nat → Nat → Option (List String)
  | 0, _ => none
  | fuel + 1, i =>
    match stack[i]? with
    | none => none
    | some (Scope.normal s) => some s.mNestName
    | some (Scope.boolean s) => some s.mNestName
    | some (Scope.reference s) => some s.mNestName
    | some Scope.dummy => some []
    | some (Scope.branch s) => Enviroment.scopeNestNameAux stack fuel s.mParentScope
    | some (Scope.defineFunction s) => Enviroment.scopeNestNameAux stack fuel s.mParentScope
    | some (Scope.callFunction s) => Enviroment.scopeNestNameAux stack fuel s.mParentScope
    | some (Scope.callFunctionArguments s) =>
      Enviroment.scopeNestNameAux stack fuel s.mParentScope
    | some (Scope.callFunctionReturnValues s) =>
      Enviroment.scopeNestNameAux stack fuel s.mParentScope

/-- Virtual member `IScope::nestName` of the scope at position `i` of the scope stack. -/
def Enviroment.scopeNestName (env : Enviroment) (i : Nat) : Option (List String) :=
  Enviroment.scopeNestNameAux env.scopeStack env.scopeStack.length i

/-- The value a pointer leads to (`none` for a pointer that leads nowhere). -/
def Enviroment.readPtr (env : Enviroment) (p : ValuePtr) : Option Value :=
  match p.root with
  | ValueRoot.scope i =>
    match env.scopeStack[i]? with
    | some s =>
      match s.ownValue with
      | some v => Value.atPath p.path v
      | none => none
    | none => none
  | ValueRoot.externObj => Value.atPath p.path env.externObj
  | ValueRoot.staticNone =>
    match p.path with
    | [] => some Value.none
    | _ :: _ => none

/-- The environment after `new` was assigned through a pointer. -/
def Enviroment.writePtr (env : Enviroment) (p : ValuePtr) (new : Value) : Enviroment :=
  match p.root with
  | ValueRoot.scope i =>
    match env.scopeStack[i]? with
    | some s =>
      match s.ownValue with
      | some v =>
        { env with
          scopeStack := env.scopeStack.set i (s.setOwnValue (Value.setAtPath p.path v new)) }
      | none => env
    | none => env
  | ValueRoot.externObj => { env with externObj := Value.setAtPath p.path env.externObj new }
  | ValueRoot.staticNone => env

/-- The collaborators of `scope.cpp` that the specification leaves external (spec 6):
`expandVariable(str, env)`, and the nested-name resolver `Enviroment::searchValue(path,
createIfMissing)`, which returns a pointer (`none` for `nullptr`) and may create intermediate
containers in the value trees; it does not touch the mode stack nor push or pop scopes. -/
structure External where
  expandVariable : String → Enviroment → String
  searchValue : Enviroment → List String → Bool → Option ValuePtr × Enviroment
  searchValue_modeStack :
    ∀ env nestName create, (searchValue env nestName create).2.modeStack = env.modeStack
  searchValue_scopeStack_length :
    ∀ env nestName create,
      (searchValue env nestName create).2.scopeStack.length = env.scopeStack.length

/-! ## `IScope::close` -/

/-- First block of `IScope::close` (`// postprocess`), dispatched on `valueType()`; it returns
the value of the closing scope and the environment. -/
def IScope.postprocess (ext : External) (nestName : List String) (value : Value)
    (env : Enviroment) : Outcome (Value × Enviroment) :=
  match value with
  | Value.objectDefined d =>
    match nestName.getLast? with
    | none => ⟨some Exception.undefined, (value, env)⟩
    | some last =>
      ⟨env.popMode.thrown,
        (Value.objectDefined (ObjectDefined.mk last d.members), env.popMode.state)⟩
  | Value.object obj => ⟨none, (Value.object obj.applyObjectDefined.2, env)⟩
  | Value.string str => ⟨none, (Value.string (ext.expandVariable str env), env)⟩
  | Value.function _ => ⟨env.popMode.thrown, (value, env.popMode.state)⟩
  | _ => ⟨none, (value, env)⟩

/-- The pointer `pParentValue` of `IScope::close`: the result of `env.searchValue(nestName,
true)` when the nest name has two or more segments, else `&env.currentScope().value()`. -/
def IScope.parentValue (ext : External) (nestName : List String) (env : Enviroment) :
    Option ValuePtr × Enviroment :=
  if 2 ≤ nestName.length then ext.searchValue env nestName true
  else (env.scopeValuePtr (env.scopeStack.length - 1), env)

/-- The `else` branch of the second block of `IScope::close`: the value is attached to
`*pParentValue` according to the type of that value. -/
def IScope.attachDefault (ext : External) (nestName : List String) (value : Value)
    (env : Enviroment) : Outcome Enviroment :=
  match (IScope.parentValue ext nestName env).1 with
  | none => ⟨some Exception.undefined, (IScope.parentValue ext nestName env).2⟩
  | some ptr =>
    let env1 := (IScope.parentValue ext nestName env).2
    match env1.readPtr ptr with
    | none => ⟨some Exception.undefined, env1⟩
    | some (Value.object o) =>
      match nestName.getLast? with
      | none => ⟨some Exception.undefined, env1⟩
      | some last =>
        if ((Value.object o).addMember last value).1 then
          ⟨none, env1.writePtr ptr ((Value.object o).addMember last value).2⟩
        else ⟨some Exception.SyntaxException, env1⟩
    | some (Value.array a) =>
      match nestName.getLast? with
      | none => ⟨some Exception.undefined, env1⟩
      | some last =>
        if last = "" then
          match (Value.array a).pushValue value with
          | Except.ok parent => ⟨none, env1.writePtr ptr parent⟩
          | Except.error e => ⟨some e, env1⟩
        else if ((Value.array a).addMember last value).1 then
          ⟨none, env1.writePtr ptr ((Value.array a).addMember last value).2⟩
        else ⟨some Exception.SyntaxException, env1⟩
    | some (Value.objectDefined d) =>
      match nestName.getLast? with
      | none => ⟨some Exception.undefined, env1⟩
      | some last =>
        if ((Value.objectDefined d).addMember last value).1 then
          ⟨none, env1.writePtr ptr ((Value.objectDefined d).addMember last value).2⟩
        else ⟨some Exception.SyntaxException, env1⟩
    | some (Value.memberDefined memberDefined) =>
      ⟨none, env1.writePtr ptr (Value.memberDefined (MemberDefined.mk memberDefined.type value))⟩
    | some _ => ⟨some Exception.SyntaxException, env1⟩

/-- Second block of `IScope::close` (`// set parsing value to the parent`), dispatched on the
type of `env.currentScope()`. -/
def IScope.attach (ext : External) (nestName : List String) (value : Value)
    (env : Enviroment) : Outcome Enviroment :=
  match env.currentScope with
  | none => ⟨some Exception.undefined, env⟩
  | some (Scope.defineFunction defineFunctionScope) =>
    match (defineFunctionScope.setValueToCurrentElement value).thrown with
    | some e =>
      ⟨some e, env.setCurrentScope
        (Scope.defineFunction (defineFunctionScope.setValueToCurrentElement value).state)⟩
    | none =>
      (env.setCurrentScope
        (Scope.defineFunction (defineFunctionScope.setValueToCurrentElement value).state)).popMode
  | some (Scope.branch branchScope) =>
    match nestName.getLast? with
    | none => ⟨some Exception.undefined, env⟩
    | some last =>
      (env.setCurrentScope (Scope.branch (branchScope.addLocalVariable last value))).popMode
  | some (Scope.callFunctionArguments callArgumentsScope) =>
    (env.setCurrentScope
      (Scope.callFunctionArguments (callArgumentsScope.pushArgument value))).popMode
  | some _ => IScope.attachDefault ext nestName value env

/-- Member `IScope::close`, for a closing scope whose `nestName()` and `value()` are the given
ones; the closing scope has been popped, `env.currentScope()` is the scope it attaches to. -/
def IScope.close (ext : External) (nestName : List String) (value : Value)
    (env : Enviroment) : Outcome Enviroment :=
  match (IScope.postprocess ext nestName value env).thrown with
  | some e => ⟨some e, (IScope.postprocess ext nestName value env).state.2⟩
  | none =>
    IScope.attach ext nestName (IScope.postprocess ext nestName value env).state.1
      (IScope.postprocess ext nestName value env).state.2

/-! ## The overriding `close` members -/

/-- Member `ReferenceScope::close`. -/
def ReferenceScope.close (self : ReferenceScope) (env : Enviroment) : Outcome Enviroment :=
  if self.mDoPopModeAtCloging then env.popMode else ⟨none, env⟩

/-- Member `BooleanScope::close`: the own value becomes `result()`, one mode is popped, then
`IScope::close` runs. -/
def BooleanScope.close (ext : External) (self : BooleanScope) (env : Enviroment) :
    Outcome Enviroment :=
  match self.result with
  | Except.error e => ⟨some e, env⟩
  | Except.ok r =>
    match env.popMode.thrown with
    | some e => ⟨some e, env.popMode.state⟩
    | none => IScope.close ext self.mNestName (Value.bool r) env.popMode.state

/-- Member `BranchScope::close`. -/
def BranchScope.close (_self : BranchScope) (env : Enviroment) : Outcome Enviroment :=
  env.popMode

/-- Member `DummyScope::close`. -/
def DummyScope.close (env : Enviroment) : Outcome Enviroment :=
  env.popMode

/-- The loop of `case DefineFunctionOperator::ToPass`: each element is read as an `Argument`
and appended to `function.arguments`; a `bad_get` leaves the arguments appended so far. -/
def DefineFunctionScope.passElements : List Value → Function → Outcome Function
  | [], function => ⟨none, function⟩
  | e :: es, function =>
    match e.getArgument with
    | Except.error x => ⟨some x, function⟩
    | Except.ok a =>
      DefineFunctionScope.passElements es
        (Function.mk (function.arguments ++ [a]) function.captures function.contents)

/-- The loop of `case DefineFunctionOperator::ToCapture`: each element is appended to
`function.captures`. -/
def DefineFunctionScope.captureElements : List Value → Function → Function
  | [], function => function
  | e :: es, function =>
    DefineFunctionScope.captureElements es
      (Function.mk function.arguments (function.captures ++ [e]) function.contents)

/-- The first loop of `case DefineFunctionOperator::WithContents`: the sizes of the buffered
strings are summed up, each element being read as a string. -/
def DefineFunctionScope.contentLength : List Value → Nat → Except Exception Nat
  | [], contentLength => Except.ok contentLength
  | e :: es, contentLength =>
    match e.getString with
    | Except.error x => Except.error x
    | Except.ok s => DefineFunctionScope.contentLength es (contentLength + s.length)

/-- The second loop of `case DefineFunctionOperator::WithContents`: each buffered string and a
newline are appended to `function.contents`. -/
def DefineFunctionScope.appendContents : List Value → String → Outcome String
  | [], contents => ⟨none, contents⟩
  | e :: es, contents =>
    match e.getString with
    | Except.error x => ⟨some x, contents⟩
    | Except.ok s => DefineFunctionScope.appendContents es (contents ++ s ++ "\n")

/-- The `switch (this->mOp)` of `DefineFunctionScope::close`, acting on the function held by
the parent scope. -/
def DefineFunctionScope.assemble (self : DefineFunctionScope) (function : Function) :
    Outcome Function :=
  match self.mOp with
  | DefineFunctionOperator.ToPass => DefineFunctionScope.passElements self.mElements function
  | DefineFunctionOperator.ToCapture =>
    ⟨none, DefineFunctionScope.captureElements self.mElements function⟩
  | DefineFunctionOperator.WithContents =>
    match DefineFunctionScope.contentLength self.mElements 0 with
    | Except.error x => ⟨some x, function⟩
    | Except.ok _ =>
      ⟨(DefineFunctionScope.appendContents self.mElements "").thrown,
        Function.mk function.arguments function.captures
          (DefineFunctionScope.appendContents self.mElements "").state⟩
  | DefineFunctionOperator.Unknown => ⟨some Exception.runtime_error, function⟩

/-- Member `DefineFunctionScope::close`. -/
def DefineFunctionScope.close (self : DefineFunctionScope) (env : Enviroment) :
    Outcome Enviroment :=
  match env.scopeValuePtr self.mParentScope with
  | none => ⟨some Exception.undefined, env⟩
  | some ptr =>
    match env.readPtr ptr with
    | none => ⟨some Exception.undefined, env⟩
    | some (Value.function function) =>
      match (self.assemble function).thrown with
      | some e => ⟨some e, env.writePtr ptr (Value.function (self.assemble function).state)⟩
      | none =>
        ⟨none, (env.writePtr ptr
          (Value.function (self.assemble function).state)).resetDefineFunctionMode⟩
    | some _ => ⟨some Exception.FatalException, env⟩

/-- The loop of `CallFunctionScope::close` over the return-value paths that remain, the next
one having index `returnValueIndex`. The target is chosen by `this->nestName()`, which is the
nest name of the parent scope; the path of the binding gives the member name. -/
def CallFunctionScope.bindReturnValues (ext : External) (self : CallFunctionScope) :
    List (List String) → Nat → Enviroment → Outcome Enviroment
  | [], _, env => ⟨none, env⟩
  | nestName :: rest, returnValueIndex, env =>
    match env.scopeNestName self.mParentScope with
    | none => ⟨some Exception.undefined, env⟩
    | some scopeNestName =>
      let target : Option ValuePtr × Enviroment :=
        if 2 ≤ scopeNestName.length then ext.searchValue env scopeNestName true
        else (env.scopeValuePtr self.mParentScope, env)
      match target.1 with
      | none => ⟨some Exception.undefined, target.2⟩
      | some ptr =>
        match target.2.readPtr ptr with
        | none => ⟨some Exception.undefined, target.2⟩
        | some parent =>
          match nestName.getLast? with
          | none => ⟨some Exception.undefined, target.2⟩
          | some last =>
            let testData := "returnValue" ++ toString (returnValueIndex + 1)
            if (parent.addMember last (Value.string testData)).1 then
              CallFunctionScope.bindReturnValues ext self rest (returnValueIndex + 1)
                (target.2.writePtr ptr (parent.addMember last (Value.string testData)).2)
            else ⟨some Exception.FatalException, target.2⟩

/-- Member `CallFunctionScope::close`. -/
def CallFunctionScope.close (ext : External) (self : CallFunctionScope) (env : Enviroment) :
    Outcome Enviroment :=
  match (CallFunctionScope.bindReturnValues ext self self.mReturnValues 0 env).thrown with
  | some e =>
    ⟨some e, (CallFunctionScope.bindReturnValues ext self self.mReturnValues 0 env).state⟩
  | none => (CallFunctionScope.bindReturnValues ext self self.mReturnValues 0 env).state.popMode

/-- Member `CallFunctionArgumentsScope::close`. -/
def CallFunctionArgumentsScope.close (self : CallFunctionArgumentsScope) (env : Enviroment) :
    Outcome Enviroment :=
  match env.currentScope with
  | none => ⟨some Exception.undefined, env⟩
  | some (Scope.callFunction parentScope) =>
    ⟨none, env.setCurrentScope
      (Scope.callFunction (parentScope.setArguments self.moveArguments))⟩
  | some _ => ⟨some Exception.FatalException, env⟩

/-- Member `CallFunctionReturnValueScope::close`. -/
def CallFunctionReturnValueScope.close (self : CallFunctionReturnValueScope)
    (env : Enviroment) : Outcome Enviroment :=
  match env.currentScope with
  | none => ⟨some Exception.undefined, env⟩
  | some (Scope.callFunction parentScope) =>
    ⟨none, env.setCurrentScope
      (Scope.callFunction (parentScope.setReturnValueNames self.moveReturnValueNames))⟩
  | some _ => ⟨some Exception.FatalException, env⟩

/-- Virtual member `IScope::close` of a scope that has been popped from the scope stack. -/
def Scope.close (ext : External) (self : Scope) (env : Enviroment) : Outcome Enviroment :=
  match self with
  | Scope.normal s => IScope.close ext s.mNestName s.mValue env
  | Scope.reference s => s.close env
  | Scope.boolean s => BooleanScope.close ext s env
  | Scope.branch s => s.close env
  | Scope.dummy => DummyScope.close env
  | Scope.defineFunction s => s.close env
  | Scope.callFunction s => s.close ext env
  | Scope.callFunctionArguments s => s.close env
  | Scope.callFunctionReturnValues s => s.close env

/-- A resolver that finds nothing to create: every path resolves to `externObj`. Together
with the identity expansion it is the collaborator used to evaluate the code on examples. -/
def External.trivial : External :=
  { expandVariable := fun str _ => str
    searchValue := fun env _ _ => (some ⟨ValueRoot.externObj, []⟩, env)
    searchValue_modeStack := fun _ _ _ => rfl
    searchValue_scopeStack_length := fun _ _ _ => rfl }

/-! ## Mode-pop counts claimed for `IScope::close` -/

/-- What a set skip flag does guarantee in the states reached from construction: the operator
is `And` and some operand (false or true) was tallied, or the operator is `Or` and a true
operand was tallied. -/
def BooleanScope.SkipAfterOperand (s : BooleanScope) : Prop :=
  s.mDoSkip = true →
    (s.mLogicOp = LogicOperator.And ∧ (1 ≤ s.mFalseCount ∨ 1 ≤ s.mTrueCount)) ∨
    (s.mLogicOp = LogicOperator.Or ∧ 1 ≤ s.mTrueCount)

/-- The `BooleanScope` with the operator, counts, skip flag and `isDenial` of a `BranchScope`;
the members a `BranchScope` does not have are given. -/
def BranchScope.toBooleanScope (self : BranchScope) (nestName : List String) (value : Value) :
    BooleanScope :=
  { mNestName := nestName
    mValue := value
    mLogicOp := self.mLogicOp
    mDoSkip := self.mDoSkip
    mTrueCount := self.mTrueCount
    mFalseCount := self.mFalseCount
    mIsDenial := self.mIsDenial }

/-! ## Theorems -/

/-- C1: `BooleanScope::result()` agrees with its reference definition on every state whose
operator is `Or`, `And` or `Continue`: with `Or` the un-negated result is `trueCount ≥ 1`, with
`Continue` or `And` it is `falseCount = 0` (so zero tallied operands give true); the returned
value is that result when `isDenial` is false and its negation when `isDenial` is true. -/
theorem BooleanScope.result_eq_reference (s : BooleanScope) :
    (s.mLogicOp = LogicOperator.Or →
      s.result = Except.ok (if s.mIsDenial then !decide (s.mTrueCount ≥ 1)
        else decide (s.mTrueCount ≥ 1))) ∧
    (s.mLogicOp = LogicOperator.Continue ∨ s.mLogicOp = LogicOperator.And →
      s.result = Except.ok (if s.mIsDenial then !decide (s.mFalseCount = 0)
        else decide (s.mFalseCount = 0))) ∧
    (s.mLogicOp = LogicOperator.Continue ∨ s.mLogicOp = LogicOperator.And →
      s.mFalseCount = 0 → s.mIsDenial = false → s.result = Except.ok true) := by
  refine ⟨?_, ?_, ?_⟩
  · intro h
    simp [BooleanScope.result, h]
  · intro h
    rcases h with h | h <;> simp [BooleanScope.result, h]
  · intro h h0 hd
    rcases h with h | h <;> simp [BooleanScope.result, h, h0, hd]

/-- Witness of C1 on concrete states: an `Or` scope with two true operands, and a freshly
constructed scope (operator `Continue`, no operand tallied), which yields true. -/
theorem BooleanScope.result_eq_reference_witness :
    ((BooleanScope.new [] false).setLogicOperator LogicOperator.Or).state.mLogicOp
        = LogicOperator.Or ∧
    (BooleanScope.new ["a"] false).mLogicOp = LogicOperator.Continue ∧
    (BooleanScope.new ["a"] false).result = Except.ok true :=
  ⟨rfl, rfl,
    (BooleanScope.result_eq_reference (BooleanScope.new ["a"] false)).2.2 (Or.inl rfl) rfl rfl⟩

/-- C2 (code at the failing input): driving the expression `true And false` through a freshly
constructed `BooleanScope` (not negated) tallies the first operand, then `setLogicOperator(And)`
sets the skip flag although no false operand was seen, the second operand is never tallied, and
`result()` returns true, whereas the conjunction `true && false` is false. -/
theorem BooleanScope.evalOperands_and_true_false :
    (((BooleanScope.new [] false).tally true).setLogicOperator LogicOperator.And).state.doEvalValue
        = false ∧
    (BooleanScope.evalOperands LogicOperator.And (BooleanScope.new [] false)
        [true, false]).mFalseCount = 0 ∧
    (BooleanScope.evalOperands LogicOperator.And (BooleanScope.new [] false)
        [true, false]).result = Except.ok true ∧
    (true && false) = false :=
  ⟨rfl, rfl, rfl, rfl⟩

/-- C3: mixing operators is rejected. For every `BooleanScope` and every `BranchScope`, whatever
the tallies: with current operator `And`, `setLogicOperator(Or)` throws `SyntaxException`; with
current operator `Or`, `setLogicOperator(And)` throws `SyntaxException`; with current operator
`Continue`, `setLogicOperator(And)` and `setLogicOperator(Or)` both return normally. -/
theorem setLogicOperator_mixing_rejected (s : BooleanScope) (t : BranchScope) :
    (s.mLogicOp = LogicOperator.And →
      (s.setLogicOperator LogicOperator.Or).thrown = some Exception.SyntaxException) ∧
    (s.mLogicOp = LogicOperator.Or →
      (s.setLogicOperator LogicOperator.And).thrown = some Exception.SyntaxException) ∧
    (s.mLogicOp = LogicOperator.Continue →
      (s.setLogicOperator LogicOperator.And).thrown = none ∧
      (s.setLogicOperator LogicOperator.Or).thrown = none) ∧
    (t.mLogicOp = LogicOperator.And →
      (t.setLogicOperator LogicOperator.Or).thrown = some Exception.SyntaxException) ∧
    (t.mLogicOp = LogicOperator.Or →
      (t.setLogicOperator LogicOperator.And).thrown = some Exception.SyntaxException) ∧
    (t.mLogicOp = LogicOperator.Continue →
      (t.setLogicOperator LogicOperator.And).thrown = none ∧
      (t.setLogicOperator LogicOperator.Or).thrown = none) := by
  refine ⟨?_, ?_, ?_, ?_, ?_, ?_⟩
  · intro h
    simp [BooleanScope.setLogicOperator, h]
  · intro h
    simp [BooleanScope.setLogicOperator, h]
  · intro h
    simp [BooleanScope.setLogicOperator, h]
  · intro h
    simp [BranchScope.setLogicOperator, h]
  · intro h
    simp [BranchScope.setLogicOperator, h]
  · intro h
    simp [BranchScope.setLogicOperator, h]

/-- Witness of C3: an `And` scope and an `Or` branch, each with operands already tallied, reject
the other operator. -/
theorem setLogicOperator_mixing_rejected_witness :
    ((((BooleanScope.new [] false).setLogicOperator LogicOperator.And).state.tally true
        ).setLogicOperator LogicOperator.Or).thrown = some Exception.SyntaxException ∧
    ((((BranchScope.new 0 none false).tally false).setLogicOperator LogicOperator.Or
        ).state.setLogicOperator LogicOperator.And).thrown = some Exception.SyntaxException :=
  ⟨(setLogicOperator_mixing_rejected
      (((BooleanScope.new [] false).setLogicOperator LogicOperator.And).state.tally true)
      (((BranchScope.new 0 none false).tally false).setLogicOperator LogicOperator.Or).state
    ).1 rfl,
   (setLogicOperator_mixing_rejected
      (((BooleanScope.new [] false).setLogicOperator LogicOperator.And).state.tally true)
      (((BranchScope.new 0 none false).tally false).setLogicOperator LogicOperator.Or).state
    ).2.2.2.2.1 rfl⟩

/-- C4 (code at the failing input): a `BooleanScope` and a `BranchScope` on which `And` is set
and one true operand is then tallied have operator `And` and a clear skip flag; calling
`setLogicOperator(And)` a second time returns normally but sets the skip flag, so the call is
not a no-op (`doEvalValue()` changes from true to false). -/
theorem setLogicOperator_and_twice_sets_skip :
    (((BooleanScope.new [] false).setLogicOperator LogicOperator.And).state.tally true).mLogicOp
        = LogicOperator.And ∧
    (((BooleanScope.new [] false).setLogicOperator LogicOperator.And).state.tally true).doEvalValue
        = true ∧
    ((((BooleanScope.new [] false).setLogicOperator LogicOperator.And).state.tally true
        ).setLogicOperator LogicOperator.And).thrown = none ∧
    ((((BooleanScope.new [] false).setLogicOperator LogicOperator.And).state.tally true
        ).setLogicOperator LogicOperator.And).state.doEvalValue = false ∧
    (((BranchScope.new 0 none false).setLogicOperator LogicOperator.And).state.tally true
        ).doEvalValue = true ∧
    ((((BranchScope.new 0 none false).setLogicOperator LogicOperator.And).state.tally true
        ).setLogicOperator LogicOperator.And).state.doEvalValue = false :=
  ⟨rfl, rfl, rfl, rfl, rfl, rfl⟩

/-! ### Short-circuit after the deciding operand -/

theorem BooleanScope.tally_mLogicOp (s : BooleanScope) (b : Bool) :
    (s.tally b).mLogicOp = s.mLogicOp := by
  unfold BooleanScope.tally
  cases b <;> simp only [Bool.false_eq_true, if_true, if_false] <;> split <;> rfl

theorem BooleanScope.tally_mIsDenial (s : BooleanScope) (b : Bool) :
    (s.tally b).mIsDenial = s.mIsDenial := by
  unfold BooleanScope.tally
  cases b <;> simp only [Bool.false_eq_true, if_true, if_false] <;> split <;> rfl

theorem BooleanScope.tallyAll_mLogicOp (s : BooleanScope) (bs : List Bool) :
    (s.tallyAll bs).mLogicOp = s.mLogicOp := by
  induction bs generalizing s with
  | nil => rfl
  | cons b bs ih =>
    show ((s.tally b).tallyAll bs).mLogicOp = s.mLogicOp
    rw [ih, BooleanScope.tally_mLogicOp]

theorem BooleanScope.tallyAll_mIsDenial (s : BooleanScope) (bs : List Bool) :
    (s.tallyAll bs).mIsDenial = s.mIsDenial := by
  induction bs generalizing s with
  | nil => rfl
  | cons b bs ih =>
    show ((s.tally b).tallyAll bs).mIsDenial = s.mIsDenial
    rw [ih, BooleanScope.tally_mIsDenial]

theorem BooleanScope.decidedAnd_tally {d : Bool} {s : BooleanScope}
    (h : s.DecidedAnd d) (b : Bool) : (s.tally b).DecidedAnd d := by
  obtain ⟨hop, hskip, hcount, hd⟩ := h
  unfold BooleanScope.DecidedAnd BooleanScope.tally
  cases b
  · simp [hop, hskip, hd]
  · simp [hop, hskip, hd, hcount]

theorem BooleanScope.decidedOr_tally {d : Bool} {s : BooleanScope}
    (h : s.DecidedOr d) (b : Bool) : (s.tally b).DecidedOr d := by
  obtain ⟨hop, hskip, hcount, hd⟩ := h
  unfold BooleanScope.DecidedOr BooleanScope.tally
  cases b
  · simp [hop, hskip, hd, hcount]
  · simp [hop, hskip, hd]

theorem BooleanScope.decidedAnd_tallyAll {d : Bool} {s : BooleanScope}
    (h : s.DecidedAnd d) (bs : List Bool) : (s.tallyAll bs).DecidedAnd d := by
  induction bs generalizing s with
  | nil => exact h
  | cons b bs ih => exact ih (BooleanScope.decidedAnd_tally h b)

theorem BooleanScope.decidedOr_tallyAll {d : Bool} {s : BooleanScope}
    (h : s.DecidedOr d) (bs : List Bool) : (s.tallyAll bs).DecidedOr d := by
  induction bs generalizing s with
  | nil => exact h
  | cons b bs ih => exact ih (BooleanScope.decidedOr_tally h b)

theorem BooleanScope.decidedAnd_result {d : Bool} {s : BooleanScope}
    (h : s.DecidedAnd d) : s.doEvalValue = false ∧ s.result = Except.ok d := by
  obtain ⟨hop, hskip, hcount, hd⟩ := h
  have hne : s.mFalseCount ≠ 0 := by omega
  cases d <;> simp [BooleanScope.doEvalValue, BooleanScope.result, hop, hskip, hd, hne]

theorem BooleanScope.decidedOr_result {d : Bool} {s : BooleanScope}
    (h : s.DecidedOr d) : s.doEvalValue = false ∧ s.result = Except.ok (!d) := by
  obtain ⟨hop, hskip, hcount, hd⟩ := h
  cases d <;> simp [BooleanScope.doEvalValue, BooleanScope.result, hop, hskip, hd, hcount]

/-- C5: boolean `And` short-circuit. On a freshly constructed `BooleanScope` (negated or not),
`setLogicOperator(And)` before any operand returns normally; after any run of `tally` calls
`pre`, one `tally(false)`, and any further run of `tally` calls `post`, `doEvalValue()` is false
and `result()` is false when `isDenial` is false and true when `isDenial` is true. Taking `pre`
without a false operand and `post` empty gives the state right after the first `tally(false)`. -/
theorem BooleanScope.and_short_circuit (nestName : List String) (isDenial : Bool)
    (pre post : List Bool) :
    ((BooleanScope.new nestName isDenial).setLogicOperator LogicOperator.And).thrown = none ∧
    (((((BooleanScope.new nestName isDenial).setLogicOperator LogicOperator.And).state.tallyAll
        pre).tally false).tallyAll post).doEvalValue = false ∧
    (((((BooleanScope.new nestName isDenial).setLogicOperator LogicOperator.And).state.tallyAll
        pre).tally false).tallyAll post).result = Except.ok isDenial := by
  have hop : (((BooleanScope.new nestName isDenial).setLogicOperator
      LogicOperator.And).state.tallyAll pre).mLogicOp = LogicOperator.And := by
    rw [BooleanScope.tallyAll_mLogicOp]; rfl
  have hd : (((BooleanScope.new nestName isDenial).setLogicOperator
      LogicOperator.And).state.tallyAll pre).mIsDenial = isDenial := by
    rw [BooleanScope.tallyAll_mIsDenial]; rfl
  have hdec : ((((BooleanScope.new nestName isDenial).setLogicOperator
      LogicOperator.And).state.tallyAll pre).tally false).DecidedAnd isDenial := by
    unfold BooleanScope.DecidedAnd BooleanScope.tally
    simp [hop, hd]
  exact ⟨rfl, BooleanScope.decidedAnd_result (BooleanScope.decidedAnd_tallyAll hdec post)⟩

/-- C6: boolean `Or` short-circuit. On a freshly constructed, not negated `BooleanScope` on which
`setLogicOperator(Or)` is called before any operand, after any run `pre` of `tally` calls, one
`tally(true)`, and any further run `post` of `tally` calls (true or false), `doEvalValue()` is
false and `result()` is true. With `pre` empty this is the state from the first `tally(true)`
onward. -/
theorem BooleanScope.or_short_circuit (nestName : List String) (pre post : List Bool) :
    ((BooleanScope.new nestName false).setLogicOperator LogicOperator.Or).thrown = none ∧
    (((((BooleanScope.new nestName false).setLogicOperator LogicOperator.Or).state.tallyAll
        pre).tally true).tallyAll post).doEvalValue = false ∧
    (((((BooleanScope.new nestName false).setLogicOperator LogicOperator.Or).state.tallyAll
        pre).tally true).tallyAll post).result = Except.ok true := by
  have hop : (((BooleanScope.new nestName false).setLogicOperator
      LogicOperator.Or).state.tallyAll pre).mLogicOp = LogicOperator.Or := by
    rw [BooleanScope.tallyAll_mLogicOp]; rfl
  have hd : (((BooleanScope.new nestName false).setLogicOperator
      LogicOperator.Or).state.tallyAll pre).mIsDenial = false := by
    rw [BooleanScope.tallyAll_mIsDenial]; rfl
  have hdec : ((((BooleanScope.new nestName false).setLogicOperator
      LogicOperator.Or).state.tallyAll pre).tally true).DecidedOr false := by
    unfold BooleanScope.DecidedOr BooleanScope.tally
    simp [hop, hd]
  exact ⟨rfl, BooleanScope.decidedOr_result (BooleanScope.decidedOr_tallyAll hdec post)⟩

/-- C7: for every `BooleanScope` and every `BranchScope`, whatever the current operator,
`setLogicOperator(Unknown)` throws `std::invalid_argument` and leaves the object unchanged, and
`setLogicOperator(Continue)` returns normally and leaves the object (operator, counts, skip flag
and every other member) unchanged. -/
theorem setLogicOperator_unknown_continue (s : BooleanScope) (t : BranchScope) :
    s.setLogicOperator LogicOperator.Unknown = ⟨some Exception.invalid_argument, s⟩ ∧
    s.setLogicOperator LogicOperator.Continue = ⟨none, s⟩ ∧
    t.setLogicOperator LogicOperator.Unknown = ⟨some Exception.invalid_argument, t⟩ ∧
    t.setLogicOperator LogicOperator.Continue = ⟨none, t⟩ :=
  ⟨rfl, rfl, rfl, rfl⟩

/-- C10: `resetBranchState()` clears only the clause state. For every `BranchScope`, afterwards
`trueCount = 0`, `falseCount = 0`, the operator is `Continue` and the skip flag is clear
(`doEvalValue()` is true), while the running count of executed arms, the local-variable map,
`isDenial`, the run-all flag, the switch target and the parent reference are what they were. -/
theorem BranchScope.resetBranchState_frame (s : BranchScope) :
    s.resetBranchState.mTrueCount = 0 ∧
    s.resetBranchState.mFalseCount = 0 ∧
    s.resetBranchState.mLogicOp = LogicOperator.Continue ∧
    s.resetBranchState.mDoSkip = false ∧
    s.resetBranchState.doEvalValue = true ∧
    s.resetBranchState.mRunningCountOfTrueStatement = s.mRunningCountOfTrueStatement ∧
    s.resetBranchState.mLocalVariables = s.mLocalVariables ∧
    s.resetBranchState.mIsDenial = s.mIsDenial ∧
    s.resetBranchState.mDoRunAllTrueStatement = s.mDoRunAllTrueStatement ∧
    s.resetBranchState.mpSwitchTargetVariable = s.mpSwitchTargetVariable ∧
    s.resetBranchState.mParentScope = s.mParentScope :=
  ⟨rfl, rfl, rfl, rfl, rfl, rfl, rfl, rfl, rfl, rfl, rfl⟩

/-! ### Branch arms -/

theorem BranchScope.call_mDoRunAllTrueStatement (s : BranchScope) (c : BranchCall) :
    (s.call c).mDoRunAllTrueStatement = s.mDoRunAllTrueStatement := by
  cases c with
  | tally b =>
    simp only [BranchScope.call, BranchScope.tally]
    cases b <;> simp only [Bool.false_eq_true, if_true, if_false] <;> split <;> rfl
  | setLogicOperator op =>
    simp only [BranchScope.call, BranchScope.setLogicOperator]
    cases op <;> simp <;> repeat (first | rfl | split)
  | resetBranchState => rfl
  | incrementRunningCount => rfl
  | addLocalVariable name value => rfl

theorem BranchScope.call_mRunningCount_le (s : BranchScope) (c : BranchCall) :
    s.mRunningCountOfTrueStatement ≤ (s.call c).mRunningCountOfTrueStatement := by
  cases c with
  | tally b =>
    simp only [BranchScope.call, BranchScope.tally]
    cases b <;> simp only [Bool.false_eq_true, if_true, if_false] <;> split <;> exact Nat.le_refl _
  | setLogicOperator op =>
    simp only [BranchScope.call, BranchScope.setLogicOperator]
    cases op <;> simp <;> repeat (first | exact Nat.le_refl _ | split)
  | resetBranchState => exact Nat.le_refl _
  | incrementRunningCount => exact Nat.le_succ _
  | addLocalVariable name value => exact Nat.le_refl _

theorem BranchScope.call_mRunningCount_eq (s : BranchScope) (c : BranchCall)
    (hc : c.isIncrement = false) :
    (s.call c).mRunningCountOfTrueStatement = s.mRunningCountOfTrueStatement := by
  cases c with
  | tally b =>
    simp only [BranchScope.call, BranchScope.tally]
    cases b <;> simp only [Bool.false_eq_true, if_true, if_false] <;> split <;> rfl
  | setLogicOperator op =>
    simp only [BranchScope.call, BranchScope.setLogicOperator]
    cases op <;> simp <;> repeat (first | rfl | split)
  | resetBranchState => rfl
  | incrementRunningCount => simp [BranchCall.isIncrement] at hc
  | addLocalVariable name value => rfl

theorem BranchScope.calls_mDoRunAllTrueStatement (s : BranchScope) (cs : List BranchCall) :
    (s.calls cs).mDoRunAllTrueStatement = s.mDoRunAllTrueStatement := by
  induction cs generalizing s with
  | nil => rfl
  | cons c cs ih =>
    show ((s.call c).calls cs).mDoRunAllTrueStatement = s.mDoRunAllTrueStatement
    rw [ih, BranchScope.call_mDoRunAllTrueStatement]

theorem BranchScope.calls_mRunningCount_le (s : BranchScope) (cs : List BranchCall) :
    s.mRunningCountOfTrueStatement ≤ (s.calls cs).mRunningCountOfTrueStatement := by
  induction cs generalizing s with
  | nil => exact Nat.le_refl _
  | cons c cs ih =>
    show s.mRunningCountOfTrueStatement ≤ ((s.call c).calls cs).mRunningCountOfTrueStatement
    exact Nat.le_trans (BranchScope.call_mRunningCount_le s c) (ih (s.call c))

theorem BranchScope.calls_mRunningCount_eq (s : BranchScope) (cs : List BranchCall)
    (hcs : ∀ c ∈ cs, c.isIncrement = false) :
    (s.calls cs).mRunningCountOfTrueStatement = s.mRunningCountOfTrueStatement := by
  induction cs generalizing s with
  | nil => rfl
  | cons c cs ih =>
    show ((s.call c).calls cs).mRunningCountOfTrueStatement = s.mRunningCountOfTrueStatement
    rw [ih (s.call c) (fun x hx => hcs x (List.mem_cons_of_mem c hx)),
      BranchScope.call_mRunningCount_eq s c (hcs c (List.mem_cons_self c cs))]

theorem BranchScope.doCurrentStatements_eq_result (t : BranchScope) (b : BooleanScope)
    (hcount : t.mRunningCountOfTrueStatement = 0) (hop : b.mLogicOp = t.mLogicOp)
    (htrue : b.mTrueCount = t.mTrueCount) (hfalse : b.mFalseCount = t.mFalseCount)
    (hd : b.mIsDenial = t.mIsDenial) : t.doCurrentStatements = b.result := by
  unfold BranchScope.doCurrentStatements BooleanScope.result
  rw [hop, htrue, hfalse, hd]
  simp [hcount]

/-- C8: first-match branch semantics. (1) For every `BranchScope` not configured to run all
matching arms, once `incrementRunningCount()` has been called, after any further sequence of
`tally`, `setLogicOperator`, `resetBranchState`, `incrementRunningCount` and `addLocalVariable`
calls `doCurrentStatements()` returns false and `doElseStatement()` is false. (2) A constructed
`BranchScope` is not configured to run all matching arms and no call changes that; after any
sequence of calls without `incrementRunningCount()`, `doElseStatement()` is true and
`doCurrentStatements()` equals `BooleanScope::result()` of any `BooleanScope` with the same
operator, counts and `isDenial` (throwing `BooleanException` exactly when it does). -/
theorem BranchScope.first_match_semantics (s : BranchScope) (cs : List BranchCall)
    (parentScope : Nat) (pSwitchTargetVariable : Option Value) (isDenial : Bool)
    (pre : List BranchCall) (b : BooleanScope) :
    (s.mDoRunAllTrueStatement = false →
      (s.incrementRunningCount.calls cs).doCurrentStatements = Except.ok false ∧
      (s.incrementRunningCount.calls cs).doElseStatement = false) ∧
    ((BranchScope.new parentScope pSwitchTargetVariable isDenial).calls
        pre).mDoRunAllTrueStatement = false ∧
    ((∀ c ∈ pre, c.isIncrement = false) →
      b.mLogicOp = ((BranchScope.new parentScope pSwitchTargetVariable isDenial).calls
        pre).mLogicOp →
      b.mTrueCount = ((BranchScope.new parentScope pSwitchTargetVariable isDenial).calls
        pre).mTrueCount →
      b.mFalseCount = ((BranchScope.new parentScope pSwitchTargetVariable isDenial).calls
        pre).mFalseCount →
      b.mIsDenial = ((BranchScope.new parentScope pSwitchTargetVariable isDenial).calls
        pre).mIsDenial →
      ((BranchScope.new parentScope pSwitchTargetVariable isDenial).calls
        pre).doElseStatement = true ∧
      ((BranchScope.new parentScope pSwitchTargetVariable isDenial).calls
        pre).doCurrentStatements = b.result) := by
  refine ⟨?_, ?_, ?_⟩
  · intro hall
    have h1 : (s.incrementRunningCount.calls cs).mDoRunAllTrueStatement = false := by
      rw [BranchScope.calls_mDoRunAllTrueStatement]; exact hall
    have h2 : 1 ≤ (s.incrementRunningCount.calls cs).mRunningCountOfTrueStatement :=
      Nat.le_trans (Nat.le_add_left 1 s.mRunningCountOfTrueStatement)
        (BranchScope.calls_mRunningCount_le s.incrementRunningCount cs)
    have h3 : (s.incrementRunningCount.calls cs).mRunningCountOfTrueStatement ≠ 0 := by omega
    constructor
    · simp [BranchScope.doCurrentStatements, h1, h2]
    · simp [BranchScope.doElseStatement, h3]
  · rw [BranchScope.calls_mDoRunAllTrueStatement]; rfl
  · intro hpre hop htrue hfalse hd
    have h0 : ((BranchScope.new parentScope pSwitchTargetVariable isDenial).calls
        pre).mRunningCountOfTrueStatement = 0 := by
      rw [BranchScope.calls_mRunningCount_eq _ _ hpre]; rfl
    constructor
    · simp [BranchScope.doElseStatement, h0]
    · exact BranchScope.doCurrentStatements_eq_result _ b h0 hop htrue hfalse hd

/-- Witness of C8: an `if` branch whose first arm ran, followed by an `elif` clause whose test
is true, does not run the second arm nor the `else` arm; before any arm ran, a branch with one
false operand under `And` agrees with the `BooleanScope` in the same state. -/
theorem BranchScope.first_match_semantics_witness :
    ((BranchScope.new 0 none false).incrementRunningCount.calls
        [BranchCall.resetBranchState, BranchCall.tally true]).doCurrentStatements
      = Except.ok false ∧
    ((BranchScope.new 0 none false).calls
        [BranchCall.setLogicOperator LogicOperator.And, BranchCall.tally false]).doElseStatement
      = true ∧
    ((BranchScope.new 0 none false).calls
        [BranchCall.setLogicOperator LogicOperator.And, BranchCall.tally false]
      ).doCurrentStatements
      = (((BooleanScope.new [] false).setLogicOperator LogicOperator.And).state.tally
          false).result :=
  ⟨((BranchScope.first_match_semantics (BranchScope.new 0 none false)
      [BranchCall.resetBranchState, BranchCall.tally true] 0 none false
      [BranchCall.setLogicOperator LogicOperator.And, BranchCall.tally false]
      (((BooleanScope.new [] false).setLogicOperator LogicOperator.And).state.tally false)).1
      rfl).1,
   (BranchScope.first_match_semantics (BranchScope.new 0 none false)
      [BranchCall.resetBranchState, BranchCall.tally true] 0 none false
      [BranchCall.setLogicOperator LogicOperator.And, BranchCall.tally false]
      (((BooleanScope.new [] false).setLogicOperator LogicOperator.And).state.tally false)).2.2
      (by decide) rfl rfl rfl rfl⟩

/-! ### Branch-local variables -/

theorem UnorderedMap.find_append_singleton {α : Type} (m : List (String × α)) (key k : String)
    (value : α) :
    UnorderedMap.find (m ++ [(key, value)]) k
      = (UnorderedMap.find m k).or (if k = key then some value else none) := by
  unfold UnorderedMap.find
  rw [List.lookup_append]
  congr 1
  by_cases h : k = key
  · simp [List.lookup, h]
  · have hb : (k == key) = false := by simpa using h
    simp [List.lookup, hb, h]

theorem UnorderedMap.find_insert_self {α : Type} (m : List (String × α)) (key : String)
    (value : α) :
    UnorderedMap.find (UnorderedMap.insert m key value) key
      = some ((UnorderedMap.find m key).getD value) := by
  unfold UnorderedMap.insert
  cases h : m.lookup key with
  | some v => simp [UnorderedMap.find, h]
  | none =>
    simp only []
    rw [UnorderedMap.find_append_singleton]
    simp [UnorderedMap.find, h]

theorem UnorderedMap.find_insert_of_ne {α : Type} (m : List (String × α)) (key k : String)
    (value : α) (hk : k ≠ key) :
    UnorderedMap.find (UnorderedMap.insert m key value) k = UnorderedMap.find m k := by
  unfold UnorderedMap.insert
  cases h : m.lookup key with
  | some v => rfl
  | none =>
    simp only []
    rw [UnorderedMap.find_append_singleton]
    simp [hk]

theorem UnorderedMap.insert_insert {α : Type} (m : List (String × α)) (key : String)
    (v1 v2 : α) :
    UnorderedMap.insert (UnorderedMap.insert m key v1) key v2 = UnorderedMap.insert m key v1 := by
  have h := UnorderedMap.find_insert_self m key v1
  unfold UnorderedMap.find at h
  generalize UnorderedMap.insert m key v1 = m1 at h
  unfold UnorderedMap.insert
  rw [h]

theorem UnorderedMap.find_eq_none_iff {α : Type} (m : List (String × α)) (key : String) :
    UnorderedMap.find m key = none ↔ key ∉ m.map Prod.fst := by
  unfold UnorderedMap.find
  induction m with
  | nil => simp
  | cons e m ih =>
    obtain ⟨k, v⟩ := e
    by_cases h : key = k
    · simp [List.lookup, h]
    · have hb : (key == k) = false := by simpa using h
      simp only [List.lookup, hb, List.map_cons, List.mem_cons, h, false_or]
      exact ih

theorem UnorderedMap.count_eq_zero {α : Type} (m : List (String × α)) (key : String)
    (h : key ∉ m.map Prod.fst) : UnorderedMap.count m key = 0 := by
  unfold UnorderedMap.count
  rw [List.length_eq_zero, List.filter_eq_nil_iff]
  intro e he heq
  exact h (List.mem_map.mpr ⟨e, he, by simpa using heq⟩)

theorem UnorderedMap.count_eq_one {α : Type} (m : List (String × α)) (key : String)
    (hwf : UnorderedMap.WF m) (h : key ∈ m.map Prod.fst) : UnorderedMap.count m key = 1 := by
  induction m with
  | nil => simp at h
  | cons e m ih =>
    obtain ⟨k, v⟩ := e
    unfold UnorderedMap.WF at hwf
    rw [List.map_cons, List.nodup_cons] at hwf
    by_cases hk : k = key
    · subst hk
      have h0 := UnorderedMap.count_eq_zero m k hwf.1
      unfold UnorderedMap.count at h0 ⊢
      simp [List.filter_cons, h0]
    · have hmem : key ∈ m.map Prod.fst := by
        rcases List.mem_cons.mp h with h1 | h1
        · exact absurd h1.symm hk
        · exact h1
      have h1 := ih hwf.2 hmem
      unfold UnorderedMap.count at h1 ⊢
      simp [List.filter_cons, hk, h1]

theorem UnorderedMap.mem_keys_insert {α : Type} (m : List (String × α)) (key : String)
    (value : α) : key ∈ (UnorderedMap.insert m key value).map Prod.fst := by
  by_contra hcon
  have h := (UnorderedMap.find_eq_none_iff _ key).mpr hcon
  rw [UnorderedMap.find_insert_self] at h
  exact Option.some_ne_none _ h

theorem UnorderedMap.wf_insert {α : Type} {m : List (String × α)} (hwf : UnorderedMap.WF m)
    (key : String) (value : α) : UnorderedMap.WF (UnorderedMap.insert m key value) := by
  unfold UnorderedMap.insert
  cases h : m.lookup key with
  | some v => exact hwf
  | none =>
    have hnot : key ∉ m.map Prod.fst := (UnorderedMap.find_eq_none_iff m key).mp h
    unfold UnorderedMap.WF at hwf ⊢
    simp only [List.map_append, List.map_cons, List.map_nil]
    rw [List.nodup_append]
    refine ⟨hwf, List.nodup_singleton key, ?_⟩
    intro a ha hb
    rw [List.mem_singleton] at hb
    subst hb
    exact hnot ha

theorem BranchScope.searchVariable_eq_find (s : BranchScope) (name : String) :
    s.searchVariable name = UnorderedMap.find s.mLocalVariables.members name := by
  unfold BranchScope.searchVariable Object.isExistMember Object.getMember
  cases h : UnorderedMap.find s.mLocalVariables.members name <;> simp

/-- C9 (refutation as stated): on a freshly constructed `BranchScope`, after
`addLocalVariable("n", 1)` and then `addLocalVariable("n", 2)`, `searchVariable("n")` finds the
first value `1`, not the value `2` written last. -/
theorem BranchScope.addLocalVariable_not_last_write_wins :
    (((BranchScope.new 0 none false).addLocalVariable "n" (Value.number 1)).addLocalVariable
        "n" (Value.number 2)).searchVariable "n" = some (Value.number 1) ∧
    (((BranchScope.new 0 none false).addLocalVariable "n" (Value.number 1)).addLocalVariable
        "n" (Value.number 2)).searchVariable "n" ≠ some (Value.number 2) := by
  have h : (((BranchScope.new 0 none false).addLocalVariable "n" (Value.number 1)
      ).addLocalVariable "n" (Value.number 2)).searchVariable "n" = some (Value.number 1) :=
    rfl
  refine ⟨h, ?_⟩
  rw [h]
  intro hcon
  have h12 : (1 : Rat) = 2 := Value.number.inj (Option.some.inj hcon)
  exact absurd h12 (by decide)

/-- C9 (amended): `BranchScope::addLocalVariable` keeps keys unique and the first write wins.
For every `BranchScope` whose local-variable map is well formed, every name `n` and values `v1`,
`v2`: after `addLocalVariable(n, v1)` then `addLocalVariable(n, v2)` the map holds exactly one
entry for `n`; `searchVariable(n)` finds the value that was stored under `n` before the two calls
when there was one and `v1` otherwise (never `v2` in place of them: the second call changes
nothing); and the variables stored under other names are found unchanged. -/
theorem BranchScope.addLocalVariable_first_write_wins (s : BranchScope) (n : String)
    (v1 v2 : Value) (hwf : UnorderedMap.WF s.mLocalVariables.members) :
    UnorderedMap.count ((s.addLocalVariable n v1).addLocalVariable n v2).mLocalVariables.members n
      = 1 ∧
    ((s.addLocalVariable n v1).addLocalVariable n v2).searchVariable n
      = some ((s.searchVariable n).getD v1) ∧
    (s.addLocalVariable n v1).addLocalVariable n v2 = s.addLocalVariable n v1 ∧
    (∀ m : String, m ≠ n →
      ((s.addLocalVariable n v1).addLocalVariable n v2).searchVariable m = s.searchVariable m) ∧
    UnorderedMap.WF ((s.addLocalVariable n v1).addLocalVariable n v2).mLocalVariables.members := by
  have hsame : (s.addLocalVariable n v1).addLocalVariable n v2 = s.addLocalVariable n v1 := by
    unfold BranchScope.addLocalVariable
    simp only [Object.members, Object.pDefined]
    rw [UnorderedMap.insert_insert]
  have hmem : (s.addLocalVariable n v1).mLocalVariables.members
      = UnorderedMap.insert s.mLocalVariables.members n v1 := rfl
  rw [hsame]
  refine ⟨?_, ?_, rfl, ?_, ?_⟩
  · rw [hmem]
    exact UnorderedMap.count_eq_one _ n (UnorderedMap.wf_insert hwf n v1) (UnorderedMap.mem_keys_insert _ n v1)
  · rw [BranchScope.searchVariable_eq_find, BranchScope.searchVariable_eq_find, hmem,
      UnorderedMap.find_insert_self]
  · intro m hm
    rw [BranchScope.searchVariable_eq_find, BranchScope.searchVariable_eq_find, hmem,
      UnorderedMap.find_insert_of_ne _ n m v1 hm]
  · rw [hmem]
    exact UnorderedMap.wf_insert hwf n v1

/-- Witness of C9 (amended): a branch already holding `x` receives two writes to `n`; the map
then holds one entry for `n`, the first value written. -/
theorem BranchScope.addLocalVariable_first_write_wins_witness :
    UnorderedMap.WF
      ((BranchScope.new 0 none false).addLocalVariable "x" Value.none).mLocalVariables.members ∧
    UnorderedMap.count
      ((((BranchScope.new 0 none false).addLocalVariable "x" Value.none).addLocalVariable "n"
        (Value.bool true)).addLocalVariable "n" (Value.bool false)).mLocalVariables.members "n"
      = 1 ∧
    ((((BranchScope.new 0 none false).addLocalVariable "x" Value.none).addLocalVariable "n"
        (Value.bool true)).addLocalVariable "n" (Value.bool false)).searchVariable "n"
      = some (Value.bool true) :=
  have hwf : UnorderedMap.WF
      ((BranchScope.new 0 none false).addLocalVariable "x" Value.none).mLocalVariables.members :=
    by decide
  ⟨hwf,
   (BranchScope.addLocalVariable_first_write_wins
      ((BranchScope.new 0 none false).addLocalVariable "x" Value.none) "n"
      (Value.bool true) (Value.bool false) hwf).1,
   (BranchScope.addLocalVariable_first_write_wins
      ((BranchScope.new 0 none false).addLocalVariable "x" Value.none) "n"
      (Value.bool true) (Value.bool false) hwf).2.1⟩

/-! ### What the driver computes -/

/-- One driver step: the operand is tallied when `doEvalValue()` allows it, then the operator
`next` is announced. -/
theorem BooleanScope.evalOperands_cons (op : LogicOperator) (s : BooleanScope) (b : Bool)
    (rest : List Bool) :
    BooleanScope.evalOperands op s (b :: rest)
      = BooleanScope.evalOperands op
          ((if s.doEvalValue then s.tally b else s).setLogicOperator
            (if rest.isEmpty then LogicOperator.Continue else op)).state rest :=
  rfl

theorem BooleanScope.runningOr_step {s : BooleanScope} (h : s.RunningOr) (b : Bool)
    (next : LogicOperator) (hnext : next = LogicOperator.Continue ∨ next = LogicOperator.Or) :
    ((if s.doEvalValue then s.tally b else s).setLogicOperator next).state.RunningOr ∧
    decide (1 ≤ ((if s.doEvalValue then s.tally b else s).setLogicOperator
      next).state.mTrueCount) = (decide (1 ≤ s.mTrueCount) || b) := by
  obtain ⟨hop, hd, hskip⟩ := h
  unfold BooleanScope.RunningOr BooleanScope.doEvalValue BooleanScope.setLogicOperator
    BooleanScope.tally
  cases hs : s.mDoSkip
  · have h0 : s.mTrueCount = 0 := by
      have : ¬ 1 ≤ s.mTrueCount := fun hc => by simp [hskip.mpr hc] at hs
      omega
    rcases hnext with hn | hn <;> cases b <;> simp [hn, hop, hd, hs, h0]
  · have h1 : 1 ≤ s.mTrueCount := hskip.mp hs
    rcases hnext with hn | hn <;> cases b <;> simp [hn, hop, hd, hs, h1]

theorem BooleanScope.runningOr_evalOperands {s : BooleanScope} (h : s.RunningOr)
    (rest : List Bool) :
    (BooleanScope.evalOperands LogicOperator.Or s rest).result
      = Except.ok (decide (1 ≤ s.mTrueCount) || rest.any id) := by
  induction rest generalizing s with
  | nil =>
    obtain ⟨hop, hd, _⟩ := h
    simp [BooleanScope.evalOperands, BooleanScope.result, hop, hd]
  | cons b rest ih =>
    have hnext : (if rest.isEmpty then LogicOperator.Continue else LogicOperator.Or)
        = LogicOperator.Continue ∨
        (if rest.isEmpty then LogicOperator.Continue else LogicOperator.Or)
        = LogicOperator.Or := by
      cases rest.isEmpty <;> simp
    have hstep := BooleanScope.runningOr_step h b _ hnext
    rw [BooleanScope.evalOperands_cons, ih hstep.1, hstep.2]
    simp [Bool.or_assoc]

/-- The driver is sound for `Or`: on a freshly constructed, not negated `BooleanScope` the
result of a non-empty operand list is the disjunction of the operands. -/
theorem BooleanScope.evalOperands_or_sound (nestName : List String) (b : Bool)
    (rest : List Bool) :
    (BooleanScope.evalOperands LogicOperator.Or (BooleanScope.new nestName false)
      (b :: rest)).result = Except.ok ((b :: rest).any id) := by
  cases rest with
  | nil => cases b <;> rfl
  | cons c rest =>
    have h : ((if (BooleanScope.new nestName false).doEvalValue then
        (BooleanScope.new nestName false).tally b else BooleanScope.new nestName false
        ).setLogicOperator LogicOperator.Or).state.RunningOr := by
      cases b <;> simp [BooleanScope.RunningOr, BooleanScope.new, BooleanScope.doEvalValue,
        BooleanScope.tally, BooleanScope.setLogicOperator]
    have hcount : decide (1 ≤ ((if (BooleanScope.new nestName false).doEvalValue then
        (BooleanScope.new nestName false).tally b else BooleanScope.new nestName false
        ).setLogicOperator LogicOperator.Or).state.mTrueCount) = b := by
      cases b <;> simp [BooleanScope.new, BooleanScope.doEvalValue,
        BooleanScope.tally, BooleanScope.setLogicOperator]
    rw [BooleanScope.evalOperands_cons]
    simp only [List.isEmpty_cons, Bool.false_eq_true, if_false]
    rw [BooleanScope.runningOr_evalOperands h, hcount]
    simp

theorem BooleanScope.skippingAnd_step {s : BooleanScope} (h : s.SkippingAnd) (b : Bool)
    (next : LogicOperator) (hnext : next = LogicOperator.Continue ∨ next = LogicOperator.And) :
    ((if s.doEvalValue then s.tally b else s).setLogicOperator next).state.SkippingAnd ∧
    ((if s.doEvalValue then s.tally b else s).setLogicOperator next).state.mFalseCount
      = s.mFalseCount := by
  obtain ⟨hop, hd, hskip⟩ := h
  unfold BooleanScope.SkippingAnd BooleanScope.doEvalValue BooleanScope.setLogicOperator
  rcases hnext with hn | hn
  · simp [hn, hop, hd, hskip]
  · simp only [hn, hop, hskip, Bool.not_true, Bool.false_eq_true, if_false, reduceCtorEq,
      ne_eq, not_true_eq_false, and_false, true_or]
    split_ifs <;> simp [hop, hd, hskip]

theorem BooleanScope.skippingAnd_evalOperands {s : BooleanScope} (h : s.SkippingAnd)
    (rest : List Bool) :
    (BooleanScope.evalOperands LogicOperator.And s rest).result
      = Except.ok (decide (s.mFalseCount = 0)) := by
  induction rest generalizing s with
  | nil =>
    obtain ⟨hop, hd, _⟩ := h
    simp [BooleanScope.evalOperands, BooleanScope.result, hop, hd]
  | cons b rest ih =>
    have hnext : (if rest.isEmpty then LogicOperator.Continue else LogicOperator.And)
        = LogicOperator.Continue ∨
        (if rest.isEmpty then LogicOperator.Continue else LogicOperator.And)
        = LogicOperator.And := by
      cases rest.isEmpty <;> simp
    have hstep := BooleanScope.skippingAnd_step h b _ hnext
    rw [BooleanScope.evalOperands_cons, ih hstep.1, hstep.2]

/-- What the driver computes for `And`: on a freshly constructed, not negated `BooleanScope`
the result of a non-empty operand list is its first operand, whatever the later operands are. -/
theorem BooleanScope.evalOperands_and_first (nestName : List String) (b : Bool)
    (rest : List Bool) :
    (BooleanScope.evalOperands LogicOperator.And (BooleanScope.new nestName false)
      (b :: rest)).result = Except.ok b := by
  cases rest with
  | nil => cases b <;> rfl
  | cons c rest =>
    have h : ((if (BooleanScope.new nestName false).doEvalValue then
        (BooleanScope.new nestName false).tally b else BooleanScope.new nestName false
        ).setLogicOperator LogicOperator.And).state.SkippingAnd := by
      cases b <;> simp [BooleanScope.SkippingAnd, BooleanScope.new, BooleanScope.doEvalValue,
        BooleanScope.tally, BooleanScope.setLogicOperator]
    have hcount : decide (((if (BooleanScope.new nestName false).doEvalValue then
        (BooleanScope.new nestName false).tally b else BooleanScope.new nestName false
        ).setLogicOperator LogicOperator.And).state.mFalseCount = 0) = b := by
      cases b <;> simp [BooleanScope.new, BooleanScope.doEvalValue,
        BooleanScope.tally, BooleanScope.setLogicOperator]
    rw [BooleanScope.evalOperands_cons]
    simp only [List.isEmpty_cons, Bool.false_eq_true, if_false]
    rw [BooleanScope.skippingAnd_evalOperands h, hcount]

/-! ### Repeating the operator -/

theorem BooleanScope.orSkipSet_call {s : BooleanScope} (h : s.OrSkipSet) (c : BooleanCall) :
    (s.call c).OrSkipSet := by
  unfold BooleanScope.OrSkipSet at h ⊢
  cases c with
  | tally b =>
    simp only [BooleanScope.call, BooleanScope.tally]
    cases b
    · simp only [Bool.false_eq_true, if_false]
      split
      · intro _ _; rfl
      · exact h
    · simp only [if_true]
      split
      · intro _ _; rfl
      · rename_i hne
        intro hop
        exact absurd hop.symm hne
  | setLogicOperator op =>
    simp only [BooleanScope.call, BooleanScope.setLogicOperator]
    cases op
    · simpa using h
    · simpa using h
    · simp only [reduceCtorEq, if_false]
      split
      · exact h
      · split <;> split <;> simp
    · simp only [reduceCtorEq, if_false]
      split
      · exact h
      · split <;> simp_all

theorem BooleanScope.orSkipSet_calls (nestName : List String) (isDenial : Bool)
    (cs : List BooleanCall) : ((BooleanScope.new nestName isDenial).calls cs).OrSkipSet := by
  have hgen : ∀ (s : BooleanScope), s.OrSkipSet → (s.calls cs).OrSkipSet := by
    induction cs with
    | nil => intro s hs; exact hs
    | cons c cs ih => intro s hs; exact ih (s.call c) (BooleanScope.orSkipSet_call hs c)
  apply hgen
  intro hop
  simp [BooleanScope.new] at hop

/-- Repeating `Or` is a no-op on every state reached from construction by `tally` and
`setLogicOperator` calls: the call returns normally and the object is unchanged. -/
theorem BooleanScope.setLogicOperator_or_twice (nestName : List String) (isDenial : Bool)
    (cs : List BooleanCall)
    (hop : ((BooleanScope.new nestName isDenial).calls cs).mLogicOp = LogicOperator.Or) :
    ((BooleanScope.new nestName isDenial).calls cs).setLogicOperator LogicOperator.Or
      = ⟨none, (BooleanScope.new nestName isDenial).calls cs⟩ := by
  have hinv := BooleanScope.orSkipSet_calls nestName isDenial cs
  generalize (BooleanScope.new nestName isDenial).calls cs = s at hop hinv
  unfold BooleanScope.OrSkipSet at hinv
  obtain ⟨n, v, o, k, t, f, d⟩ := s
  simp only at hop hinv
  subst hop
  by_cases ht : 1 ≤ t
  · have hk := hinv rfl ht
    subst hk
    simp [BooleanScope.setLogicOperator, ht]
  · simp [BooleanScope.setLogicOperator, ht]

/-! ### Pointers: reading after writing -/

theorem UnorderedMap.lookup_map_assign {α : Type} (m : List (String × α)) (key : String)
    (value : α) :
    (m.map (fun e => if e.1 == key then (e.1, value) else e)).lookup key
      = (m.lookup key).map (fun _ => value) := by
  induction m with
  | nil => rfl
  | cons e m ih =>
    obtain ⟨k, x⟩ := e
    by_cases hk : k = key
    · subst hk
      have h1 : (if ((k, x).1 == k) = true then ((k, x).1, value) else (k, x))
          = (k, value) := by simp
      rw [List.map_cons, h1, List.lookup_cons, List.lookup_cons]
      simp
    · have hb : (key == k) = false := by simpa using (Ne.symm hk)
      have h1 : (if ((k, x).1 == key) = true then ((k, x).1, value) else (k, x))
          = (k, x) := by simp [hk]
      rw [List.map_cons, h1, List.lookup_cons, List.lookup_cons, hb]
      exact ih

theorem UnorderedMap.find_assign_self {α : Type} (m : List (String × α)) (key : String)
    (old value : α) (h : UnorderedMap.find m key = some old) :
    UnorderedMap.find (UnorderedMap.assign m key value) key = some value := by
  unfold UnorderedMap.find at h
  unfold UnorderedMap.assign UnorderedMap.find
  rw [h]
  simp only []
  rw [UnorderedMap.lookup_map_assign, h]
  rfl

theorem Value.child_setChild (v : Value) (seg : String) (old new : Value)
    (h : v.child seg = some old) : (v.setChild seg new).child seg = some new := by
  cases v with
  | object o =>
    simp only [Value.child] at h
    simp only [Value.setChild, Value.child, Object.members]
    exact UnorderedMap.find_assign_self _ seg old new h
  | array a =>
    simp only [Value.child] at h
    simp only [Value.setChild]
    cases hp : parseIndex seg with
    | none => simp [hp] at h
    | some i =>
      simp only [hp] at h
      simp only [Value.child, hp]
      have hi : i < a.length := by
        by_contra hcon
        rw [List.getElem?_eq_none (Nat.le_of_not_lt hcon)] at h
        exact Option.noConfusion h
      simp [List.getElem?_set, hi]
  | none => simp [Value.child] at h
  | bool b => simp [Value.child] at h
  | string s => simp [Value.child] at h
  | number n => simp [Value.child] at h
  | objectDefined d => simp [Value.child] at h
  | memberDefined m => simp [Value.child] at h
  | reference r => simp [Value.child] at h
  | function f => simp [Value.child] at h
  | argument a => simp [Value.child] at h

theorem Value.atPath_setAtPath (path : List String) (v old new : Value)
    (h : Value.atPath path v = some old) :
    Value.atPath path (Value.setAtPath path v new) = some new := by
  induction path generalizing v with
  | nil => rfl
  | cons seg rest ih =>
    simp only [Value.atPath] at h
    cases hc : v.child seg with
    | none => simp [hc] at h
    | some c =>
      simp only [hc] at h
      simp only [Value.setAtPath, hc, Value.atPath]
      rw [Value.child_setChild v seg c _ hc]
      exact ih c h

theorem Scope.ownValue_setOwnValue (s : Scope) (v new : Value) (h : s.ownValue = some v) :
    (s.setOwnValue new).ownValue = some new := by
  cases s <;> simp [Scope.ownValue] at h <;> rfl

theorem Enviroment.readPtr_writePtr (env : Enviroment) (p : ValuePtr) (old new : Value)
    (h : env.readPtr p = some old) (hroot : p.root ≠ ValueRoot.staticNone) :
    (env.writePtr p new).readPtr p = some new := by
  obtain ⟨root, path⟩ := p
  cases root with
  | staticNone => exact absurd rfl hroot
  | externObj =>
    simp only [Enviroment.readPtr] at h
    simp only [Enviroment.writePtr, Enviroment.readPtr]
    exact Value.atPath_setAtPath path _ old new h
  | scope i =>
    simp only [Enviroment.readPtr] at h
    cases hs : env.scopeStack[i]? with
    | none => simp [hs] at h
    | some s =>
      simp only [hs] at h
      cases hv : s.ownValue with
      | none => simp [hv] at h
      | some v =>
        simp only [hv] at h
        have hi : i < env.scopeStack.length := by
          by_contra hcon
          rw [List.getElem?_eq_none (Nat.le_of_not_lt hcon)] at hs
          exact Option.noConfusion hs
        simp only [Enviroment.writePtr, hs, hv, Enviroment.readPtr]
        have hget : (env.scopeStack.set i (s.setOwnValue (Value.setAtPath path v new)))[i]?
            = some (s.setOwnValue (Value.setAtPath path v new)) := by
          simp [List.getElem?_set, hi]
        rw [hget]
        simp only []
        rw [Scope.ownValue_setOwnValue s v _ hv]
        exact Value.atPath_setAtPath path v old new h

theorem Enviroment.writePtr_modeStack (env : Enviroment) (p : ValuePtr) (new : Value) :
    (env.writePtr p new).modeStack = env.modeStack := by
  unfold Enviroment.writePtr
  repeat (first | rfl | split)

theorem Enviroment.writePtr_scopeStack_length (env : Enviroment) (p : ValuePtr) (new : Value) :
    (env.writePtr p new).scopeStack.length = env.scopeStack.length := by
  unfold Enviroment.writePtr
  repeat (first | rfl | split | simp only [List.length_set])

theorem Enviroment.readPtr_ne_none_root (env : Enviroment) (p : ValuePtr) (v : Value)
    (h : env.readPtr p = some v) (hv : v ≠ Value.none) : p.root ≠ ValueRoot.staticNone := by
  intro hroot
  unfold Enviroment.readPtr at h
  rw [hroot] at h
  simp only [] at h
  cases hp : p.path with
  | nil =>
    rw [hp] at h
    simp only [Option.some.injEq] at h
    exact hv h.symm
  | cons a l =>
    rw [hp] at h
    simp at h

theorem Enviroment.popMode_ok (env : Enviroment) (h : env.popMode.thrown = none) :
    env.popMode.state.modeStack = env.modeStack.dropLast ∧
    env.popMode.state.modeStack.length + 1 = env.modeStack.length ∧
    env.popMode.state.scopeStack = env.scopeStack ∧
    env.popMode.state.externObj = env.externObj := by
  unfold Enviroment.popMode at h ⊢
  cases hm : env.modeStack with
  | nil => simp [hm] at h
  | cons m ms => simp [hm]

theorem Enviroment.popMode_err (env : Enviroment) (e : Exception)
    (h : env.popMode.thrown = some e) : env.popMode.state = env := by
  unfold Enviroment.popMode at h ⊢
  cases hm : env.modeStack with
  | nil => rfl
  | cons m ms => simp [hm] at h

theorem Enviroment.scopeValuePtr_of_ownValue (env : Enviroment) (i : Nat) (s : Scope)
    (v : Value) (hs : env.scopeStack[i]? = some s) (hv : s.ownValue = some v) :
    env.scopeValuePtr i = some ⟨ValueRoot.scope i, []⟩ ∧
    env.readPtr ⟨ValueRoot.scope i, []⟩ = some v := by
  have hi : i < env.scopeStack.length := by
    by_contra hcon
    rw [List.getElem?_eq_none (Nat.le_of_not_lt hcon)] at hs
    exact Option.noConfusion hs
  constructor
  · unfold Enviroment.scopeValuePtr
    obtain ⟨n, hn⟩ : ∃ n, env.scopeStack.length = n + 1 := ⟨env.scopeStack.length - 1, by omega⟩
    rw [hn]
    cases s <;> simp [Scope.ownValue] at hv <;> simp [Enviroment.scopeValuePtrAux, hs]
  · simp [Enviroment.readPtr, hs, hv, Value.atPath]

/-! ### The default attach stage -/

theorem IScope.attach_eq_attachDefault (ext : External) (nestName : List String)
    (value : Value) (env : Enviroment) (t : Scope) (hcur : env.currentScope = some t)
    (h1 : t.type ≠ ScopeType.DefineFunction) (h2 : t.type ≠ ScopeType.Branch)
    (h3 : t.type ≠ ScopeType.CallFunctionArguments) :
    IScope.attach ext nestName value env = IScope.attachDefault ext nestName value env := by
  unfold IScope.attach
  rw [hcur]
  cases t with
  | defineFunction s => exact absurd rfl h1
  | branch s => exact absurd rfl h2
  | callFunctionArguments s => exact absurd rfl h3
  | normal s => rfl
  | reference s => rfl
  | boolean s => rfl
  | dummy => rfl
  | callFunction s => rfl
  | callFunctionReturnValues s => rfl

theorem IScope.close_eq_attachDefault (ext : External) (nestName : List String)
    (value value1 : Value) (env env1 : Enviroment) (t : Scope)
    (hpost : IScope.postprocess ext nestName value env = ⟨none, (value1, env1)⟩)
    (hcur : env1.currentScope = some t)
    (h1 : t.type ≠ ScopeType.DefineFunction) (h2 : t.type ≠ ScopeType.Branch)
    (h3 : t.type ≠ ScopeType.CallFunctionArguments) :
    IScope.close ext nestName value env = IScope.attachDefault ext nestName value1 env1 := by
  unfold IScope.close
  rw [hpost]
  exact IScope.attach_eq_attachDefault ext nestName value1 env1 t hcur h1 h2 h3

theorem IScope.attachDefault_array (ext : External) (nestName : List String)
    (value : Value) (env : Enviroment) (ptr : ValuePtr) (a : List Value) (last : String)
    (hptr : (IScope.parentValue ext nestName env).1 = some ptr)
    (hread : (IScope.parentValue ext nestName env).2.readPtr ptr = some (Value.array a))
    (hlast : nestName.getLast? = some last) :
    IScope.attachDefault ext nestName value env
      = if last = "" then
          ⟨none, (IScope.parentValue ext nestName env).2.writePtr ptr (Value.array (a ++ [value]))⟩
        else if ((Value.array a).addMember last value).1 then
          ⟨none, (IScope.parentValue ext nestName env).2.writePtr ptr
            ((Value.array a).addMember last value).2⟩
        else ⟨some Exception.SyntaxException, (IScope.parentValue ext nestName env).2⟩ := by
  unfold IScope.attachDefault
  simp only [hptr, hread, hlast, Value.pushValue]

/-- C11: array attach in the default attach stage of `IScope::close`. Suppose the first block
of `close` returned normally, the scope on top of the stack is not a `DefineFunction`, `Branch`
or `CallFunctionArguments` scope, and the attachment target `*pParentValue` is an `Array`
holding `a`. When the trailing segment of the nest name is empty, `close` returns normally and
the target holds `a` with the value of the closing scope appended at the end. When the trailing
segment is a non-empty name that is not an index below the size of the array, `close` throws
`SyntaxException` and the target still holds `a`. -/
theorem IScope.close_array_attach (ext : External) (nestName : List String)
    (value value1 : Value) (env env1 : Enviroment) (t : Scope) (ptr : ValuePtr)
    (a : List Value) (last : String)
    (hpost : IScope.postprocess ext nestName value env = ⟨none, (value1, env1)⟩)
    (hcur : env1.currentScope = some t)
    (h1 : t.type ≠ ScopeType.DefineFunction) (h2 : t.type ≠ ScopeType.Branch)
    (h3 : t.type ≠ ScopeType.CallFunctionArguments)
    (hptr : (IScope.parentValue ext nestName env1).1 = some ptr)
    (hread : (IScope.parentValue ext nestName env1).2.readPtr ptr = some (Value.array a))
    (hlast : nestName.getLast? = some last) :
    (last = "" →
      (IScope.close ext nestName value env).thrown = none ∧
      (IScope.close ext nestName value env).state.readPtr ptr
        = some (Value.array (a ++ [value1]))) ∧
    (last ≠ "" → (∀ i, parseIndex last = some i → a.length ≤ i) →
      (IScope.close ext nestName value env).thrown = some Exception.SyntaxException ∧
      (IScope.close ext nestName value env).state.readPtr ptr = some (Value.array a)) := by
  rw [IScope.close_eq_attachDefault ext nestName value value1 env env1 t hpost hcur h1 h2 h3,
    IScope.attachDefault_array ext nestName value1 env1 ptr a last hptr hread hlast]
  constructor
  · intro hempty
    rw [if_pos hempty]
    refine ⟨rfl, ?_⟩
    exact Enviroment.readPtr_writePtr _ ptr _ _ hread
      (Enviroment.readPtr_ne_none_root _ ptr _ hread (by simp))
  · intro hne hrange
    rw [if_neg hne]
    have hfail : ((Value.array a).addMember last value1).1 = false := by
      unfold Value.addMember
      cases hp : parseIndex last with
      | none => rfl
      | some i =>
        have hi : ¬ i < a.length := Nat.not_lt.mpr (hrange i hp)
        simp [hi]
    rw [hfail]
    exact ⟨rfl, hread⟩

/-- Witness of C11: a scope with the empty trailing name closing on a scope holding `[1, 2]`
turns it into `[1, 2, 3]`; closing under the name `5` throws `SyntaxException`. -/
theorem IScope.close_array_attach_witness :
    (IScope.close External.trivial [""] (Value.number 3)
        ⟨[], [Scope.normal ⟨["arr"], Value.array [Value.number 1, Value.number 2]⟩],
          Value.none⟩).state.readPtr ⟨ValueRoot.scope 0, []⟩
      = some (Value.array ([Value.number 1, Value.number 2] ++ [Value.number 3])) ∧
    (IScope.close External.trivial ["5"] (Value.number 3)
        ⟨[], [Scope.normal ⟨["arr"], Value.array [Value.number 1, Value.number 2]⟩],
          Value.none⟩).thrown = some Exception.SyntaxException :=
  ⟨((IScope.close_array_attach External.trivial [""] (Value.number 3) (Value.number 3)
      ⟨[], [Scope.normal ⟨["arr"], Value.array [Value.number 1, Value.number 2]⟩], Value.none⟩
      ⟨[], [Scope.normal ⟨["arr"], Value.array [Value.number 1, Value.number 2]⟩], Value.none⟩
      (Scope.normal ⟨["arr"], Value.array [Value.number 1, Value.number 2]⟩)
      ⟨ValueRoot.scope 0, []⟩ [Value.number 1, Value.number 2] ""
      rfl rfl (by decide) (by decide) (by decide) rfl rfl rfl).1 rfl).2,
   ((IScope.close_array_attach External.trivial ["5"] (Value.number 3) (Value.number 3)
      ⟨[], [Scope.normal ⟨["arr"], Value.array [Value.number 1, Value.number 2]⟩], Value.none⟩
      ⟨[], [Scope.normal ⟨["arr"], Value.array [Value.number 1, Value.number 2]⟩], Value.none⟩
      (Scope.normal ⟨["arr"], Value.array [Value.number 1, Value.number 2]⟩)
      ⟨ValueRoot.scope 0, []⟩ [Value.number 1, Value.number 2] "5"
      rfl rfl (by decide) (by decide) (by decide) rfl rfl rfl).2 (by decide)
      (fun i hi => by
        have h5 : i = 5 := by
          have : parseIndex "5" = some 5 := by decide
          rw [this] at hi
          exact (Option.some.inj hi).symm
        subst h5
        decide)).1⟩

/-- C12 (refutation as stated): a scope closing on a scope that holds a `Bool` makes
`IScope::close` throw `SyntaxException`, not `FatalException`. -/
theorem IScope.close_no_children_not_fatal :
    (IScope.close External.trivial ["y"] (Value.number 1)
        ⟨[], [Scope.normal ⟨["x"], Value.bool true⟩], Value.none⟩).thrown
      = some Exception.SyntaxException ∧
    (IScope.close External.trivial ["y"] (Value.number 1)
        ⟨[], [Scope.normal ⟨["x"], Value.bool true⟩], Value.none⟩).thrown
      ≠ some Exception.FatalException := by
  constructor
  · rfl
  · decide

/-- C12 (amended): in the default attach stage of `IScope::close`, when the first block
returned normally, the scope on top of the stack is not a `DefineFunction`, `Branch` or
`CallFunctionArguments` scope and the variant of the attachment target is none of `Object`,
`ObjectDefined`, `Array`, `MemberDefined`, `close` throws `SyntaxException` (`The current value
can not have children.`); nothing is written: the environment is the one the resolution of the
target left, and the target holds the value it held. -/
theorem IScope.close_no_children (ext : External) (nestName : List String)
    (value value1 : Value) (env env1 : Enviroment) (t : Scope) (ptr : ValuePtr)
    (target : Value)
    (hpost : IScope.postprocess ext nestName value env = ⟨none, (value1, env1)⟩)
    (hcur : env1.currentScope = some t)
    (h1 : t.type ≠ ScopeType.DefineFunction) (h2 : t.type ≠ ScopeType.Branch)
    (h3 : t.type ≠ ScopeType.CallFunctionArguments)
    (hptr : (IScope.parentValue ext nestName env1).1 = some ptr)
    (hread : (IScope.parentValue ext nestName env1).2.readPtr ptr = some target)
    (hobj : target.type ≠ ValueType.Object) (hdef : target.type ≠ ValueType.ObjectDefined)
    (harr : target.type ≠ ValueType.Array) (hmem : target.type ≠ ValueType.MemberDefined) :
    (IScope.close ext nestName value env).thrown = some Exception.SyntaxException ∧
    (IScope.close ext nestName value env).state = (IScope.parentValue ext nestName env1).2 ∧
    (IScope.close ext nestName value env).state.readPtr ptr = some target := by
  rw [IScope.close_eq_attachDefault ext nestName value value1 env env1 t hpost hcur h1 h2 h3]
  have hout : IScope.attachDefault ext nestName value1 env1
      = ⟨some Exception.SyntaxException, (IScope.parentValue ext nestName env1).2⟩ := by
    unfold IScope.attachDefault
    simp only [hptr, hread]
    cases target with
    | object o => exact absurd rfl hobj
    | objectDefined d => exact absurd rfl hdef
    | array a => exact absurd rfl harr
    | memberDefined m => exact absurd rfl hmem
    | none => rfl
    | bool b => rfl
    | string s => rfl
    | number n => rfl
    | reference r => rfl
    | function f => rfl
    | argument a => rfl
  rw [hout]
  exact ⟨rfl, rfl, hread⟩

/-- Witness of C12 (amended): a scope closing on a scope that holds a `String`. -/
theorem IScope.close_no_children_witness :
    (IScope.close External.trivial ["y"] (Value.number 1)
        ⟨[ParseMode.other 1], [Scope.normal ⟨["x"], Value.string "s"⟩], Value.none⟩).thrown
      = some Exception.SyntaxException ∧
    (IScope.close External.trivial ["y"] (Value.number 1)
        ⟨[ParseMode.other 1], [Scope.normal ⟨["x"], Value.string "s"⟩], Value.none⟩).state.readPtr
        ⟨ValueRoot.scope 0, []⟩ = some (Value.string "s") :=
  ⟨(IScope.close_no_children External.trivial ["y"] (Value.number 1) (Value.number 1)
      ⟨[ParseMode.other 1], [Scope.normal ⟨["x"], Value.string "s"⟩], Value.none⟩
      ⟨[ParseMode.other 1], [Scope.normal ⟨["x"], Value.string "s"⟩], Value.none⟩
      (Scope.normal ⟨["x"], Value.string "s"⟩) ⟨ValueRoot.scope 0, []⟩ (Value.string "s")
      rfl rfl (by decide) (by decide) (by decide) rfl rfl
      (by decide) (by decide) (by decide) (by decide)).1,
   (IScope.close_no_children External.trivial ["y"] (Value.number 1) (Value.number 1)
      ⟨[ParseMode.other 1], [Scope.normal ⟨["x"], Value.string "s"⟩], Value.none⟩
      ⟨[ParseMode.other 1], [Scope.normal ⟨["x"], Value.string "s"⟩], Value.none⟩
      (Scope.normal ⟨["x"], Value.string "s"⟩) ⟨ValueRoot.scope 0, []⟩ (Value.string "s")
      rfl rfl (by decide) (by decide) (by decide) rfl rfl
      (by decide) (by decide) (by decide) (by decide)).2.2⟩

/-! ### Mode-stack entries popped by `close` -/

theorem IScope.attachDefault_frame (ext : External) (nestName : List String) (value : Value)
    (env : Enviroment) :
    (IScope.attachDefault ext nestName value env).state.modeStack = env.modeStack ∧
    (IScope.attachDefault ext nestName value env).state.scopeStack.length
      = env.scopeStack.length := by
  have hm : (IScope.parentValue ext nestName env).2.modeStack = env.modeStack := by
    unfold IScope.parentValue
    split
    · exact ext.searchValue_modeStack env nestName true
    · rfl
  have hs : (IScope.parentValue ext nestName env).2.scopeStack.length
      = env.scopeStack.length := by
    unfold IScope.parentValue
    split
    · exact ext.searchValue_scopeStack_length env nestName true
    · rfl
  have hw : ∀ v ptr,
      ((IScope.parentValue ext nestName env).2.writePtr ptr v).modeStack = env.modeStack ∧
      ((IScope.parentValue ext nestName env).2.writePtr ptr v).scopeStack.length
        = env.scopeStack.length := by
    intro v ptr
    rw [Enviroment.writePtr_modeStack, Enviroment.writePtr_scopeStack_length]
    exact ⟨hm, hs⟩
  unfold IScope.attachDefault
  cases hptr : (IScope.parentValue ext nestName env).1 with
  | none => exact ⟨hm, hs⟩
  | some ptr =>
    simp only []
    cases hread : (IScope.parentValue ext nestName env).2.readPtr ptr with
    | none => exact ⟨hm, hs⟩
    | some parent =>
      cases parent with
      | object o =>
        simp only []
        cases hl : nestName.getLast? with
        | none => exact ⟨hm, hs⟩
        | some last =>
          simp only []
          split
          · exact hw _ _
          · exact ⟨hm, hs⟩
      | objectDefined d =>
        simp only []
        cases hl : nestName.getLast? with
        | none => exact ⟨hm, hs⟩
        | some last =>
          simp only []
          split
          · exact hw _ _
          · exact ⟨hm, hs⟩
      | array a =>
        simp only []
        cases hl : nestName.getLast? with
        | none => exact ⟨hm, hs⟩
        | some last =>
          simp only [Value.pushValue]
          split
          · exact hw _ _
          · split
            · exact hw _ _
            · exact ⟨hm, hs⟩
      | memberDefined m => exact hw _ _
      | none => exact ⟨hm, hs⟩
      | bool b => exact ⟨hm, hs⟩
      | string s => exact ⟨hm, hs⟩
      | number n => exact ⟨hm, hs⟩
      | reference r => exact ⟨hm, hs⟩
      | function f => exact ⟨hm, hs⟩
      | argument a => exact ⟨hm, hs⟩

theorem Enviroment.resetDefineFunctionMode_length (env : Enviroment) :
    env.resetDefineFunctionMode.modeStack.length = env.modeStack.length := by
  unfold Enviroment.resetDefineFunctionMode
  cases hm : env.currentMode with
  | none => rfl
  | some m =>
    cases m with
    | other tag => rfl
    | defineFunction k =>
      unfold Enviroment.currentMode at hm
      have hne : env.modeStack ≠ [] := by
        intro hnil
        rw [hnil] at hm
        simp at hm
      have hpos : 0 < env.modeStack.length := List.length_pos.mpr hne
      simp only [List.length_append, List.length_dropLast, List.length_singleton]
      omega

theorem DefineFunctionScope.close_modeStack_length (d : DefineFunctionScope)
    (env : Enviroment) : (d.close env).state.modeStack.length = env.modeStack.length := by
  unfold DefineFunctionScope.close
  cases hptr : env.scopeValuePtr d.mParentScope with
  | none => rfl
  | some ptr =>
    simp only []
    cases hread : env.readPtr ptr with
    | none => rfl
    | some parent =>
      cases parent with
      | function f =>
        simp only []
        cases hthrown : (d.assemble f).thrown with
        | some e =>
          simp only []
          rw [Enviroment.writePtr_modeStack]
        | none =>
          simp only []
          rw [Enviroment.resetDefineFunctionMode_length, Enviroment.writePtr_modeStack]
      | none => rfl
      | bool b => rfl
      | string s => rfl
      | number n => rfl
      | array a => rfl
      | object o => rfl
      | objectDefined o => rfl
      | memberDefined m => rfl
      | reference r => rfl
      | argument a => rfl

/-! ### Function definition assembly -/

theorem DefineFunctionScope.foldl_addElememnt (d : DefineFunctionScope) (es : List Value) :
    (es.foldl DefineFunctionScope.addElememnt d).mElements = d.mElements ++ es ∧
    (es.foldl DefineFunctionScope.addElememnt d).mOp = d.mOp ∧
    (es.foldl DefineFunctionScope.addElememnt d).mParentScope = d.mParentScope := by
  induction es generalizing d with
  | nil => simp
  | cons e es ih =>
    obtain ⟨h1, h2, h3⟩ := ih (d.addElememnt e)
    simp only [List.foldl_cons]
    rw [h1, h2, h3]
    simp [DefineFunctionScope.addElememnt]

theorem DefineFunctionScope.setValueToCurrentElement_toPass (d : DefineFunctionScope)
    (front : List Value) (a : Argument) (v : Value)
    (hop : d.mOp = DefineFunctionOperator.ToPass)
    (hel : d.mElements = front ++ [Value.argument a]) :
    d.setValueToCurrentElement v
      = ⟨none, { d with mElements := front ++ [Value.argument (Argument.mk a.name v)] }⟩ := by
  unfold DefineFunctionScope.setValueToCurrentElement
  rw [hel, hop]
  simp [Value.getArgument]

theorem DefineFunctionScope.passElements_arguments (args : List Argument) (f : Function) :
    DefineFunctionScope.passElements (args.map Value.argument) f
      = ⟨none, Function.mk (f.arguments ++ args) f.captures f.contents⟩ := by
  induction args generalizing f with
  | nil =>
    obtain ⟨x, y, z⟩ := f
    simp [DefineFunctionScope.passElements, Function.arguments, Function.captures,
      Function.contents]
  | cons a args ih =>
    simp only [List.map_cons, DefineFunctionScope.passElements, Value.getArgument]
    rw [ih]
    simp [Function.arguments, Function.captures, Function.contents]

theorem Enviroment.readPtr_resetDefineFunctionMode (env : Enviroment) (p : ValuePtr) :
    env.resetDefineFunctionMode.readPtr p = env.readPtr p := by
  unfold Enviroment.resetDefineFunctionMode
  cases env.currentMode with
  | none => rfl
  | some m => cases m <;> rfl

theorem DefineFunctionScope.close_function (d : DefineFunctionScope) (env : Enviroment)
    (ptr : ValuePtr) (f : Function)
    (hptr : env.scopeValuePtr d.mParentScope = some ptr)
    (hread : env.readPtr ptr = some (Value.function f))
    (hok : (d.assemble f).thrown = none) :
    (d.close env).thrown = none ∧
    (d.close env).state.readPtr ptr = some (Value.function (d.assemble f).state) := by
  have hclose : d.close env
      = ⟨none, (env.writePtr ptr
          (Value.function (d.assemble f).state)).resetDefineFunctionMode⟩ := by
    unfold DefineFunctionScope.close
    simp only [hptr, hread, hok]
  rw [hclose]
  refine ⟨rfl, ?_⟩
  rw [Enviroment.readPtr_resetDefineFunctionMode]
  exact Enviroment.readPtr_writePtr env ptr _ _ hread
    (Enviroment.readPtr_ne_none_root env ptr _ hread (by simp))

/-- C15: `DefineFunctionScope` in `ToPass` mode. For every non-empty sequence of parameter
elements `pre ++ [a]` added with `addElememnt`, `setValueToCurrentElement(v)` returns normally
and changes only the default value of the element added last: the buffer becomes `pre` followed
by `a` with default `v`. With two buffered parameters `a1`, `a2` of which the second received
`setValueToCurrentElement(v)`, `close` on a parent holding a `Function` with an empty argument
list returns normally and leaves an argument list of length 2, in insertion order: `a1` as it
was, then `a2` with default `v`; captures and body are unchanged. -/
theorem DefineFunctionScope.toPass_sets_last_default (parentScope : Nat)
    (pre : List Argument) (a a1 a2 : Argument) (v : Value) (env : Enviroment) (ptr : ValuePtr)
    (captures : List Value) (contents : String)
    (hptr : env.scopeValuePtr parentScope = some ptr)
    (hread : env.readPtr ptr = some (Value.function (Function.mk [] captures contents))) :
    ((((pre ++ [a]).map Value.argument).foldl DefineFunctionScope.addElememnt
        (DefineFunctionScope.new parentScope DefineFunctionOperator.ToPass)
      ).setValueToCurrentElement v).thrown = none ∧
    ((((pre ++ [a]).map Value.argument).foldl DefineFunctionScope.addElememnt
        (DefineFunctionScope.new parentScope DefineFunctionOperator.ToPass)
      ).setValueToCurrentElement v).state.mElements
      = pre.map Value.argument ++ [Value.argument (Argument.mk a.name v)] ∧
    (((((DefineFunctionScope.new parentScope DefineFunctionOperator.ToPass).addElememnt
        (Value.argument a1)).addElememnt (Value.argument a2)).setValueToCurrentElement
        v).state.close env).thrown = none ∧
    (((((DefineFunctionScope.new parentScope DefineFunctionOperator.ToPass).addElememnt
        (Value.argument a1)).addElememnt (Value.argument a2)).setValueToCurrentElement
        v).state.close env).state.readPtr ptr
      = some (Value.function (Function.mk [a1, Argument.mk a2.name v] captures contents)) ∧
    [a1, Argument.mk a2.name v].length = 2 ∧
    (Argument.mk a2.name v).defaultValue = v := by
  obtain ⟨hel, hop, _⟩ := DefineFunctionScope.foldl_addElememnt
    (DefineFunctionScope.new parentScope DefineFunctionOperator.ToPass)
    ((pre ++ [a]).map Value.argument)
  have hel2 : (((pre ++ [a]).map Value.argument).foldl DefineFunctionScope.addElememnt
      (DefineFunctionScope.new parentScope DefineFunctionOperator.ToPass)).mElements
      = pre.map Value.argument ++ [Value.argument a] := by
    rw [hel]
    simp [DefineFunctionScope.new]
  have hset := DefineFunctionScope.setValueToCurrentElement_toPass _ _ a v hop hel2
  have hstate : (((DefineFunctionScope.new parentScope DefineFunctionOperator.ToPass).addElememnt
      (Value.argument a1)).addElememnt (Value.argument a2)).setValueToCurrentElement v
      = ⟨none, ⟨parentScope, DefineFunctionOperator.ToPass,
          [Value.argument a1, Value.argument (Argument.mk a2.name v)]⟩⟩ := by
    rw [DefineFunctionScope.setValueToCurrentElement_toPass _ [Value.argument a1] a2 v rfl rfl]
    rfl
  have hasm : (DefineFunctionScope.assemble
      ⟨parentScope, DefineFunctionOperator.ToPass,
        [Value.argument a1, Value.argument (Argument.mk a2.name v)]⟩
      (Function.mk [] captures contents))
      = ⟨none, Function.mk [a1, Argument.mk a2.name v] captures contents⟩ := by
    have := DefineFunctionScope.passElements_arguments [a1, Argument.mk a2.name v]
      (Function.mk [] captures contents)
    simpa [DefineFunctionScope.assemble, Function.arguments, Function.captures,
      Function.contents] using this
  have hclose := DefineFunctionScope.close_function
    ⟨parentScope, DefineFunctionOperator.ToPass,
      [Value.argument a1, Value.argument (Argument.mk a2.name v)]⟩ env ptr
    (Function.mk [] captures contents) hptr hread (by rw [hasm])
  rw [hasm] at hclose
  rw [hset, hstate]
  exact ⟨rfl, rfl, hclose.1, hclose.2, rfl, rfl⟩

/-- Witness of C15: two parameters `x` and `y` without defaults, the second of which receives
the default `7`, assembled into an empty function. -/
theorem DefineFunctionScope.toPass_sets_last_default_witness :
    (((((DefineFunctionScope.new 0 DefineFunctionOperator.ToPass).addElememnt
        (Value.argument (Argument.mk "x" Value.none))).addElememnt
        (Value.argument (Argument.mk "y" Value.none))).setValueToCurrentElement
        (Value.number 7)).state.close
        ⟨[ParseMode.defineFunction 1],
          [Scope.normal ⟨["f"], Value.function (Function.mk [] [] "")⟩],
          Value.none⟩).state.readPtr ⟨ValueRoot.scope 0, []⟩
      = some (Value.function
          (Function.mk [Argument.mk "x" Value.none, Argument.mk "y" (Value.number 7)] [] "")) :=
  (DefineFunctionScope.toPass_sets_last_default 0 [] (Argument.mk "x" Value.none)
    (Argument.mk "x" Value.none) (Argument.mk "y" Value.none) (Value.number 7)
    ⟨[ParseMode.defineFunction 1],
      [Scope.normal ⟨["f"], Value.function (Function.mk [] [] "")⟩], Value.none⟩
    ⟨ValueRoot.scope 0, []⟩ [] "" rfl rfl).2.2.2.1

theorem DefineFunctionScope.contentLength_strings (ss : List String) (n : Nat) :
    ∃ k, DefineFunctionScope.contentLength (ss.map Value.string) n = Except.ok k := by
  induction ss generalizing n with
  | nil => exact ⟨n, rfl⟩
  | cons s ss ih =>
    simp only [List.map_cons, DefineFunctionScope.contentLength, Value.getString]
    exact ih _

theorem DefineFunctionScope.appendContents_strings (ss : List String) (acc : String) :
    DefineFunctionScope.appendContents (ss.map Value.string) acc
      = ⟨none, ss.foldl (fun r s => r ++ s ++ "\n") acc⟩ := by
  induction ss generalizing acc with
  | nil => rfl
  | cons s ss ih =>
    simp only [List.map_cons, DefineFunctionScope.appendContents, Value.getString,
      List.foldl_cons]
    exact ih _

theorem String.foldl_newline_eq_join (ss : List String) :
    ss.foldl (fun r s => r ++ s ++ "\n") "" = String.join (ss.map (fun s => s ++ "\n")) := by
  unfold String.join
  rw [List.foldl_map]
  congr 1
  funext r s
  exact String.append_assoc r s "\n"

/-- C16: `DefineFunctionScope` in `WithContents` mode. For every list of buffered strings
`s1..sn` (also the empty list) and every function held by the parent scope, whatever its prior
body text, `close` returns normally and the body text of the function becomes
`s1 + "\n" + ... + sn + "\n"` (the empty string when there is no string), in insertion
order, replacing the prior body; the argument list and the capture list are unchanged. -/
theorem DefineFunctionScope.withContents_body (parentScope : Nat) (ss : List String)
    (env : Enviroment) (ptr : ValuePtr) (f : Function)
    (hptr : env.scopeValuePtr parentScope = some ptr)
    (hread : env.readPtr ptr = some (Value.function f)) :
    (((ss.map Value.string).foldl DefineFunctionScope.addElememnt
        (DefineFunctionScope.new parentScope DefineFunctionOperator.WithContents)).close
        env).thrown = none ∧
    (((ss.map Value.string).foldl DefineFunctionScope.addElememnt
        (DefineFunctionScope.new parentScope DefineFunctionOperator.WithContents)).close
        env).state.readPtr ptr
      = some (Value.function (Function.mk f.arguments f.captures
          (String.join (ss.map (fun s => s ++ "\n"))))) := by
  obtain ⟨hel, hop, hpar⟩ := DefineFunctionScope.foldl_addElememnt
    (DefineFunctionScope.new parentScope DefineFunctionOperator.WithContents)
    (ss.map Value.string)
  have hel2 : ((ss.map Value.string).foldl DefineFunctionScope.addElememnt
      (DefineFunctionScope.new parentScope DefineFunctionOperator.WithContents)).mElements
      = ss.map Value.string := by
    rw [hel]
    simp [DefineFunctionScope.new]
  generalize (ss.map Value.string).foldl DefineFunctionScope.addElememnt
      (DefineFunctionScope.new parentScope DefineFunctionOperator.WithContents) = d
    at hel2 hop hpar
  have hop2 : d.mOp = DefineFunctionOperator.WithContents := hop
  have hpar2 : d.mParentScope = parentScope := hpar
  have hasm : d.assemble f
      = ⟨none, Function.mk f.arguments f.captures
          (String.join (ss.map (fun s => s ++ "\n")))⟩ := by
    obtain ⟨k, hk⟩ := DefineFunctionScope.contentLength_strings ss 0
    unfold DefineFunctionScope.assemble
    rw [hop2, hel2]
    simp only [hk, DefineFunctionScope.appendContents_strings, String.foldl_newline_eq_join]
  have hclose := DefineFunctionScope.close_function d env ptr f (by rw [hpar2]; exact hptr)
    hread (by rw [hasm])
  rw [hasm] at hclose
  exact hclose

/-- Witness of C16: two body lines replace the prior body `old`. -/
theorem DefineFunctionScope.withContents_body_witness :
    ((([Value.string "a", Value.string "b"]).foldl DefineFunctionScope.addElememnt
        (DefineFunctionScope.new 0 DefineFunctionOperator.WithContents)).close
        ⟨[ParseMode.defineFunction 1],
          [Scope.normal ⟨["f"], Value.function (Function.mk [] [] "old")⟩],
          Value.none⟩).state.readPtr ⟨ValueRoot.scope 0, []⟩
      = some (Value.function (Function.mk [] [] "a\nb\n")) :=
  (DefineFunctionScope.withContents_body 0 ["a", "b"]
    ⟨[ParseMode.defineFunction 1],
      [Scope.normal ⟨["f"], Value.function (Function.mk [] [] "old")⟩], Value.none⟩
    ⟨ValueRoot.scope 0, []⟩ (Function.mk [] [] "old") rfl rfl).2

theorem CallFunctionArgumentsScope.foldl_pushArgument (a : CallFunctionArgumentsScope)
    (vs : List Value) :
    (vs.foldl CallFunctionArgumentsScope.pushArgument a).mArguments = a.mArguments ++ vs := by
  induction vs generalizing a with
  | nil => simp
  | cons v vs ih =>
    simp only [List.foldl_cons]
    rw [ih]
    simp [CallFunctionArgumentsScope.pushArgument]

theorem CallFunctionReturnValueScope.foldl_pushReturnValueName
    (r : CallFunctionReturnValueScope) (paths : List (List String)) :
    (paths.foldl CallFunctionReturnValueScope.pushReturnValueName r).mReturnValues
      = r.mReturnValues ++ paths := by
  induction paths generalizing r with
  | nil => simp
  | cons p paths ih =>
    simp only [List.foldl_cons]
    rw [ih]
    simp [CallFunctionReturnValueScope.pushReturnValueName]

/-- C19: call-binding transfer. Let `t` be the scope on top of the scope stack, and let the
closing `CallFunctionArgumentsScope` (resp. `CallFunctionReturnValueScope`) hold the values
`vs` pushed with `pushArgument` (resp. the paths pushed with `pushReturnValueName`) in push
order. `close` returns normally if and only if `t` is of kind `CallFunction`. If `t` is the
`CallFunction` scope `c`, the environment afterwards differs only in that scope, whose argument
list (resp. return-binding path list) is exactly `vs` (resp. `paths`), replacing the earlier
list. If `t` is of any other kind, `close` throws `FatalException` and the environment is
unchanged. -/
theorem CallFunctionArgumentsScope.close_transfers (parentScope expected parentScope2 : Nat)
    (vs : List Value) (paths : List (List String)) (env : Enviroment) (t : Scope)
    (hcur : env.currentScope = some t) :
    (((vs.foldl CallFunctionArgumentsScope.pushArgument
        (CallFunctionArgumentsScope.new parentScope expected)).close env).thrown = none
      ↔ t.type = ScopeType.CallFunction) ∧
    (((paths.foldl CallFunctionReturnValueScope.pushReturnValueName
        (CallFunctionReturnValueScope.new parentScope2)).close env).thrown = none
      ↔ t.type = ScopeType.CallFunction) ∧
    (∀ c : CallFunctionScope, t = Scope.callFunction c →
      (vs.foldl CallFunctionArgumentsScope.pushArgument
          (CallFunctionArgumentsScope.new parentScope expected)).close env
        = ⟨none, env.setCurrentScope (Scope.callFunction { c with mArguments := vs })⟩ ∧
      (paths.foldl CallFunctionReturnValueScope.pushReturnValueName
          (CallFunctionReturnValueScope.new parentScope2)).close env
        = ⟨none, env.setCurrentScope (Scope.callFunction { c with mReturnValues := paths })⟩) ∧
    (t.type ≠ ScopeType.CallFunction →
      (vs.foldl CallFunctionArgumentsScope.pushArgument
          (CallFunctionArgumentsScope.new parentScope expected)).close env
        = ⟨some Exception.FatalException, env⟩ ∧
      (paths.foldl CallFunctionReturnValueScope.pushReturnValueName
          (CallFunctionReturnValueScope.new parentScope2)).close env
        = ⟨some Exception.FatalException, env⟩) := by
  have hvs : (vs.foldl CallFunctionArgumentsScope.pushArgument
      (CallFunctionArgumentsScope.new parentScope expected)).moveArguments = vs := by
    unfold CallFunctionArgumentsScope.moveArguments
    rw [CallFunctionArgumentsScope.foldl_pushArgument]
    simp [CallFunctionArgumentsScope.new]
  have hpaths : (paths.foldl CallFunctionReturnValueScope.pushReturnValueName
      (CallFunctionReturnValueScope.new parentScope2)).moveReturnValueNames = paths := by
    unfold CallFunctionReturnValueScope.moveReturnValueNames
    rw [CallFunctionReturnValueScope.foldl_pushReturnValueName]
    simp [CallFunctionReturnValueScope.new]
  unfold CallFunctionArgumentsScope.close CallFunctionReturnValueScope.close
  rw [hcur, hvs, hpaths]
  cases t with
  | callFunction c =>
    refine ⟨⟨fun _ => rfl, fun _ => rfl⟩, ⟨fun _ => rfl, fun _ => rfl⟩, ?_, ?_⟩
    · intro c2 hc
      cases hc
      exact ⟨rfl, rfl⟩
    · intro hne
      exact absurd rfl hne
  | normal s =>
    exact ⟨by simp [Scope.type], by simp [Scope.type], fun c hc => Scope.noConfusion hc,
      fun _ => ⟨rfl, rfl⟩⟩
  | reference s =>
    exact ⟨by simp [Scope.type], by simp [Scope.type], fun c hc => Scope.noConfusion hc,
      fun _ => ⟨rfl, rfl⟩⟩
  | boolean s =>
    exact ⟨by simp [Scope.type], by simp [Scope.type], fun c hc => Scope.noConfusion hc,
      fun _ => ⟨rfl, rfl⟩⟩
  | branch s =>
    exact ⟨by simp [Scope.type], by simp [Scope.type], fun c hc => Scope.noConfusion hc,
      fun _ => ⟨rfl, rfl⟩⟩
  | dummy =>
    exact ⟨by simp [Scope.type], by simp [Scope.type], fun c hc => Scope.noConfusion hc,
      fun _ => ⟨rfl, rfl⟩⟩
  | defineFunction s =>
    exact ⟨by simp [Scope.type], by simp [Scope.type], fun c hc => Scope.noConfusion hc,
      fun _ => ⟨rfl, rfl⟩⟩
  | callFunctionArguments s =>
    exact ⟨by simp [Scope.type], by simp [Scope.type], fun c hc => Scope.noConfusion hc,
      fun _ => ⟨rfl, rfl⟩⟩
  | callFunctionReturnValues s =>
    exact ⟨by simp [Scope.type], by simp [Scope.type], fun c hc => Scope.noConfusion hc,
      fun _ => ⟨rfl, rfl⟩⟩

/-- Witness of C19: two pushed arguments replace the one argument a `CallFunction` scope
held. -/
theorem CallFunctionArgumentsScope.close_transfers_witness :
    (([Value.number 1, Value.number 2].foldl CallFunctionArgumentsScope.pushArgument
        (CallFunctionArgumentsScope.new 1 2)).close
        ⟨[ParseMode.other 1],
          [Scope.normal ⟨["g"], Value.none⟩,
            Scope.callFunction ⟨0, Function.mk [] [] "", [Value.bool true], []⟩],
          Value.none⟩)
      = ⟨none,
          Enviroment.setCurrentScope
            ⟨[ParseMode.other 1],
              [Scope.normal ⟨["g"], Value.none⟩,
                Scope.callFunction ⟨0, Function.mk [] [] "", [Value.bool true], []⟩],
              Value.none⟩
            (Scope.callFunction
              ⟨0, Function.mk [] [] "", [Value.number 1, Value.number 2], []⟩)⟩ :=
  ((CallFunctionArgumentsScope.close_transfers 1 2 1 [Value.number 1, Value.number 2] [["r"]]
    ⟨[ParseMode.other 1],
      [Scope.normal ⟨["g"], Value.none⟩,
        Scope.callFunction ⟨0, Function.mk [] [] "", [Value.bool true], []⟩],
      Value.none⟩
    (Scope.callFunction ⟨0, Function.mk [] [] "", [Value.bool true], []⟩) rfl).2.2.1
    ⟨0, Function.mk [] [] "", [Value.bool true], []⟩ rfl).1

/-- C20 (code at the failing input): the target of a return binding is chosen by the nest
name of the scope, not by the path of the binding. (1) A `CallFunctionScope` whose parent scope
is named `obj` (one segment) and holds an empty object binds the two-segment path `a.b`:
whatever the resolver is, it is not consulted; the placeholder `returnValue1` is written under
`b` into the value of the parent scope, `externObj` is untouched, and one mode is popped.
(2) A `CallFunctionScope` whose parent scope is named `x.obj` (two segments) binds the
one-segment path `r`: the placeholder is written into the value the resolver returns for
`x.obj` (here `externObj`), and the value of the parent scope stays empty. -/
theorem CallFunctionScope.close_target_ignores_binding_path (ext : External) :
    (CallFunctionScope.close ext ⟨0, Function.mk [] [] "", [], [["a", "b"]]⟩
        ⟨[ParseMode.other 1], [Scope.normal ⟨["obj"], Value.object (Object.mk [] none)⟩],
          Value.object (Object.mk [] none)⟩)
      = ⟨none,
          ⟨[], [Scope.normal ⟨["obj"],
              Value.object (Object.mk [("b", Value.string "returnValue1")] none)⟩],
            Value.object (Object.mk [] none)⟩⟩ ∧
    (CallFunctionScope.close External.trivial ⟨0, Function.mk [] [] "", [], [["r"]]⟩
        ⟨[ParseMode.other 1],
          [Scope.normal ⟨["x", "obj"], Value.object (Object.mk [] none)⟩],
          Value.object (Object.mk [] none)⟩)
      = ⟨none,
          ⟨[], [Scope.normal ⟨["x", "obj"], Value.object (Object.mk [] none)⟩],
            Value.object (Object.mk [("r", Value.string "returnValue1")] none)⟩⟩ :=
  ⟨rfl, rfl⟩

theorem CallFunctionScope.bindReturnValues_modeStack (ext : External)
    (self : CallFunctionScope) (paths : List (List String)) (index : Nat)
    (env : Enviroment) :
    (CallFunctionScope.bindReturnValues ext self paths index env).state.modeStack
      = env.modeStack := by
  induction paths generalizing index env with
  | nil => rfl
  | cons p paths ih =>
    unfold CallFunctionScope.bindReturnValues
    cases hname : env.scopeNestName self.mParentScope with
    | none => rfl
    | some scopeNestName =>
      simp only []
      have hm : (if 2 ≤ scopeNestName.length then ext.searchValue env scopeNestName true
          else (env.scopeValuePtr self.mParentScope, env)).2.modeStack = env.modeStack := by
        split
        · exact ext.searchValue_modeStack env scopeNestName true
        · rfl
      generalize (if 2 ≤ scopeNestName.length then ext.searchValue env scopeNestName true
          else (env.scopeValuePtr self.mParentScope, env)) = target at hm
      cases htarget : target.1 with
      | none => exact hm
      | some ptr =>
        simp only []
        cases hread : target.2.readPtr ptr with
        | none => exact hm
        | some parent =>
          simp only []
          cases hlast : p.getLast? with
          | none => exact hm
          | some last =>
            simp only []
            split
            · rw [ih, Enviroment.writePtr_modeStack]
              exact hm
            · exact hm

/-- Every `CallFunctionScope::close` that returns normally removes exactly the top entry of
the mode stack. -/
theorem CallFunctionScope.close_pops_one (ext : External) (self : CallFunctionScope)
    (env : Enviroment) (h : (self.close ext env).thrown = none) :
    (self.close ext env).state.modeStack = env.modeStack.dropLast := by
  unfold CallFunctionScope.close at h ⊢
  cases hb : (CallFunctionScope.bindReturnValues ext self self.mReturnValues 0 env).thrown with
  | some e => simp [hb] at h
  | none =>
    simp only [hb] at h ⊢
    rw [(Enviroment.popMode_ok _ h).1, CallFunctionScope.bindReturnValues_modeStack]

/-! ### Backfilling schema defaults -/

theorem UnorderedMap.find_foldl_insert (es : List (String × MemberDefined))
    (m : List (String × Value)) (key : String) :
    UnorderedMap.find
        (es.foldl (fun m e => UnorderedMap.insert m e.1 e.2.defaultValue) m) key
      = (UnorderedMap.find m key).or
          ((UnorderedMap.find es key).map MemberDefined.defaultValue) := by
  induction es generalizing m with
  | nil =>
    simp only [List.foldl_nil]
    cases hf : UnorderedMap.find m key <;> rfl
  | cons e es ih =>
    obtain ⟨k, md⟩ := e
    simp only [List.foldl_cons]
    rw [ih]
    by_cases hk : key = k
    · subst hk
      rw [UnorderedMap.find_insert_self]
      have hfind : UnorderedMap.find ((key, md) :: es) key = some md := by
        simp [UnorderedMap.find, List.lookup]
      rw [hfind]
      cases hf : UnorderedMap.find m key <;> rfl
    · rw [UnorderedMap.find_insert_of_ne m k key _ hk]
      have hb : (key == k) = false := by simpa using hk
      have hfind : UnorderedMap.find ((k, md) :: es) key = UnorderedMap.find es key := by
        simp [UnorderedMap.find, List.lookup, hb]
      rw [hfind]

theorem UnorderedMap.foldl_insert_of_present (es : List (String × MemberDefined))
    (m : List (String × Value))
    (h : ∀ e ∈ es, (UnorderedMap.find m e.1).isSome = true) :
    es.foldl (fun m e => UnorderedMap.insert m e.1 e.2.defaultValue) m = m := by
  induction es with
  | nil => rfl
  | cons e es ih =>
    have he := h e (List.mem_cons_self e es)
    have hins : UnorderedMap.insert m e.1 e.2.defaultValue = m := by
      unfold UnorderedMap.insert
      unfold UnorderedMap.find at he
      cases hl : List.lookup e.1 m with
      | none => rw [hl] at he; exact Bool.noConfusion he
      | some v => rfl
    simp only [List.foldl_cons]
    rw [hins]
    exact ih (fun x hx => h x (List.mem_cons_of_mem e hx))

theorem UnorderedMap.wf_foldl_insert (es : List (String × MemberDefined))
    (m : List (String × Value)) (hwf : UnorderedMap.WF m) :
    UnorderedMap.WF (es.foldl (fun m e => UnorderedMap.insert m e.1 e.2.defaultValue) m) := by
  induction es generalizing m with
  | nil => exact hwf
  | cons e es ih => exact ih _ (UnorderedMap.wf_insert hwf e.1 e.2.defaultValue)

theorem UnorderedMap.find_isSome_of_mem_keys {α : Type} (m : List (String × α)) (key : String)
    (h : key ∈ m.map Prod.fst) : ∃ v, UnorderedMap.find m key = some v := by
  cases hf : UnorderedMap.find m key with
  | none => exact absurd h ((UnorderedMap.find_eq_none_iff m key).mp hf)
  | some v => exact ⟨v, rfl⟩

theorem UnorderedMap.mem_keys_of_find {α : Type} (m : List (String × α)) (key : String)
    (v : α) (h : UnorderedMap.find m key = some v) : key ∈ m.map Prod.fst := by
  by_contra hcon
  rw [(UnorderedMap.find_eq_none_iff m key).mpr hcon] at h
  exact Option.noConfusion h

/-- C21: postcondition of `applyObjectDefined`. With no schema linked it returns false and
changes nothing. For every `Object` linked to a schema `d`, after `applyObjectDefined`: every
key of the member map of the schema is a key of the members of the object; every member that
was present before keeps its value; every schema key that was absent holds the `defaultValue`
of the schema member; members not named by the schema are unchanged (present with the same
value, or absent, as before); the link to the schema is kept, unique keys stay unique, and
applying it a second time changes nothing. -/
theorem Object.applyObjectDefined_postcondition (o : Object) :
    (o.pDefined = none → o.applyObjectDefined = (false, o)) ∧
    (∀ d : ObjectDefined, o.pDefined = some d →
      o.applyObjectDefined.1 = true ∧
      o.applyObjectDefined.2.pDefined = some d ∧
      (∀ name, name ∈ d.members.map Prod.fst →
        name ∈ o.applyObjectDefined.2.members.map Prod.fst) ∧
      (∀ name v, UnorderedMap.find o.members name = some v →
        UnorderedMap.find o.applyObjectDefined.2.members name = some v) ∧
      (∀ name md, UnorderedMap.find o.members name = none →
        UnorderedMap.find d.members name = some md →
        UnorderedMap.find o.applyObjectDefined.2.members name = some md.defaultValue) ∧
      (∀ name, name ∉ d.members.map Prod.fst →
        UnorderedMap.find o.applyObjectDefined.2.members name
          = UnorderedMap.find o.members name) ∧
      (UnorderedMap.WF o.members → UnorderedMap.WF o.applyObjectDefined.2.members) ∧
      o.applyObjectDefined.2.applyObjectDefined = (true, o.applyObjectDefined.2)) := by
  obtain ⟨members, pDefined⟩ := o
  constructor
  · intro hnone
    unfold Object.applyObjectDefined
    rw [hnone]
  · intro d hd
    have hp : pDefined = some d := hd
    subst hp
    generalize ho : Object.mk members (some d) = o at hd ⊢
    have hmem : o.members = members := by rw [← ho]; rfl
    have happly : o.applyObjectDefined
        = (true, Object.mk
            (d.members.foldl (fun m e => UnorderedMap.insert m e.1 e.2.defaultValue)
              o.members) (some d)) := by
      unfold Object.applyObjectDefined
      rw [hd]
    have hfind := UnorderedMap.find_foldl_insert d.members members
    rw [happly, hmem]
    have hm2 : ∀ (ms : List (String × Value)) (p : Option ObjectDefined),
        (Object.mk ms p).members = ms := fun _ _ => rfl
    have hp2 : ∀ (ms : List (String × Value)) (p : Option ObjectDefined),
        (Object.mk ms p).pDefined = p := fun _ _ => rfl
    simp only [hm2, hp2]
    refine ⟨trivial, trivial, ?_, ?_, ?_, ?_, ?_, ?_⟩
    · intro name hname
      obtain ⟨md, hmd⟩ := UnorderedMap.find_isSome_of_mem_keys d.members name hname
      have h := hfind name
      rw [hmd] at h
      cases hf : UnorderedMap.find members name with
      | none =>
        rw [hf] at h
        exact UnorderedMap.mem_keys_of_find _ name _ h
      | some v =>
        rw [hf] at h
        exact UnorderedMap.mem_keys_of_find _ name _ h
    · intro name v hv
      rw [hfind name, hv]
      rfl
    · intro name md hnone hmd
      rw [hfind name, hnone, hmd]
      rfl
    · intro name hname
      rw [hfind name, (UnorderedMap.find_eq_none_iff d.members name).mpr hname]
      cases hf : UnorderedMap.find members name <;> rfl
    · intro hwf
      exact UnorderedMap.wf_foldl_insert d.members members hwf
    · unfold Object.applyObjectDefined
      simp only [hm2, hp2]
      rw [UnorderedMap.foldl_insert_of_present]
      intro e he
      have hkey : e.1 ∈ d.members.map Prod.fst := List.mem_map_of_mem Prod.fst he
      obtain ⟨md, hmd⟩ := UnorderedMap.find_isSome_of_mem_keys d.members e.1 hkey
      rw [hfind e.1, hmd]
      cases hf : UnorderedMap.find members e.1 <;> rfl

/-- Witness of C21: the schema `Point` with members `x : Number = 0` and `y : Number = 0`, and
an instance with the explicit member `x = 3`, give the members `x = 3`, `y = 0`. -/
theorem Object.applyObjectDefined_postcondition_witness :
    (Object.mk [("x", Value.number 3)]
        (some (ObjectDefined.mk "Point"
          [("x", MemberDefined.mk ValueType.Number (Value.number 0)),
            ("y", MemberDefined.mk ValueType.Number (Value.number 0))]))).applyObjectDefined.2.members
      = [("x", Value.number 3), ("y", Value.number 0)] ∧
    (Object.mk [("x", Value.number 3)]
        (some (ObjectDefined.mk "Point"
          [("x", MemberDefined.mk ValueType.Number (Value.number 0)),
            ("y", MemberDefined.mk ValueType.Number (Value.number 0))]))
      ).applyObjectDefined.2.applyObjectDefined
      = (true, (Object.mk [("x", Value.number 3)]
        (some (ObjectDefined.mk "Point"
          [("x", MemberDefined.mk ValueType.Number (Value.number 0)),
            ("y", MemberDefined.mk ValueType.Number (Value.number 0))]))).applyObjectDefined.2) :=
  ⟨rfl,
   ((Object.applyObjectDefined_postcondition
      (Object.mk [("x", Value.number 3)]
        (some (ObjectDefined.mk "Point"
          [("x", MemberDefined.mk ValueType.Number (Value.number 0)),
            ("y", MemberDefined.mk ValueType.Number (Value.number 0))])))).2
      (ObjectDefined.mk "Point"
        [("x", MemberDefined.mk ValueType.Number (Value.number 0)),
          ("y", MemberDefined.mk ValueType.Number (Value.number 0))]) rfl).2.2.2.2.2.2.2⟩

/-! ### Skip flag and operator on reachable states -/

/-- C22 (code at the failing input): on a freshly constructed `BooleanScope` and on a freshly
constructed `BranchScope`, `tally(true)` followed by `setLogicOperator(And)` returns normally
and sets the skip flag (`doEvalValue()` is false) although the operator is `And` and no false
operand was tallied (`falseCount = 0`): the combined result is not determined, a later false
operand would make the conjunction false. -/
theorem setLogicOperator_and_skip_without_false :
    (((BooleanScope.new [] false).tally true).setLogicOperator LogicOperator.And).thrown
        = none ∧
    (((BooleanScope.new [] false).tally true).setLogicOperator LogicOperator.And
        ).state.doEvalValue = false ∧
    (((BooleanScope.new [] false).tally true).setLogicOperator LogicOperator.And
        ).state.mLogicOp = LogicOperator.And ∧
    (((BooleanScope.new [] false).tally true).setLogicOperator LogicOperator.And
        ).state.mFalseCount = 0 ∧
    (((BranchScope.new 0 none false).tally true).setLogicOperator LogicOperator.And).thrown
        = none ∧
    (((BranchScope.new 0 none false).tally true).setLogicOperator LogicOperator.And
        ).state.doEvalValue = false ∧
    (((BranchScope.new 0 none false).tally true).setLogicOperator LogicOperator.And
        ).state.mLogicOp = LogicOperator.And ∧
    (((BranchScope.new 0 none false).tally true).setLogicOperator LogicOperator.And
        ).state.mFalseCount = 0 :=
  ⟨rfl, rfl, rfl, rfl, rfl, rfl, rfl, rfl⟩

theorem BooleanScope.skipAfterOperand_call {s : BooleanScope} (h : s.SkipAfterOperand)
    (c : BooleanCall) : (s.call c).SkipAfterOperand := by
  unfold BooleanScope.SkipAfterOperand at h ⊢
  cases c with
  | tally b =>
    simp only [BooleanScope.call, BooleanScope.tally]
    cases b
    · simp only [Bool.false_eq_true, if_false]
      split
      · rename_i hop
        intro _
        exact Or.inl ⟨hop.symm, Or.inl (Nat.le_add_left 1 _)⟩
      · intro hskip
        rcases h hskip with ⟨hop, hc⟩ | ⟨hop, hc⟩
        · exact Or.inl ⟨hop, by
            rcases hc with hc | hc
            · exact Or.inl (Nat.le_succ_of_le hc)
            · exact Or.inr hc⟩
        · exact Or.inr ⟨hop, hc⟩
    · simp only [if_true]
      split
      · rename_i hop
        intro _
        exact Or.inr ⟨hop.symm, Nat.le_add_left 1 _⟩
      · intro hskip
        rcases h hskip with ⟨hop, hc⟩ | ⟨hop, hc⟩
        · exact Or.inl ⟨hop, by
            rcases hc with hc | hc
            · exact Or.inl hc
            · exact Or.inr (Nat.le_succ_of_le hc)⟩
        · exact Or.inr ⟨hop, Nat.le_succ_of_le hc⟩
  | setLogicOperator op =>
    simp only [BooleanScope.call, BooleanScope.setLogicOperator]
    cases op
    · simpa using h
    · simpa using h
    · simp only [reduceCtorEq, if_false]
      split
      · exact h
      · rename_i hmix
        simp only [ne_eq, not_and, not_not] at hmix
        split_ifs with h1 h2 h2
        · intro _; exact Or.inl ⟨rfl, Or.inl h1⟩
        · intro _; exact Or.inl ⟨rfl, Or.inl h1⟩
        · intro _; exact Or.inl ⟨rfl, Or.inr h2⟩
        · intro hskip
          rcases h hskip with ⟨_, hc⟩ | ⟨_, hc⟩
          · exact Or.inl ⟨rfl, hc⟩
          · exact Or.inl ⟨rfl, Or.inr hc⟩
    · simp only [reduceCtorEq, if_false]
      split
      · exact h
      · rename_i hmix
        simp only [ne_eq, not_and, not_not] at hmix
        split_ifs with h1
        · intro _; exact Or.inr ⟨rfl, h1⟩
        · intro hskip
          rcases h hskip with ⟨hop, hc⟩ | ⟨hop, hc⟩
          · have := hmix (Or.inl hop)
            rw [hop] at this
            exact absurd this (by decide)
          · exact Or.inr ⟨rfl, hc⟩

/-- What the code guarantees of a set skip flag: in every state reached from construction by
`tally` and `setLogicOperator` calls, a set skip flag implies that the operator is `And` and
some operand was tallied, or that the operator is `Or` and a true operand was tallied. -/
theorem BooleanScope.skipAfterOperand_calls (nestName : List String) (isDenial : Bool)
    (cs : List BooleanCall) :
    ((BooleanScope.new nestName isDenial).calls cs).SkipAfterOperand := by
  have hgen : ∀ (s : BooleanScope), s.SkipAfterOperand → (s.calls cs).SkipAfterOperand := by
    induction cs with
    | nil => intro s hs; exact hs
    | cons c cs ih =>
      intro s hs
      exact ih (s.call c) (BooleanScope.skipAfterOperand_call hs c)
  apply hgen
  intro hskip
  simp [BooleanScope.new] at hskip

/-- C23: the boolean and the branch evaluator are the same state machine. Mapping a
`BranchScope` to the `BooleanScope` with the same operator, `trueCount`, `falseCount`, skip
flag and `isDenial` (and any nest name and value), `tally(b)` and `setLogicOperator(op)`
commute with the mapping for every `b` and every `op`: the resulting states correspond and the
same exception, if any, is thrown; `doEvalValue()` agrees; and while the running count of
executed arms is 0, `doCurrentStatements()` equals `result()` of the mapped state, throwing
`BooleanException` in exactly the same states. -/
theorem BranchScope.same_state_machine (t : BranchScope) (nestName : List String)
    (value : Value) (b : Bool) (op : LogicOperator) :
    (t.tally b).toBooleanScope nestName value = (t.toBooleanScope nestName value).tally b ∧
    (t.setLogicOperator op).thrown
      = ((t.toBooleanScope nestName value).setLogicOperator op).thrown ∧
    (t.setLogicOperator op).state.toBooleanScope nestName value
      = ((t.toBooleanScope nestName value).setLogicOperator op).state ∧
    t.doEvalValue = (t.toBooleanScope nestName value).doEvalValue ∧
    (t.mRunningCountOfTrueStatement = 0 →
      t.doCurrentStatements = (t.toBooleanScope nestName value).result) := by
  refine ⟨?_, ?_, ?_, rfl, ?_⟩
  · unfold BranchScope.tally BooleanScope.tally BranchScope.toBooleanScope
    cases b
    · simp only [Bool.false_eq_true, if_false]
      split <;> rfl
    · simp only [if_true]
      split <;> rfl
  · unfold BranchScope.setLogicOperator BooleanScope.setLogicOperator
      BranchScope.toBooleanScope
    cases op
    · rfl
    · rfl
    · simp only [reduceCtorEq, if_false]
      split
      · rfl
      · rfl
    · simp only [reduceCtorEq, if_false]
      split
      · rfl
      · rfl
  · unfold BranchScope.setLogicOperator BooleanScope.setLogicOperator
      BranchScope.toBooleanScope
    cases op
    · rfl
    · rfl
    · simp only [reduceCtorEq, if_false]
      split
      · rfl
      · simp only []
        split_ifs <;> rfl
    · simp only [reduceCtorEq, if_false]
      split
      · rfl
      · simp only []
        split_ifs <;> rfl
  · intro hcount
    exact BranchScope.doCurrentStatements_eq_result t (t.toBooleanScope nestName value)
      hcount rfl rfl rfl rfl

/-- Witness of C23: a branch with `And` set and one false operand tallied, before any arm
ran, decides as the corresponding `BooleanScope` does. -/
theorem BranchScope.same_state_machine_witness :
    (((BranchScope.new 0 none false).setLogicOperator LogicOperator.And).state.tally
        false).doCurrentStatements
      = ((((BranchScope.new 0 none false).setLogicOperator LogicOperator.And).state.tally
          false).toBooleanScope ["c"] (Value.bool false)).result ∧
    (((BranchScope.new 0 none false).setLogicOperator LogicOperator.And).state.tally
        false).doCurrentStatements = Except.ok false :=
  ⟨(BranchScope.same_state_machine
      (((BranchScope.new 0 none false).setLogicOperator LogicOperator.And).state.tally false)
      ["c"] (Value.bool false) true LogicOperator.Or).2.2.2.2 rfl,
   rfl⟩

/-! ### Closing a boolean scope -/

theorem BooleanScope.result_ok (s : BooleanScope) (hop : s.mLogicOp ≠ LogicOperator.Unknown) :
    ∃ r, s.result = Except.ok r := by
  unfold BooleanScope.result
  cases h : s.mLogicOp with
  | Unknown => exact absurd h hop
  | Continue => exact ⟨_, rfl⟩
  | And => exact ⟨_, rfl⟩
  | Or => exact ⟨_, rfl⟩

theorem BooleanScope.close_eq_attach (ext : External) (s : BooleanScope) (env : Enviroment)
    (r : Bool) (hres : s.result = Except.ok r) (hpop : env.popMode.thrown = none) :
    BooleanScope.close ext s env
      = IScope.attach ext s.mNestName (Value.bool r) env.popMode.state := by
  unfold BooleanScope.close
  rw [hres]
  simp only [hpop]
  rfl

theorem BooleanScope.close_popMode_ok (ext : External) (s : BooleanScope) (env : Enviroment)
    (r : Bool) (hres : s.result = Except.ok r)
    (hok : (BooleanScope.close ext s env).thrown = none) : env.popMode.thrown = none := by
  unfold BooleanScope.close at hok
  rw [hres] at hok
  cases hpop : env.popMode.thrown with
  | none => rfl
  | some e => simp [hpop] at hok

/-- C24 (refutation as stated): a `Branch` scope already holds the local variable `b` with
value `Bool(false)`; a `BooleanScope` named `b` whose `result()` is true closes on it normally,
yet the local variable `b` of the branch is still `Bool(false)`, not `Bool(true)`. -/
theorem BooleanScope.close_branch_keeps_existing_variable :
    (BooleanScope.new ["b"] false).result = Except.ok true ∧
    (BooleanScope.close External.trivial (BooleanScope.new ["b"] false)
        ⟨[ParseMode.other 1, ParseMode.other 2],
          [Scope.normal ⟨["g"], Value.none⟩,
            Scope.branch ((BranchScope.new 0 none false).addLocalVariable "b"
              (Value.bool false))],
          Value.none⟩).thrown = none ∧
    (BooleanScope.close External.trivial (BooleanScope.new ["b"] false)
        ⟨[ParseMode.other 1, ParseMode.other 2],
          [Scope.normal ⟨["g"], Value.none⟩,
            Scope.branch ((BranchScope.new 0 none false).addLocalVariable "b"
              (Value.bool false))],
          Value.none⟩).state.currentScope
      = some (Scope.branch ((BranchScope.new 0 none false).addLocalVariable "b"
          (Value.bool false))) ∧
    ((BranchScope.new 0 none false).addLocalVariable "b" (Value.bool false)).searchVariable "b"
      = some (Value.bool false) ∧
    ((BranchScope.new 0 none false).addLocalVariable "b" (Value.bool false)).searchVariable "b"
      ≠ some (Value.bool true) := by
  refine ⟨rfl, rfl, rfl, rfl, ?_⟩
  intro h
  have hb : false = true := Value.bool.inj (Option.some.inj h)
  exact Bool.noConfusion hb

/-- C24 (amended): `BooleanScope::close` delivers the computed boolean. For every
`BooleanScope` with a valid operator `result()` returns some `r`; `close` pops one mode-stack
entry and then runs `IScope::close` with the value `Bool(r)`, whose first block does nothing
for a `Bool`. Under a `Branch` parent a `close` that returns normally calls
`addLocalVariable(last, Bool(r))` on the branch, `last` being the last segment of the nest
name, and removes the top two entries of the mode stack; the local variable `last` of the
branch is then `Bool(r)` if the branch held no variable of that name, and the value it held
otherwise. Under a default-attach parent (not `DefineFunction`, `Branch`,
`CallFunctionArguments`) a `close` that returns normally removes exactly the top entry of the
mode stack. -/
theorem BooleanScope.close_delivers_result (ext : External) (s : BooleanScope)
    (env : Enviroment) (r : Bool) (hres : s.result = Except.ok r) :
    (s.mLogicOp ≠ LogicOperator.Unknown → ∃ r0, s.result = Except.ok r0) ∧
    (env.popMode.thrown = none →
      BooleanScope.close ext s env
        = IScope.close ext s.mNestName (Value.bool r) env.popMode.state) ∧
    IScope.postprocess ext s.mNestName (Value.bool r) env.popMode.state
      = ⟨none, (Value.bool r, env.popMode.state)⟩ ∧
    (∀ (b : BranchScope) (last : String),
      env.currentScope = some (Scope.branch b) → s.mNestName.getLast? = some last →
      (BooleanScope.close ext s env).thrown = none →
      (BooleanScope.close ext s env).state.currentScope
        = some (Scope.branch (b.addLocalVariable last (Value.bool r))) ∧
      (BooleanScope.close ext s env).state.modeStack = env.modeStack.dropLast.dropLast ∧
      (BooleanScope.close ext s env).state.modeStack.length + 2 = env.modeStack.length ∧
      (b.searchVariable last = none →
        (b.addLocalVariable last (Value.bool r)).searchVariable last = some (Value.bool r)) ∧
      (∀ v, b.searchVariable last = some v →
        (b.addLocalVariable last (Value.bool r)).searchVariable last = some v)) ∧
    (∀ t : Scope, env.currentScope = some t → t.type ≠ ScopeType.DefineFunction →
      t.type ≠ ScopeType.Branch → t.type ≠ ScopeType.CallFunctionArguments →
      (BooleanScope.close ext s env).thrown = none →
      (BooleanScope.close ext s env).state.modeStack = env.modeStack.dropLast ∧
      (BooleanScope.close ext s env).state.modeStack.length + 1 = env.modeStack.length) := by
  refine ⟨fun hop => BooleanScope.result_ok s hop, ?_, rfl, ?_, ?_⟩
  · intro hpop
    rw [BooleanScope.close_eq_attach ext s env r hres hpop]
    rfl
  · intro b last hcur hlast hok
    have hpop := BooleanScope.close_popMode_ok ext s env r hres hok
    obtain ⟨hm1, hl1, hs1, _⟩ := Enviroment.popMode_ok env hpop
    have hcur1 : env.popMode.state.currentScope = some (Scope.branch b) := by
      unfold Enviroment.currentScope
      rw [hs1]
      exact hcur
    have hattach : IScope.attach ext s.mNestName (Value.bool r) env.popMode.state
        = (env.popMode.state.setCurrentScope
            (Scope.branch (b.addLocalVariable last (Value.bool r)))).popMode := by
      unfold IScope.attach
      simp only [hcur1, hlast]
    rw [BooleanScope.close_eq_attach ext s env r hres hpop, hattach] at hok ⊢
    obtain ⟨hm2, hl2, hs2, _⟩ := Enviroment.popMode_ok _ hok
    have hfind : (b.addLocalVariable last (Value.bool r)).searchVariable last
        = some ((b.searchVariable last).getD (Value.bool r)) := by
      rw [BranchScope.searchVariable_eq_find, BranchScope.searchVariable_eq_find]
      exact UnorderedMap.find_insert_self _ last _
    refine ⟨?_, ?_, ?_, ?_, ?_⟩
    · unfold Enviroment.currentScope
      rw [hs2]
      simp [Enviroment.setCurrentScope]
    · rw [hm2]
      show env.popMode.state.modeStack.dropLast = env.modeStack.dropLast.dropLast
      rw [hm1]
    · have hl3 : (env.popMode.state.setCurrentScope
          (Scope.branch (b.addLocalVariable last (Value.bool r)))).modeStack.length
          = env.popMode.state.modeStack.length := rfl
      omega
    · intro hnone
      rw [hfind, hnone]
      rfl
    · intro v hv
      rw [hfind, hv]
      rfl
  · intro t hcur h1 h2 h3 hok
    have hpop := BooleanScope.close_popMode_ok ext s env r hres hok
    obtain ⟨hm1, hl1, hs1, _⟩ := Enviroment.popMode_ok env hpop
    have hcur1 : env.popMode.state.currentScope = some t := by
      unfold Enviroment.currentScope
      rw [hs1]
      exact hcur
    rw [BooleanScope.close_eq_attach ext s env r hres hpop,
      IScope.attach_eq_attachDefault ext _ _ _ t hcur1 h1 h2 h3,
      (IScope.attachDefault_frame ext s.mNestName (Value.bool r) env.popMode.state).1]
    exact ⟨hm1, hl1⟩

/-- Witness of C24 (amended): a `BooleanScope` named `c` with result true closes on a fresh
`Branch` scope above two modes; the branch then holds `c = Bool(true)` and no mode is left. -/
theorem BooleanScope.close_delivers_result_witness :
    (BooleanScope.close External.trivial (BooleanScope.new ["c"] false)
        ⟨[ParseMode.other 1, ParseMode.other 2],
          [Scope.normal ⟨["g"], Value.none⟩, Scope.branch (BranchScope.new 0 none false)],
          Value.none⟩).state.currentScope
      = some (Scope.branch ((BranchScope.new 0 none false).addLocalVariable "c"
          (Value.bool true))) ∧
    (BooleanScope.close External.trivial (BooleanScope.new ["c"] false)
        ⟨[ParseMode.other 1, ParseMode.other 2],
          [Scope.normal ⟨["g"], Value.none⟩, Scope.branch (BranchScope.new 0 none false)],
          Value.none⟩).state.modeStack
      = ([ParseMode.other 1, ParseMode.other 2] : List ParseMode).dropLast.dropLast ∧
    ((BranchScope.new 0 none false).addLocalVariable "c" (Value.bool true)).searchVariable "c"
      = some (Value.bool true) :=
  have h := (BooleanScope.close_delivers_result External.trivial (BooleanScope.new ["c"] false)
    ⟨[ParseMode.other 1, ParseMode.other 2],
      [Scope.normal ⟨["g"], Value.none⟩, Scope.branch (BranchScope.new 0 none false)],
      Value.none⟩ true rfl).2.2.2.1 (BranchScope.new 0 none false) "c" rfl rfl rfl
  ⟨h.1, h.2.1, h.2.2.2.1 rfl⟩

/-! ### The stored operator -/

theorem BooleanScope.setLogicOperator_mLogicOp_ne_unknown (s : BooleanScope)
    (op : LogicOperator) (h : s.mLogicOp ≠ LogicOperator.Unknown) :
    (s.setLogicOperator op).state.mLogicOp ≠ LogicOperator.Unknown := by
  unfold BooleanScope.setLogicOperator
  cases op
  · exact h
  · exact h
  · simp only [reduceCtorEq, if_false]
    split
    · exact h
    · simp only []
      split_ifs <;> simp
  · simp only [reduceCtorEq, if_false]
    split
    · exact h
    · simp only []
      split_ifs <;> simp

theorem BranchScope.branch_setLogicOperator_op_ne_unknown (s : BranchScope)
    (op : LogicOperator) (h : s.mLogicOp ≠ LogicOperator.Unknown) :
    (s.setLogicOperator op).state.mLogicOp ≠ LogicOperator.Unknown := by
  unfold BranchScope.setLogicOperator
  cases op
  · exact h
  · exact h
  · simp only [reduceCtorEq, if_false]
    split
    · exact h
    · simp only []
      split_ifs <;> simp
  · simp only [reduceCtorEq, if_false]
    split
    · exact h
    · simp only []
      split_ifs <;> simp

theorem BranchScope.branch_tally_op (s : BranchScope) (b : Bool) :
    (s.tally b).mLogicOp = s.mLogicOp := by
  unfold BranchScope.tally
  cases b <;> simp only [Bool.false_eq_true, if_true, if_false] <;> split <;> rfl

theorem BooleanScope.call_mLogicOp_ne_unknown (s : BooleanScope) (c : BooleanCall)
    (h : s.mLogicOp ≠ LogicOperator.Unknown) :
    (s.call c).mLogicOp ≠ LogicOperator.Unknown := by
  cases c with
  | tally b =>
    show (s.tally b).mLogicOp ≠ LogicOperator.Unknown
    rw [BooleanScope.tally_mLogicOp]
    exact h
  | setLogicOperator op => exact BooleanScope.setLogicOperator_mLogicOp_ne_unknown s op h

theorem BranchScope.branch_call_op_ne_unknown (s : BranchScope) (c : BranchCall)
    (h : s.mLogicOp ≠ LogicOperator.Unknown) :
    (s.call c).mLogicOp ≠ LogicOperator.Unknown := by
  cases c with
  | tally b =>
    show (s.tally b).mLogicOp ≠ LogicOperator.Unknown
    rw [BranchScope.branch_tally_op]
    exact h
  | setLogicOperator op => exact BranchScope.branch_setLogicOperator_op_ne_unknown s op h
  | resetBranchState =>
    show LogicOperator.Continue ≠ LogicOperator.Unknown
    decide
  | incrementRunningCount => exact h
  | addLocalVariable name value => exact h

theorem BranchScope.doCurrentStatements_ok (s : BranchScope)
    (hop : s.mLogicOp ≠ LogicOperator.Unknown) : ∃ r, s.doCurrentStatements = Except.ok r := by
  unfold BranchScope.doCurrentStatements
  split
  · exact ⟨_, rfl⟩
  · cases h : s.mLogicOp with
    | Unknown => exact absurd h hop
    | Continue => exact ⟨_, rfl⟩
    | And => exact ⟨_, rfl⟩
    | Or => exact ⟨_, rfl⟩

/-- C25: the unknown-operator branch is unreachable. In every `BooleanScope` state reached
from construction by any sequence of `tally` and `setLogicOperator` calls (returning normally
or throwing), and in every `BranchScope` state reached from construction by any sequence of
`tally`, `setLogicOperator`, `resetBranchState`, `incrementRunningCount` and
`addLocalVariable` calls, the stored operator is one of `Continue`, `And`, `Or`; hence
`result()` and `doCurrentStatements()` return a value and do not throw `BooleanException`. -/
theorem logicOperator_never_unknown (nestName : List String) (isDenial : Bool)
    (cs : List BooleanCall) (parentScope : Nat) (pSwitchTargetVariable : Option Value)
    (isDenial2 : Bool) (bs : List BranchCall) :
    (((BooleanScope.new nestName isDenial).calls cs).mLogicOp = LogicOperator.Continue ∨
      ((BooleanScope.new nestName isDenial).calls cs).mLogicOp = LogicOperator.And ∨
      ((BooleanScope.new nestName isDenial).calls cs).mLogicOp = LogicOperator.Or) ∧
    (∃ r, ((BooleanScope.new nestName isDenial).calls cs).result = Except.ok r) ∧
    ((BooleanScope.new nestName isDenial).calls cs).result
      ≠ Except.error Exception.BooleanException ∧
    (((BranchScope.new parentScope pSwitchTargetVariable isDenial2).calls bs).mLogicOp
        = LogicOperator.Continue ∨
      ((BranchScope.new parentScope pSwitchTargetVariable isDenial2).calls bs).mLogicOp
        = LogicOperator.And ∨
      ((BranchScope.new parentScope pSwitchTargetVariable isDenial2).calls bs).mLogicOp
        = LogicOperator.Or) ∧
    (∃ r, ((BranchScope.new parentScope pSwitchTargetVariable isDenial2).calls
        bs).doCurrentStatements = Except.ok r) ∧
    ((BranchScope.new parentScope pSwitchTargetVariable isDenial2).calls
        bs).doCurrentStatements ≠ Except.error Exception.BooleanException := by
  have hbool : ((BooleanScope.new nestName isDenial).calls cs).mLogicOp
      ≠ LogicOperator.Unknown := by
    have hgen : ∀ (s : BooleanScope), s.mLogicOp ≠ LogicOperator.Unknown →
        (s.calls cs).mLogicOp ≠ LogicOperator.Unknown := by
      induction cs with
      | nil => intro s hs; exact hs
      | cons c cs ih =>
        intro s hs
        exact ih (s.call c) (BooleanScope.call_mLogicOp_ne_unknown s c hs)
    exact hgen _ (by simp [BooleanScope.new])
  have hbranch : ((BranchScope.new parentScope pSwitchTargetVariable isDenial2).calls
      bs).mLogicOp ≠ LogicOperator.Unknown := by
    have hgen : ∀ (s : BranchScope), s.mLogicOp ≠ LogicOperator.Unknown →
        (s.calls bs).mLogicOp ≠ LogicOperator.Unknown := by
      induction bs with
      | nil => intro s hs; exact hs
      | cons c bs ih =>
        intro s hs
        exact ih (s.call c) (BranchScope.branch_call_op_ne_unknown s c hs)
    exact hgen _ (by simp [BranchScope.new])
  have hcases : ∀ op : LogicOperator, op ≠ LogicOperator.Unknown →
      op = LogicOperator.Continue ∨ op = LogicOperator.And ∨ op = LogicOperator.Or := by
    intro op hop
    cases op
    · exact absurd rfl hop
    · exact Or.inl rfl
    · exact Or.inr (Or.inl rfl)
    · exact Or.inr (Or.inr rfl)
  obtain ⟨r1, hr1⟩ := BooleanScope.result_ok _ hbool
  obtain ⟨r2, hr2⟩ := BranchScope.doCurrentStatements_ok _ hbranch
  refine ⟨hcases _ hbool, ⟨r1, hr1⟩, ?_, hcases _ hbranch, ⟨r2, hr2⟩, ?_⟩
  · rw [hr1]
    exact fun h => Except.noConfusion h
  · rw [hr2]
    exact fun h => Except.noConfusion h

/-- C26: `setLogicOperator` is atomic on failure. For every `BooleanScope`, every
`BranchScope` and every `op`: the only exceptions thrown are `std::invalid_argument` and
`SyntaxException`; if the call throws, the object (operator, `trueCount`, `falseCount`, skip
flag and every other member) is exactly what it was before the call; if the call returns
normally, `trueCount` and `falseCount` are unchanged and a set skip flag stays set. -/
theorem setLogicOperator_atomic (s : BooleanScope) (t : BranchScope) (op : LogicOperator) :
    ((s.setLogicOperator op).thrown = none ∨
      (s.setLogicOperator op).thrown = some Exception.invalid_argument ∨
      (s.setLogicOperator op).thrown = some Exception.SyntaxException) ∧
    ((s.setLogicOperator op).thrown ≠ none → (s.setLogicOperator op).state = s) ∧
    ((s.setLogicOperator op).thrown = none →
      (s.setLogicOperator op).state.mTrueCount = s.mTrueCount ∧
      (s.setLogicOperator op).state.mFalseCount = s.mFalseCount ∧
      (s.mDoSkip = true → (s.setLogicOperator op).state.mDoSkip = true)) ∧
    ((t.setLogicOperator op).thrown = none ∨
      (t.setLogicOperator op).thrown = some Exception.invalid_argument ∨
      (t.setLogicOperator op).thrown = some Exception.SyntaxException) ∧
    ((t.setLogicOperator op).thrown ≠ none → (t.setLogicOperator op).state = t) ∧
    ((t.setLogicOperator op).thrown = none →
      (t.setLogicOperator op).state.mTrueCount = t.mTrueCount ∧
      (t.setLogicOperator op).state.mFalseCount = t.mFalseCount ∧
      (t.mDoSkip = true → (t.setLogicOperator op).state.mDoSkip = true)) := by
  refine ⟨?_, ?_, ?_, ?_, ?_, ?_⟩
  · unfold BooleanScope.setLogicOperator
    cases op
    · exact Or.inr (Or.inl rfl)
    · exact Or.inl rfl
    · simp only [reduceCtorEq, if_false]
      split
      · exact Or.inr (Or.inr rfl)
      · exact Or.inl rfl
    · simp only [reduceCtorEq, if_false]
      split
      · exact Or.inr (Or.inr rfl)
      · exact Or.inl rfl
  · unfold BooleanScope.setLogicOperator
    cases op
    · intro _; rfl
    · intro _; rfl
    · simp only [reduceCtorEq, if_false]
      split
      · intro _; rfl
      · intro h; exact absurd rfl h
    · simp only [reduceCtorEq, if_false]
      split
      · intro _; rfl
      · intro h; exact absurd rfl h
  · unfold BooleanScope.setLogicOperator
    cases op
    · intro h; exact Option.noConfusion h
    · intro _; exact ⟨rfl, rfl, fun h => h⟩
    · simp only [reduceCtorEq, if_false]
      split
      · intro h; exact Option.noConfusion h
      · intro _
        simp only []
        split_ifs <;> exact ⟨rfl, rfl, fun h => by first | rfl | exact h⟩
    · simp only [reduceCtorEq, if_false]
      split
      · intro h; exact Option.noConfusion h
      · intro _
        simp only []
        split_ifs <;> exact ⟨rfl, rfl, fun h => by first | rfl | exact h⟩
  · unfold BranchScope.setLogicOperator
    cases op
    · exact Or.inr (Or.inl rfl)
    · exact Or.inl rfl
    · simp only [reduceCtorEq, if_false]
      split
      · exact Or.inr (Or.inr rfl)
      · exact Or.inl rfl
    · simp only [reduceCtorEq, if_false]
      split
      · exact Or.inr (Or.inr rfl)
      · exact Or.inl rfl
  · unfold BranchScope.setLogicOperator
    cases op
    · intro _; rfl
    · intro _; rfl
    · simp only [reduceCtorEq, if_false]
      split
      · intro _; rfl
      · intro h; exact absurd rfl h
    · simp only [reduceCtorEq, if_false]
      split
      · intro _; rfl
      · intro h; exact absurd rfl h
  · unfold BranchScope.setLogicOperator
    cases op
    · intro h; exact Option.noConfusion h
    · intro _; exact ⟨rfl, rfl, fun h => h⟩
    · simp only [reduceCtorEq, if_false]
      split
      · intro h; exact Option.noConfusion h
      · intro _
        simp only []
        split_ifs <;> exact ⟨rfl, rfl, fun h => by first | rfl | exact h⟩
    · simp only [reduceCtorEq, if_false]
      split
      · intro h; exact Option.noConfusion h
      · intro _
        simp only []
        split_ifs <;> exact ⟨rfl, rfl, fun h => by first | rfl | exact h⟩

/-- Witness of C26: an `And` scope with a false operand tallied (skip flag set) rejects `Or`
and is left as it was; an `Or` branch with a false operand tallied accepts `Or` again with
counts unchanged. -/
theorem setLogicOperator_atomic_witness :
    ((((BooleanScope.new [] false).setLogicOperator LogicOperator.And).state.tally
        false).setLogicOperator LogicOperator.Or).state
      = ((BooleanScope.new [] false).setLogicOperator LogicOperator.And).state.tally false ∧
    ((((BranchScope.new 0 none false).setLogicOperator LogicOperator.Or).state.tally
        false).setLogicOperator LogicOperator.Or).state.mFalseCount = 1 :=
  ⟨(setLogicOperator_atomic
      (((BooleanScope.new [] false).setLogicOperator LogicOperator.And).state.tally false)
      (((BranchScope.new 0 none false).setLogicOperator LogicOperator.Or).state.tally false)
      LogicOperator.Or).2.1 (by decide),
   ((setLogicOperator_atomic
      (((BooleanScope.new [] false).setLogicOperator LogicOperator.And).state.tally false)
      (((BranchScope.new 0 none false).setLogicOperator LogicOperator.Or).state.tally false)
      LogicOperator.Or).2.2.2.2.2 rfl).2.1⟩

/-! ### Mode-stack entries popped by the overriding `close` members -/

theorem Enviroment.popMode_of_ne_nil (env : Enviroment) (h : env.modeStack ≠ []) :
    env.popMode = ⟨none, { env with modeStack := env.modeStack.dropLast }⟩ := by
  unfold Enviroment.popMode
  cases hm : env.modeStack with
  | nil => exact absurd hm h
  | cons m ms => rfl

/-- C14: mode-pop count of the overriding scope kinds. A `Dummy` scope, a `Branch` scope and
a `Reference` scope constructed with the pop-at-closing flag close normally whenever the mode
stack is not empty, and the environment afterwards is the environment before with exactly the
top entry of the mode stack removed; a `Reference` scope constructed without the flag always
closes normally and leaves the environment as it is. So on every `close` of these three kinds
that returns normally the scope stack and `externObj`, hence every value, are unchanged. The
`close` of a `DefineFunction` scope leaves the depth of the mode stack unchanged, and returns
normally when the parent holds a function the buffer can be assembled into; the `close` of a
`CallFunctionArguments` scope and of a `CallFunctionReturnValues` scope leaves the mode stack
unchanged, and returns normally when the scope on top of the scope stack is a `CallFunction`
scope. -/
theorem Scope.close_override_pops (ext : External) (env : Enviroment) (b : BranchScope)
    (r : ReferenceScope) (d : DefineFunctionScope) (a : CallFunctionArgumentsScope)
    (v : CallFunctionReturnValueScope) :
    (env.modeStack ≠ [] →
      Scope.close ext Scope.dummy env
        = ⟨none, { env with modeStack := env.modeStack.dropLast }⟩) ∧
    ((Scope.close ext Scope.dummy env).thrown = none →
      (Scope.close ext Scope.dummy env).state.modeStack = env.modeStack.dropLast ∧
      (Scope.close ext Scope.dummy env).state.modeStack.length + 1 = env.modeStack.length ∧
      (Scope.close ext Scope.dummy env).state.scopeStack = env.scopeStack ∧
      (Scope.close ext Scope.dummy env).state.externObj = env.externObj) ∧
    (env.modeStack ≠ [] →
      Scope.close ext (Scope.branch b) env
        = ⟨none, { env with modeStack := env.modeStack.dropLast }⟩) ∧
    ((Scope.close ext (Scope.branch b) env).thrown = none →
      (Scope.close ext (Scope.branch b) env).state.modeStack = env.modeStack.dropLast ∧
      (Scope.close ext (Scope.branch b) env).state.modeStack.length + 1
        = env.modeStack.length ∧
      (Scope.close ext (Scope.branch b) env).state.scopeStack = env.scopeStack ∧
      (Scope.close ext (Scope.branch b) env).state.externObj = env.externObj) ∧
    (r.mDoPopModeAtCloging = true → env.modeStack ≠ [] →
      Scope.close ext (Scope.reference r) env
        = ⟨none, { env with modeStack := env.modeStack.dropLast }⟩) ∧
    (r.mDoPopModeAtCloging = false →
      Scope.close ext (Scope.reference r) env = ⟨none, env⟩) ∧
    ((Scope.close ext (Scope.reference r) env).thrown = none →
      (r.mDoPopModeAtCloging = true →
        (Scope.close ext (Scope.reference r) env).state.modeStack = env.modeStack.dropLast ∧
        (Scope.close ext (Scope.reference r) env).state.modeStack.length + 1
          = env.modeStack.length) ∧
      (r.mDoPopModeAtCloging = false →
        (Scope.close ext (Scope.reference r) env).state.modeStack = env.modeStack) ∧
      (Scope.close ext (Scope.reference r) env).state.scopeStack = env.scopeStack ∧
      (Scope.close ext (Scope.reference r) env).state.externObj = env.externObj) ∧
    (Scope.close ext (Scope.defineFunction d) env).state.modeStack.length
      = env.modeStack.length ∧
    (∀ (ptr : ValuePtr) (f : Function), env.scopeValuePtr d.mParentScope = some ptr →
      env.readPtr ptr = some (Value.function f) → (d.assemble f).thrown = none →
      (Scope.close ext (Scope.defineFunction d) env).thrown = none) ∧
    (Scope.close ext (Scope.callFunctionArguments a) env).state.modeStack = env.modeStack ∧
    (Scope.close ext (Scope.callFunctionReturnValues v) env).state.modeStack
      = env.modeStack ∧
    (∀ c : CallFunctionScope, env.currentScope = some (Scope.callFunction c) →
      (Scope.close ext (Scope.callFunctionArguments a) env).thrown = none ∧
      (Scope.close ext (Scope.callFunctionReturnValues v) env).thrown = none) := by
  have hdummy : Scope.close ext Scope.dummy env = env.popMode := rfl
  have hbranch : Scope.close ext (Scope.branch b) env = env.popMode := rfl
  have href : Scope.close ext (Scope.reference r) env
      = if r.mDoPopModeAtCloging then env.popMode else ⟨none, env⟩ := rfl
  refine ⟨?_, ?_, ?_, ?_, ?_, ?_, ?_, ?_, ?_, ?_, ?_, ?_⟩
  · intro hne
    rw [hdummy]
    exact Enviroment.popMode_of_ne_nil env hne
  · intro h
    exact Enviroment.popMode_ok env h
  · intro hne
    rw [hbranch]
    exact Enviroment.popMode_of_ne_nil env hne
  · intro h
    exact Enviroment.popMode_ok env h
  · intro hflag hne
    rw [href, hflag]
    exact Enviroment.popMode_of_ne_nil env hne
  · intro hflag
    rw [href, hflag]
    rfl
  · intro h
    rw [href] at h ⊢
    cases hflag : r.mDoPopModeAtCloging with
    | false =>
      exact ⟨fun hc => absurd hc (by decide), fun _ => rfl, rfl, rfl⟩
    | true =>
      rw [hflag] at h
      have h0 : env.popMode.thrown = none := h
      obtain ⟨h1, h2, h3, h4⟩ := Enviroment.popMode_ok env h0
      exact ⟨fun _ => ⟨h1, h2⟩, fun hc => absurd hc (by decide), h3, h4⟩
  · exact DefineFunctionScope.close_modeStack_length d env
  · intro ptr f hptr hread hok
    exact (DefineFunctionScope.close_function d env ptr f hptr hread hok).1
  · show (a.close env).state.modeStack = env.modeStack
    unfold CallFunctionArgumentsScope.close
    cases hcur : env.currentScope with
    | none => rfl
    | some t => cases t <;> rfl
  · show (v.close env).state.modeStack = env.modeStack
    unfold CallFunctionReturnValueScope.close
    cases hcur : env.currentScope with
    | none => rfl
    | some t => cases t <;> rfl
  · intro c hcur
    constructor
    · show (a.close env).thrown = none
      unfold CallFunctionArgumentsScope.close
      rw [hcur]
    · show (v.close env).thrown = none
      unfold CallFunctionReturnValueScope.close
      rw [hcur]

/-- Witness of C14: on a mode stack of two entries above a function and a call scope, a
`Dummy` scope, a `Branch` scope and a `Reference` scope with the flag close normally and leave
the bottom mode only; a `Reference` scope without the flag leaves the environment as it is; a
`DefineFunction` scope collecting captures closes normally on two modes; the two call
sub-scopes close normally with the mode stack as it was. -/
theorem Scope.close_override_pops_witness :
    Scope.close External.trivial Scope.dummy
        ⟨[ParseMode.other 1, ParseMode.defineFunction 5],
          [Scope.normal ⟨["f"], Value.function (Function.mk [] [] "")⟩,
            Scope.callFunction (CallFunctionScope.new 0 (Function.mk [] [] ""))],
          Value.none⟩
      = ⟨none, ⟨[ParseMode.other 1],
          [Scope.normal ⟨["f"], Value.function (Function.mk [] [] "")⟩,
            Scope.callFunction (CallFunctionScope.new 0 (Function.mk [] [] ""))],
          Value.none⟩⟩ ∧
    Scope.close External.trivial (Scope.branch (BranchScope.new 0 none false))
        ⟨[ParseMode.other 1, ParseMode.defineFunction 5],
          [Scope.normal ⟨["f"], Value.function (Function.mk [] [] "")⟩,
            Scope.callFunction (CallFunctionScope.new 0 (Function.mk [] [] ""))],
          Value.none⟩
      = ⟨none, ⟨[ParseMode.other 1],
          [Scope.normal ⟨["f"], Value.function (Function.mk [] [] "")⟩,
            Scope.callFunction (CallFunctionScope.new 0 (Function.mk [] [] ""))],
          Value.none⟩⟩ ∧
    Scope.close External.trivial (Scope.reference ⟨["r"], ⟨ValueRoot.externObj, []⟩, true⟩)
        ⟨[ParseMode.other 1, ParseMode.defineFunction 5],
          [Scope.normal ⟨["f"], Value.function (Function.mk [] [] "")⟩,
            Scope.callFunction (CallFunctionScope.new 0 (Function.mk [] [] ""))],
          Value.none⟩
      = ⟨none, ⟨[ParseMode.other 1],
          [Scope.normal ⟨["f"], Value.function (Function.mk [] [] "")⟩,
            Scope.callFunction (CallFunctionScope.new 0 (Function.mk [] [] ""))],
          Value.none⟩⟩ ∧
    Scope.close External.trivial (Scope.reference ⟨["r"], ⟨ValueRoot.externObj, []⟩, false⟩)
        ⟨[ParseMode.other 1, ParseMode.defineFunction 5],
          [Scope.normal ⟨["f"], Value.function (Function.mk [] [] "")⟩,
            Scope.callFunction (CallFunctionScope.new 0 (Function.mk [] [] ""))],
          Value.none⟩
      = ⟨none, ⟨[ParseMode.other 1, ParseMode.defineFunction 5],
          [Scope.normal ⟨["f"], Value.function (Function.mk [] [] "")⟩,
            Scope.callFunction (CallFunctionScope.new 0 (Function.mk [] [] ""))],
          Value.none⟩⟩ ∧
    (Scope.close External.trivial
        (Scope.defineFunction (DefineFunctionScope.new 0 DefineFunctionOperator.ToCapture))
        ⟨[ParseMode.other 1, ParseMode.defineFunction 5],
          [Scope.normal ⟨["f"], Value.function (Function.mk [] [] "")⟩,
            Scope.callFunction (CallFunctionScope.new 0 (Function.mk [] [] ""))],
          Value.none⟩).thrown = none ∧
    (Scope.close External.trivial
        (Scope.defineFunction (DefineFunctionScope.new 0 DefineFunctionOperator.ToCapture))
        ⟨[ParseMode.other 1, ParseMode.defineFunction 5],
          [Scope.normal ⟨["f"], Value.function (Function.mk [] [] "")⟩,
            Scope.callFunction (CallFunctionScope.new 0 (Function.mk [] [] ""))],
          Value.none⟩).state.modeStack.length = 2 ∧
    (Scope.close External.trivial
        (Scope.callFunctionArguments (CallFunctionArgumentsScope.new 1 0))
        ⟨[ParseMode.other 1, ParseMode.defineFunction 5],
          [Scope.normal ⟨["f"], Value.function (Function.mk [] [] "")⟩,
            Scope.callFunction (CallFunctionScope.new 0 (Function.mk [] [] ""))],
          Value.none⟩).thrown = none ∧
    (Scope.close External.trivial
        (Scope.callFunctionArguments (CallFunctionArgumentsScope.new 1 0))
        ⟨[ParseMode.other 1, ParseMode.defineFunction 5],
          [Scope.normal ⟨["f"], Value.function (Function.mk [] [] "")⟩,
            Scope.callFunction (CallFunctionScope.new 0 (Function.mk [] [] ""))],
          Value.none⟩).state.modeStack = [ParseMode.other 1, ParseMode.defineFunction 5] ∧
    (Scope.close External.trivial
        (Scope.callFunctionReturnValues (CallFunctionReturnValueScope.new 1))
        ⟨[ParseMode.other 1, ParseMode.defineFunction 5],
          [Scope.normal ⟨["f"], Value.function (Function.mk [] [] "")⟩,
            Scope.callFunction (CallFunctionScope.new 0 (Function.mk [] [] ""))],
          Value.none⟩).thrown = none ∧
    (Scope.close External.trivial
        (Scope.callFunctionReturnValues (CallFunctionReturnValueScope.new 1))
        ⟨[ParseMode.other 1, ParseMode.defineFunction 5],
          [Scope.normal ⟨["f"], Value.function (Function.mk [] [] "")⟩,
            Scope.callFunction (CallFunctionScope.new 0 (Function.mk [] [] ""))],
          Value.none⟩).state.modeStack = [ParseMode.other 1, ParseMode.defineFunction 5] :=
  have h := Scope.close_override_pops External.trivial
    ⟨[ParseMode.other 1, ParseMode.defineFunction 5],
      [Scope.normal ⟨["f"], Value.function (Function.mk [] [] "")⟩,
        Scope.callFunction (CallFunctionScope.new 0 (Function.mk [] [] ""))],
      Value.none⟩
    (BranchScope.new 0 none false) ⟨["r"], ⟨ValueRoot.externObj, []⟩, true⟩
    (DefineFunctionScope.new 0 DefineFunctionOperator.ToCapture)
    (CallFunctionArgumentsScope.new 1 0) (CallFunctionReturnValueScope.new 1)
  have h2 := Scope.close_override_pops External.trivial
    ⟨[ParseMode.other 1, ParseMode.defineFunction 5],
      [Scope.normal ⟨["f"], Value.function (Function.mk [] [] "")⟩,
        Scope.callFunction (CallFunctionScope.new 0 (Function.mk [] [] ""))],
      Value.none⟩
    (BranchScope.new 0 none false) ⟨["r"], ⟨ValueRoot.externObj, []⟩, false⟩
    (DefineFunctionScope.new 0 DefineFunctionOperator.ToCapture)
    (CallFunctionArgumentsScope.new 1 0) (CallFunctionReturnValueScope.new 1)
  ⟨h.1 (by decide), h.2.2.1 (by decide), h.2.2.2.2.1 rfl (by decide),
   h2.2.2.2.2.2.1 rfl,
   h.2.2.2.2.2.2.2.2.1 ⟨ValueRoot.scope 0, []⟩ (Function.mk [] [] "") rfl rfl rfl,
   h.2.2.2.2.2.2.2.1,
   (h.2.2.2.2.2.2.2.2.2.2.2 (CallFunctionScope.new 0 (Function.mk [] [] "")) rfl).1,
   h.2.2.2.2.2.2.2.2.2.1,
   (h.2.2.2.2.2.2.2.2.2.2.2 (CallFunctionScope.new 0 (Function.mk [] [] "")) rfl).2,
   h.2.2.2.2.2.2.2.2.2.2.1⟩

end parser
